import Mathlib

/-!
# Beacon handlers, tunnel writer and RPC helpers of the sliver server and implant

A shallow embedding of `beaconTasksHandler`, `beaconTaskResults` and
`beaconRegisterHandler` (server/handlers/beacons.go), of `tunnelWriter.Write`
(implant/sliver/handlers/tunnel_handlers), of the `PivotGraph` RPC, of the
permission interceptor (server/transport/middleware.go) and of
`checkInterface` (server/rpc/rpc-stager.go). The database tables, the event
broker and the send queue are explicit state; the clock, the database and
network failures are explicit inputs; the protobuf codec is a parameter.
-/

namespace Sliver

/-- Go byte slices, one natural number below 256 per byte. -/
abbrev Bytes := List Nat

/-- Modelled from the spec: the task states declared in server/db/models
(models/beacon.go is not under src/); the handlers write `models.SENT` and
`models.COMPLETED`, and the spec names the state of a queued task `CREATED`. -/
inductive TaskState where
  | CREATED
  | SENT
  | COMPLETED
deriving DecidableEq, Repr

/-- Position of a state on the line CREATED, SENT, COMPLETED. -/
def TaskState.rank : TaskState → Nat
  | .CREATED => 0
  | .SENT => 1
  | .COMPLETED => 2

/-- The fields of `sliverpb.Envelope` the handlers read and write: the
correlation id (int64), the type tag (uint32, the Go field `Type`) and the payload. -/
structure Envelope where
  ID : Int
  Type_ : Nat
  Data : Bytes
deriving DecidableEq, Repr

/-- The check-in message `sliverpb.BaconTasks`: beacon id, task envelopes and
the next check-in delta. -/
structure BaconTasks where
  ID : String
  Tasks : List Envelope
  NextCheckin : Int
deriving DecidableEq, Repr

/-- One row of the beacon task table (`models.BeaconTask`, which
`clientpb.BeaconTask` mirrors field by field). -/
structure BeaconTask where
  ID : String
  EnvelopeID : Int
  BeaconID : String
  CreatedAt : Int
  State : TaskState
  SentAt : Int
  CompletedAt : Int
  Request : Bytes
  Response : Bytes
deriving DecidableEq, Repr

/-- The event types of client/constants that the beacon handlers publish. -/
inductive EventType where
  | BeaconRegisteredEvent
  | BeaconTaskResultEvent
deriving DecidableEq, Repr

/-- The fields of `core.Event` set by `beaconTaskResults`. -/
structure Event where
  EventType : EventType
  Data : Bytes
deriving DecidableEq, Repr

/-- Errors of the database layer, as far as the handlers tell them apart:
`gorm.ErrRecordNotFound` and every other error. -/
inductive DbError where
  | ErrRecordNotFound
  | other
deriving DecidableEq, Repr

/-- The protobuf side of the handlers: `proto.Unmarshal` and `proto.Marshal`
at the message types used, and the `sliverpb.MsgBeaconTasks` type tag.
`marshalBeaconTask` is the marshalling whose error the handler discards. -/
structure Proto where
  MsgBeaconTasks : Nat
  unmarshalBaconTasks : Bytes → Option BaconTasks
  unmarshalEnvelope : Bytes → Option Envelope
  marshalBaconTasks : BaconTasks → Option Bytes
  marshalBeaconTask : BeaconTask → Bytes

/-- What the run of a handler takes from outside the program: the reading of
`time.Now().Unix()` taken when a task is stamped, and which database calls
fail. -/
structure Env where
  now : BeaconTask → Int
  queryErr : String → Option DbError
  lookupErr : String → Int → Option DbError
  updateFails : BeaconTask → Bool

/-- The state the handlers act on: the beacon task table, the events
published on `core.EventBroker` (oldest first) and the calls made to
`db.UpdateBeaconCheckinByID` (oldest first). -/
structure World where
  tasks : List BeaconTask
  events : List Event
  checkins : List (String × Int)
deriving DecidableEq, Repr

/-- Dispatch order of two rows: creation time ascending, ties by identifier. -/
def createdBefore (a b : BeaconTask) : Prop :=
  a.CreatedAt < b.CreatedAt ∨ (a.CreatedAt = b.CreatedAt ∧ ¬ b.ID < a.ID)

instance (a b : BeaconTask) : Decidable (createdBefore a b) := by
  unfold createdBefore
  exact inferInstance

/-- Modelled from the spec: `db.PendingBeaconTasksByBeaconID` (server/db is
not under src/), the spec's `findPendingTasksByBeaconOrderedByCreation`: all
`CREATED` tasks of the beacon ordered by creation time, identifier ordering
breaking ties. A failing query returns no rows and its error. -/
def PendingBeaconTasksByBeaconID (env : Env) (rows : List BeaconTask) (id : String) :
    List BeaconTask × Option DbError :=
  match env.queryErr id with
  | some e => ([], some e)
  | none =>
    (List.insertionSort createdBefore
      (rows.filter (fun r => r.BeaconID = id ∧ r.State = TaskState.CREATED)), none)

/-- Modelled from the spec: `db.BeaconTaskByEnvelopeID` (server/db is not
under src/), the spec's `findTaskByEnvelopeId`. The spec has the result path
locate the task by (beacon id, envelope id) and log and skip a result for a
task that is unknown or not in state `SENT`; `beaconTaskResults` skips only on
the error and nil results of the lookup, so the lookup is where a task that is
not `SENT` is not found. -/
def BeaconTaskByEnvelopeID (env : Env) (rows : List BeaconTask) (beaconID : String)
    (envelopeID : Int) : Option BeaconTask × Option DbError :=
  match env.lookupErr beaconID envelopeID with
  | some e => (none, some e)
  | none =>
    match rows.find? (fun r => r.BeaconID = beaconID ∧ r.EnvelopeID = envelopeID
        ∧ r.State = TaskState.SENT) with
    | some t => (some t, none)
    | none => (none, some DbError.ErrRecordNotFound)

/-- Modelled from the spec: the write `db.Session().Model(..).Where(ID: id).Updates(task)`
(the spec's `updateTaskState`): every row whose identifier is `id` takes the
values of `task`. -/
def updateTask (rows : List BeaconTask) (id : String) (task : BeaconTask) : List BeaconTask :=
  rows.map (fun r => if r.ID = id then task else r)

/-- The record `beaconTasksHandler` writes for a dispatched task (lines 167-168). -/
def markSent (env : Env) (pendingTask : BeaconTask) : BeaconTask :=
  { pendingTask with State := TaskState.SENT, SentAt := env.now pendingTask }

/-- The envelope `beaconTasksHandler` builds for a pending task (lines
159-165): the stored request decoded, its id replaced by the task's envelope
id; `none` when the stored request does not decode. -/
def taskEnvelope (p : Proto) (pendingTask : BeaconTask) : Option Envelope :=
  match p.unmarshalEnvelope pendingTask.Request with
  | none => none
  | some envelope => some { envelope with ID := pendingTask.EnvelopeID }

/-- The loop of `beaconTasksHandler` over the pending tasks (lines 158-175):
`tasks` is the batch built so far, `rows` the task table. -/
def sendPending (p : Proto) (env : Env) :
    List BeaconTask → List Envelope → List BeaconTask → List Envelope × List BeaconTask
  | [], tasks, rows => (tasks, rows)
  | pendingTask :: rest, tasks, rows =>
    match taskEnvelope p pendingTask with
    | none => sendPending p env rest tasks rows
    | some envelope =>
      let sent := markSent env pendingTask
      if env.updateFails sent then
        sendPending p env rest (tasks ++ [envelope]) rows
      else
        sendPending p env rest (tasks ++ [envelope]) (updateTask rows pendingTask.ID sent)

/-- The record `beaconTaskResults` writes for a reported task (lines 199-201). -/
def markCompleted (env : Env) (dbTask : BeaconTask) (envelope : Envelope) : BeaconTask :=
  { dbTask with
    State := TaskState.COMPLETED
    CompletedAt := env.now dbTask
    Response := envelope.Data }

/-- The body of the loop of `beaconTaskResults` for one envelope (lines 190-214). -/
def taskResult (p : Proto) (env : Env) (beaconID : String) (envelope : Envelope)
    (w : World) : World :=
  match BeaconTaskByEnvelopeID env w.tasks beaconID envelope.ID with
  | (_, some _) => w
  | (none, none) => w
  | (some dbTask, none) =>
    let dbTask := markCompleted env dbTask envelope
    if env.updateFails dbTask then w
    else
      { w with
        tasks := updateTask w.tasks dbTask.ID dbTask
        events := w.events ++ [{ EventType := EventType.BeaconTaskResultEvent,
                                 Data := p.marshalBeaconTask dbTask }] }

/-- The function `beaconTaskResults`: the envelopes of the batch in order; the
Go function always returns nil, so only the state is kept. -/
def beaconTaskResults (p : Proto) (env : Env) (beaconID : String) :
    List Envelope → World → World
  | [], w => w
  | envelope :: rest, w => beaconTaskResults p env beaconID rest (taskResult p env beaconID envelope w)

/-- The function `beaconTasksHandler`. The two goroutines it starts (the
check-in update and `beaconTaskResults`) are run to completion in program
order. -/
def beaconTasksHandler (p : Proto) (env : Env) (w : World) (data : Bytes) :
    Option Envelope × World :=
  match p.unmarshalBaconTasks data with
  | none => (none, w)
  | some msg =>
    let w := { w with checkins := w.checkins ++ [(msg.ID, msg.NextCheckin)] }
    if 0 < msg.Tasks.length then
      (none, beaconTaskResults p env msg.ID msg.Tasks w)
    else
      match PendingBeaconTasksByBeaconID env w.tasks msg.ID with
      | (_, some DbError.other) => (none, w)
      | (pendingTasks, _) =>
        let (tasks, rows) := sendPending p env pendingTasks [] w.tasks
        let w := { w with tasks := rows }
        match p.marshalBaconTasks { ID := "", Tasks := tasks, NextCheckin := 0 } with
        | none => (none, w)
        | some taskData => (some { ID := 0, Type_ := p.MsgBeaconTasks, Data := taskData }, w)

/-! ## A protobuf wire codec for the concrete evaluations -/

/-- Reads a base-128 varint (least significant group first) of at most
`groups` bytes; the last of ten bytes carries one bit, as in
`protowire.ConsumeVarint`, which refuses a longer or larger varint. -/
def readVarintAt : Nat → Bytes → Option (Nat × Bytes)
  | 0, _ => none
  | _, [] => none
  | groups + 1, b :: bs =>
    if b < 128 then (if groups = 0 ∧ 2 ≤ b then none else some (b, bs))
    else
      match readVarintAt groups bs with
      | none => none
      | some (v, rest) => some (b % 128 + 128 * v, rest)

/-- Reads a varint of at most ten bytes. -/
def readVarint (data : Bytes) : Option (Nat × Bytes) := readVarintAt 10 data

/-- Writes a varint of at most `fuel + 1` groups. -/
def writeVarint : Nat → Nat → Bytes
  | 0, n => [n % 128]
  | fuel + 1, n => if n < 128 then [n] else (n % 128 + 128) :: writeVarint fuel (n / 128)

/-- The value carried by one field of a protobuf message. -/
inductive WireValue where
  | varint (n : Nat)
  | fixed (b : Bytes)
  | bytes (b : Bytes)
deriving DecidableEq, Repr

/-- Splits a message into its fields (number and value); `none` on a
truncated message, field number 0 or a wire type other than 0, 1, 2 and 5. -/
def readFields : Nat → Bytes → Option (List (Nat × WireValue))
  | _, [] => some []
  | 0, _ :: _ => none
  | fuel + 1, b :: bs =>
    match readVarint (b :: bs) with
    | none => none
    | some (tag, rest) =>
      if tag / 8 = 0 then none
      else if tag % 8 = 0 then
        match readVarint rest with
        | none => none
        | some (v, rest2) => (readFields fuel rest2).map (fun fs => (tag / 8, WireValue.varint v) :: fs)
      else if tag % 8 = 2 then
        match readVarint rest with
        | none => none
        | some (n, rest2) =>
          if rest2.length < n then none
          else (readFields fuel (rest2.drop n)).map
            (fun fs => (tag / 8, WireValue.bytes (rest2.take n)) :: fs)
      else if tag % 8 = 1 then
        if rest.length < 8 then none
        else (readFields fuel (rest.drop 8)).map
          (fun fs => (tag / 8, WireValue.fixed (rest.take 8)) :: fs)
      else if tag % 8 = 5 then
        if rest.length < 4 then none
        else (readFields fuel (rest.drop 4)).map
          (fun fs => (tag / 8, WireValue.fixed (rest.take 4)) :: fs)
      else none

/-- An unsigned 64-bit varint read as int64 (two's complement). -/
def toInt64 (n : Nat) : Int :=
  if n % 2 ^ 64 < 2 ^ 63 then (n % 2 ^ 64 : Nat) else ((n % 2 ^ 64 : Nat) : Int) - 2 ^ 64

/-- An int64 as the unsigned 64-bit number that is written on the wire. -/
def ofInt64 (i : Int) : Nat := (i % 2 ^ 64).toNat

/-- Whether a byte is a continuation byte of UTF-8. -/
def isCont (b : Nat) : Bool := decide (128 ≤ b) && decide (b < 192)

/-- Decodes UTF-8: `none` on a truncated sequence, a stray continuation byte,
an overlong form, a surrogate or a code point above U+10FFFF. -/
def decodeUTF8 : Nat → Bytes → Option (List Char)
  | _, [] => some []
  | 0, _ :: _ => none
  | fuel + 1, b0 :: rest =>
    if b0 < 128 then (decodeUTF8 fuel rest).map (fun cs => Char.ofNat b0 :: cs)
    else if 194 ≤ b0 ∧ b0 < 224 then
      match rest with
      | b1 :: r =>
        if isCont b1 then
          (decodeUTF8 fuel r).map (fun cs => Char.ofNat (b0 % 32 * 64 + b1 % 64) :: cs)
        else none
      | _ => none
    else if 224 ≤ b0 ∧ b0 < 240 then
      match rest with
      | b1 :: b2 :: r =>
        if isCont b1 && isCont b2
            && decide (2048 ≤ b0 % 16 * 4096 + b1 % 64 * 64 + b2 % 64)
            && !(decide (55296 ≤ b0 % 16 * 4096 + b1 % 64 * 64 + b2 % 64)
                  && decide (b0 % 16 * 4096 + b1 % 64 * 64 + b2 % 64 < 57344)) then
          (decodeUTF8 fuel r).map
            (fun cs => Char.ofNat (b0 % 16 * 4096 + b1 % 64 * 64 + b2 % 64) :: cs)
        else none
      | _ => none
    else if 240 ≤ b0 ∧ b0 < 245 then
      match rest with
      | b1 :: b2 :: b3 :: r =>
        if isCont b1 && isCont b2 && isCont b3
            && decide (65536 ≤ b0 % 8 * 262144 + b1 % 64 * 4096 + b2 % 64 * 64 + b3 % 64)
            && decide (b0 % 8 * 262144 + b1 % 64 * 4096 + b2 % 64 * 64 + b3 % 64 < 1114112) then
          (decodeUTF8 fuel r).map
            (fun cs => Char.ofNat (b0 % 8 * 262144 + b1 % 64 * 4096 + b2 % 64 * 64 + b3 % 64) :: cs)
        else none
      | _ => none
    else none

/-- A string field: the bytes are read as UTF-8 and refused when they are not
valid UTF-8, as `proto.Unmarshal` does for a proto3 string. -/
def readString (b : Bytes) : Option String :=
  (decodeUTF8 b.length b).map String.mk

/-- The UTF-8 bytes of a character. -/
def encodeChar (c : Char) : Bytes :=
  if c.toNat < 128 then [c.toNat]
  else if c.toNat < 2048 then [192 + c.toNat / 64, 128 + c.toNat % 64]
  else if c.toNat < 65536 then
    [224 + c.toNat / 4096, 128 + c.toNat / 64 % 64, 128 + c.toNat % 64]
  else [240 + c.toNat / 262144, 128 + c.toNat / 4096 % 64, 128 + c.toNat / 64 % 64,
        128 + c.toNat % 64]

/-- The UTF-8 bytes of a string. -/
def writeString (s : String) : Bytes := (s.toList.map encodeChar).flatten

/-- A length-delimited field: tag, length, content. -/
def writeBytes (tag : Nat) (b : Bytes) : Bytes := tag :: (writeVarint 9 b.length ++ b)

/-- Fills an `Envelope` from the fields of a message: ID = 1, Type = 2,
Data = 3, a later value replacing an earlier one, other fields skipped. -/
def envelopeOfFields : List (Nat × WireValue) → Envelope → Envelope
  | [], e => e
  | (1, .varint v) :: fs, e => envelopeOfFields fs { e with ID := toInt64 v }
  | (2, .varint v) :: fs, e => envelopeOfFields fs { e with Type_ := v % 2 ^ 32 }
  | (3, .bytes b) :: fs, e => envelopeOfFields fs { e with Data := b }
  | _ :: fs, e => envelopeOfFields fs e

/-- Decoding of `sliverpb.Envelope`. -/
def wireUnmarshalEnvelope (data : Bytes) : Option Envelope :=
  (readFields data.length data).map (fun fs => envelopeOfFields fs { ID := 0, Type_ := 0, Data := [] })

/-- Encoding of `sliverpb.Envelope`; zero values are left out, as in proto3. -/
def wireMarshalEnvelope (e : Envelope) : Bytes :=
  (if e.ID = 0 then [] else 8 :: writeVarint 9 (ofInt64 e.ID))
  ++ (if e.Type_ = 0 then [] else 16 :: writeVarint 9 e.Type_)
  ++ (if e.Data = [] then [] else writeBytes 26 e.Data)

/-- Fills a `BaconTasks` from the fields of a message: ID = 1, Tasks = 2
(repeated), NextCheckin = 3; `none` when a string or a task does not decode. -/
def baconTasksOfFields : List (Nat × WireValue) → BaconTasks → Option BaconTasks
  | [], m => some m
  | (1, .bytes b) :: fs, m =>
    match readString b with
    | none => none
    | some s => baconTasksOfFields fs { m with ID := s }
  | (2, .bytes b) :: fs, m =>
    match wireUnmarshalEnvelope b with
    | none => none
    | some e => baconTasksOfFields fs { m with Tasks := m.Tasks ++ [e] }
  | (3, .varint v) :: fs, m => baconTasksOfFields fs { m with NextCheckin := toInt64 v }
  | _ :: fs, m => baconTasksOfFields fs m

/-- Decoding of `sliverpb.BaconTasks`. -/
def wireUnmarshalBaconTasks (data : Bytes) : Option BaconTasks :=
  match readFields data.length data with
  | none => none
  | some fs => baconTasksOfFields fs { ID := "", Tasks := [], NextCheckin := 0 }

/-- Encoding of `sliverpb.BaconTasks`. -/
def wireMarshalBaconTasks (m : BaconTasks) : Bytes :=
  (if m.ID = "" then [] else writeBytes 10 (writeString m.ID))
  ++ (m.Tasks.map (fun e => writeBytes 18 (wireMarshalEnvelope e))).flatten
  ++ (if m.NextCheckin = 0 then [] else 24 :: writeVarint 9 (ofInt64 m.NextCheckin))

/-- The name a task state is stored under. -/
def TaskState.name : TaskState → String
  | .CREATED => "created"
  | .SENT => "sent"
  | .COMPLETED => "completed"

/-- Encoding of `clientpb.BeaconTask`, fields numbered in the order ID,
BeaconID, CreatedAt, State, SentAt, CompletedAt, Request, Response. -/
def wireMarshalBeaconTask (t : BeaconTask) : Bytes :=
  (if t.ID = "" then [] else writeBytes 10 (writeString t.ID))
  ++ (if t.BeaconID = "" then [] else writeBytes 18 (writeString t.BeaconID))
  ++ (if t.CreatedAt = 0 then [] else 24 :: writeVarint 9 (ofInt64 t.CreatedAt))
  ++ writeBytes 34 (writeString t.State.name)
  ++ (if t.SentAt = 0 then [] else 40 :: writeVarint 9 (ofInt64 t.SentAt))
  ++ (if t.CompletedAt = 0 then [] else 48 :: writeVarint 9 (ofInt64 t.CompletedAt))
  ++ (if t.Request = [] then [] else writeBytes 58 t.Request)
  ++ (if t.Response = [] then [] else writeBytes 66 t.Response)

/-- Modelled from the spec: the messages of protobuf/sliverpb and
protobuf/clientpb (not under src/) in the protobuf wire format, the instance of
`Proto` at which the handlers are evaluated on concrete inputs. The spec gives
an envelope a type tag, a correlation id and a binary payload, and a check-in a
beacon id, a next-checkin delta and a list of task results; the field numbers
follow that order of declaration and the value of the `MsgBeaconTasks` tag is
a stand-in. Marshalling these messages has no failure case. -/
def wire : Proto where
  MsgBeaconTasks := 100
  unmarshalBaconTasks := wireUnmarshalBaconTasks
  unmarshalEnvelope := wireUnmarshalEnvelope
  marshalBaconTasks := fun m => some (wireMarshalBaconTasks m)
  marshalBeaconTask := wireMarshalBeaconTask

/-- An environment in which every database call succeeds and the clock reads
`now` throughout. -/
def calm (now : Int) : Env where
  now := fun _ => now
  queryErr := fun _ => none
  lookupErr := fun _ _ => none
  updateFails := fun _ => false

/-- An environment in which every database write fails. -/
def failing (now : Int) : Env where
  now := fun _ => now
  queryErr := fun _ => none
  lookupErr := fun _ _ => none
  updateFails := fun _ => true

/-- A check-in of beacon "b" that carries no results. -/
def pollB : Bytes := [10, 1, 98]

/-- A queued task of beacon "b" whose stored request is an envelope of type 5. -/
def taskT1 : BeaconTask :=
  { ID := "t1", EnvelopeID := 7, BeaconID := "b", CreatedAt := 1, State := TaskState.CREATED,
    SentAt := 0, CompletedAt := 0, Request := [16, 5], Response := [] }

/-- A later queued task of beacon "b" whose stored request is an envelope of type 6. -/
def taskT2 : BeaconTask :=
  { ID := "t2", EnvelopeID := 8, BeaconID := "b", CreatedAt := 2, State := TaskState.CREATED,
    SentAt := 0, CompletedAt := 0, Request := [16, 6], Response := [] }

/-- A queued task of beacon "b" whose stored request is cut off inside its
first tag and so decodes as no message. -/
def taskBad : BeaconTask :=
  { ID := "t3", EnvelopeID := 9, BeaconID := "b", CreatedAt := 3, State := TaskState.CREATED,
    SentAt := 0, CompletedAt := 0, Request := [255], Response := [] }

/-- The task `taskT1` after its dispatch at time 100. -/
def sentT1 : BeaconTask := markSent (calm 100) taskT1

/-- The task `taskT2` after its dispatch at time 100. -/
def sentT2 : BeaconTask := markSent (calm 100) taskT2

/-- A task of beacon "b" that was completed at time 50 with response [1]. -/
def taskDone : BeaconTask :=
  { ID := "t0", EnvelopeID := 5, BeaconID := "b", CreatedAt := 0, State := TaskState.COMPLETED,
    SentAt := 40, CompletedAt := 50, Request := [16, 4], Response := [1] }

/-- A result envelope echoing the envelope id of a task, with its payload. -/
def resultFor (id : Int) (data : Bytes) : Envelope := { ID := id, Type_ := 0, Data := data }

/-- A run of the server over a sequence of check-ins of beacons, each with
the environment it is processed in: `beaconTasksHandler` on each payload in
turn (which runs `beaconTaskResults` on a check-in that carries results). -/
def checkIns (p : Proto) : List (Env × Bytes) → World → World
  | [], w => w
  | (env, data) :: rest, w => checkIns p rest (beaconTasksHandler p env w data).2

/-- A check-in of beacon "b" that carries one result, for envelope id 7 with
payload [3], and a next check-in delta of 60. -/
def resultsB : Bytes :=
  wireMarshalBaconTasks { ID := "b", Tasks := [resultFor 7 [3]], NextCheckin := 60 }

/-- An environment in which the lookup of envelope id 8 fails and every other
database call succeeds. -/
def lookupFails8 (now : Int) : Env where
  now := fun _ => now
  queryErr := fun _ => none
  lookupErr := fun _ id => if id = 8 then some DbError.other else none
  updateFails := fun _ => false

/-! ## Beacon registration (server/handlers/beacons.go, lines 46-105) -/

/-- The text form of a `uuid.UUID`. -/
abbrev UUID := String

/-- The fields of the `sliverpb.Register` sub-message that
`beaconRegisterHandler` reads. -/
structure Register where
  Name : String
  Hostname : String
  Uuid : String
  Username : String
  Uid : String
  Gid : String
  Os : String
  Arch : String
  Pid : Int
  Filename : String
  Version : String
  ReconnectInterval : Int
  ActiveC2 : String
  ProxyURL : String
  Locale : String
deriving DecidableEq, Repr

/-- The registration message `sliverpb.BaconRegister`; `Register` is a
pointer, `none` when the payload carries no such sub-message. -/
structure BaconRegister where
  ID : String
  Interval : Int
  Jitter : Int
  Register : Option Register
  NextCheckin : Int
deriving DecidableEq, Repr

/-- What `beaconRegisterHandler` reads of `core.ImplantConnection`;
`LastMessage` is the value of `GetLastMessage()` in Unix seconds. -/
structure ImplantConnection where
  Transport : String
  RemoteAddress : String
  LastMessage : Int
deriving DecidableEq, Repr

/-- The fields of `models.Beacon` that `beaconRegisterHandler` sets. -/
structure Beacon where
  ID : UUID
  Name : String
  Hostname : String
  UUID : UUID
  Username : String
  UID : String
  GID : String
  OS : String
  Arch : String
  Transport : String
  RemoteAddress : String
  PID : Int
  Filename : String
  LastCheckin : Int
  Version : String
  ReconnectInterval : Int
  ActiveC2 : String
  ProxyURL : String
  Locale : String
  Interval : Int
  Jitter : Int
  NextCheckin : Int
deriving DecidableEq, Repr

/-- The fields of `core.Event` set by `beaconRegisterHandler`. -/
structure BeaconEvent where
  EventType : EventType
  Data : Bytes
  Beacon : Beacon
deriving DecidableEq, Repr

/-- The protobuf side of `beaconRegisterHandler`: `proto.Unmarshal` at
`sliverpb.BaconRegister`, and the marshalling of `beacon.ToProtobuf()` whose
error the handler discards. -/
structure RegProto where
  unmarshalBaconRegister : Bytes → Option BaconRegister
  marshalBeacon : Beacon → Bytes

/-- What a run of `beaconRegisterHandler` takes from outside the program: the
reading of `time.Now().Unix()`, what `db.BeaconByID` returns for an identifier
(a record pointer and an error), `uuid.FromString` with its error dropped, and
whether `db.Session().Save` of a record fails. -/
structure RegEnv where
  now : Int
  BeaconByID : String → Option Beacon × Option DbError
  FromString : String → UUID
  saveFails : Beacon → Bool

/-- The state `beaconRegisterHandler` acts on: the records stored by
`db.Session().Save` (oldest first), the events published on
`core.EventBroker` and the calls of `auditLogBeacon` it started. -/
structure Registry where
  saved : List Beacon
  events : List BeaconEvent
  audit : List (Beacon × Register)
deriving DecidableEq, Repr

/-- How a run of a handler ends: it returns a result, or it stops on a
runtime fault (a nil pointer dereference); either way with the state reached. -/
inductive Run (σ α : Type) where
  | done (result : α) (state : σ)
  | fault (state : σ)
deriving DecidableEq, Repr

/-- The record `&models.Beacon{ID: beaconUUID}` (line 62): every other field
has its zero value. -/
def newBeacon (beaconUUID : UUID) : Beacon :=
  { ID := beaconUUID, Name := "", Hostname := "", UUID := "", Username := "", UID := "",
    GID := "", OS := "", Arch := "", Transport := "", RemoteAddress := "", PID := 0,
    Filename := "", LastCheckin := 0, Version := "", ReconnectInterval := 0, ActiveC2 := "",
    ProxyURL := "", Locale := "", Interval := 0, Jitter := 0, NextCheckin := 0 }

/-- The assignments of lines 66-89 to the beacon record, from the registration
message, its `Register` sub-message and the connection. -/
def registerBeacon (env : RegEnv) (implantConn : ImplantConnection) (beaconReg : BaconRegister)
    (register : Register) (beacon : Beacon) : Beacon :=
  { beacon with
    Name := register.Name
    Hostname := register.Hostname
    UUID := env.FromString register.Uuid
    Username := register.Username
    UID := register.Uid
    GID := register.Gid
    OS := register.Os
    Arch := register.Arch
    Transport := implantConn.Transport
    RemoteAddress := implantConn.RemoteAddress
    PID := register.Pid
    Filename := register.Filename
    LastCheckin := implantConn.LastMessage
    Version := register.Version
    ReconnectInterval := register.ReconnectInterval
    ActiveC2 := register.ActiveC2
    ProxyURL := register.ProxyURL
    Locale := register.Locale
    Interval := beaconReg.Interval
    Jitter := beaconReg.Jitter
    NextCheckin := env.now + beaconReg.NextCheckin }

/-- Lines 91-103 of `beaconRegisterHandler`: the record is passed to `Save`,
which stores it unless it fails (the error is only logged); either way a
`BeaconRegisteredEvent` is published for the record and the `auditLogBeacon`
goroutine is started, recorded as its call. -/
def saveAndPublish (p : RegProto) (env : RegEnv) (w : Registry) (beacon : Beacon)
    (register : Register) : Registry :=
  { saved := if env.saveFails beacon then w.saved else w.saved ++ [beacon]
    events := w.events ++ [{ EventType := EventType.BeaconRegisteredEvent,
                             Data := p.marshalBeacon beacon, Beacon := beacon }]
    audit := w.audit ++ [(beacon, register)] }

/-- The function `beaconRegisterHandler`. The dereferences of
`beaconReg.Register` (line 66) and of `beacon` (line 67) fault on nil. -/
def beaconRegisterHandler (p : RegProto) (env : RegEnv) (implantConn : ImplantConnection)
    (w : Registry) (data : Bytes) : Run Registry (Option Envelope) :=
  match p.unmarshalBaconRegister data with
  | none => Run.done none w
  | some beaconReg =>
    match env.BeaconByID beaconReg.ID with
    | (_, some DbError.other) => Run.done none w
    | (found, err) =>
      let beaconUUID := env.FromString beaconReg.ID
      let beacon := if err = some DbError.ErrRecordNotFound then some (newBeacon beaconUUID)
        else found
      match beaconReg.Register with
      | none => Run.fault w
      | some register =>
        match beacon with
        | none => Run.fault w
        | some beacon =>
          let beacon := registerBeacon env implantConn beaconReg register beacon
          Run.done none (saveAndPublish p env w beacon register)

/-- An int32 read from an unsigned varint (two's complement of the low 32 bits). -/
def toInt32 (n : Nat) : Int :=
  if n % 2 ^ 32 < 2 ^ 31 then (n % 2 ^ 32 : Nat) else ((n % 2 ^ 32 : Nat) : Int) - 2 ^ 32

/-- A string field of a message under construction: `none` when it does not decode. -/
def withString {α : Type} (b : Bytes) (k : String → Option α) : Option α :=
  match readString b with
  | none => none
  | some s => k s

/-- Fills a `Register` from the fields of a message, numbered Name = 1,
Hostname = 2, Uuid = 3, Username = 4, Uid = 5, Gid = 6, Os = 7, Arch = 8,
Pid = 9, Filename = 10, ActiveC2 = 11, Version = 12, ReconnectInterval = 13,
ProxyURL = 14, Locale = 18. -/
def registerOfFields : List (Nat × WireValue) → Register → Option Register
  | [], r => some r
  | (1, .bytes b) :: fs, r => withString b (fun s => registerOfFields fs { r with Name := s })
  | (2, .bytes b) :: fs, r => withString b (fun s => registerOfFields fs { r with Hostname := s })
  | (3, .bytes b) :: fs, r => withString b (fun s => registerOfFields fs { r with Uuid := s })
  | (4, .bytes b) :: fs, r => withString b (fun s => registerOfFields fs { r with Username := s })
  | (5, .bytes b) :: fs, r => withString b (fun s => registerOfFields fs { r with Uid := s })
  | (6, .bytes b) :: fs, r => withString b (fun s => registerOfFields fs { r with Gid := s })
  | (7, .bytes b) :: fs, r => withString b (fun s => registerOfFields fs { r with Os := s })
  | (8, .bytes b) :: fs, r => withString b (fun s => registerOfFields fs { r with Arch := s })
  | (9, .varint v) :: fs, r => registerOfFields fs { r with Pid := toInt32 v }
  | (10, .bytes b) :: fs, r => withString b (fun s => registerOfFields fs { r with Filename := s })
  | (11, .bytes b) :: fs, r => withString b (fun s => registerOfFields fs { r with ActiveC2 := s })
  | (12, .bytes b) :: fs, r => withString b (fun s => registerOfFields fs { r with Version := s })
  | (13, .varint v) :: fs, r => registerOfFields fs { r with ReconnectInterval := toInt64 v }
  | (14, .bytes b) :: fs, r => withString b (fun s => registerOfFields fs { r with ProxyURL := s })
  | (18, .bytes b) :: fs, r => withString b (fun s => registerOfFields fs { r with Locale := s })
  | _ :: fs, r => registerOfFields fs r

/-- The `Register` message with every field at its zero value. -/
def emptyRegister : Register :=
  { Name := "", Hostname := "", Uuid := "", Username := "", Uid := "", Gid := "", Os := "",
    Arch := "", Pid := 0, Filename := "", Version := "", ReconnectInterval := 0, ActiveC2 := "",
    ProxyURL := "", Locale := "" }

/-- Decoding of a `sliverpb.Register` into a message that may already hold
fields: the fields read overwrite, the others stay. -/
def wireMergeRegister (data : Bytes) (into : Register) : Option Register :=
  match readFields data.length data with
  | none => none
  | some fs => registerOfFields fs into

/-- Decoding of `sliverpb.Register`. -/
def wireUnmarshalRegister (data : Bytes) : Option Register :=
  wireMergeRegister data emptyRegister

/-- Fills a `BaconRegister` from the fields of a message, numbered ID = 1,
Interval = 2, Jitter = 3, Register = 4, NextCheckin = 5; a repeated `Register`
field is merged into the earlier one. -/
def baconRegisterOfFields : List (Nat × WireValue) → BaconRegister → Option BaconRegister
  | [], m => some m
  | (1, .bytes b) :: fs, m => withString b (fun s => baconRegisterOfFields fs { m with ID := s })
  | (2, .varint v) :: fs, m => baconRegisterOfFields fs { m with Interval := toInt64 v }
  | (3, .varint v) :: fs, m => baconRegisterOfFields fs { m with Jitter := toInt64 v }
  | (4, .bytes b) :: fs, m =>
    match wireMergeRegister b (m.Register.getD emptyRegister) with
    | none => none
    | some r => baconRegisterOfFields fs { m with Register := some r }
  | (5, .varint v) :: fs, m => baconRegisterOfFields fs { m with NextCheckin := toInt64 v }
  | _ :: fs, m => baconRegisterOfFields fs m

/-- Decoding of `sliverpb.BaconRegister`: a payload without field 4 decodes
to a message whose `Register` is nil. -/
def wireUnmarshalBaconRegister (data : Bytes) : Option BaconRegister :=
  match readFields data.length data with
  | none => none
  | some fs =>
    baconRegisterOfFields fs
      { ID := "", Interval := 0, Jitter := 0, Register := none, NextCheckin := 0 }

/-- A string field on the wire, left out when empty. -/
def writeStringField (tag : Nat) (s : String) : Bytes :=
  if s = "" then [] else writeBytes tag (writeString s)

/-- An int64 field on the wire, left out when zero. -/
def writeIntField (tag : Nat) (i : Int) : Bytes :=
  if i = 0 then [] else tag :: writeVarint 9 (ofInt64 i)

/-- Encoding of the beacon record for the registration event, the fields
numbered from 1 in the order of `Beacon`. -/
def wireMarshalBeacon (b : Beacon) : Bytes :=
  writeStringField 10 b.ID ++ writeStringField 18 b.Name ++ writeStringField 26 b.Hostname
  ++ writeStringField 34 b.UUID ++ writeStringField 42 b.Username ++ writeStringField 50 b.UID
  ++ writeStringField 58 b.GID ++ writeStringField 66 b.OS ++ writeStringField 74 b.Arch
  ++ writeStringField 82 b.Transport ++ writeStringField 90 b.RemoteAddress
  ++ writeIntField 96 b.PID ++ writeStringField 106 b.Filename ++ writeIntField 112 b.LastCheckin
  ++ writeStringField 122 b.Version

/-- Modelled from the spec: the registration messages of protobuf/sliverpb and
protobuf/clientpb (not under src/) in the protobuf wire format, the instance of
`RegProto` at which `beaconRegisterHandler` is evaluated on concrete inputs;
the field numbers are stand-ins and the event payload carries the first fields
of the record. -/
def wireReg : RegProto where
  unmarshalBaconRegister := wireUnmarshalBaconRegister
  marshalBeacon := wireMarshalBeacon

/-- An environment at time `now` in which no beacon is known and identifiers
parse to their own text. -/
def freshEnv (now : Int) : RegEnv where
  now := now
  BeaconByID := fun _ => (none, some DbError.ErrRecordNotFound)
  FromString := fun s => s
  saveFails := fun _ => false

/-- The connection of the sample registrations. -/
def sampleConn : ImplantConnection :=
  { Transport := "mtls", RemoteAddress := "10.0.0.9:4444", LastMessage := 500 }

/-- A registration payload of beacon "b" with no `Register` sub-message. -/
def registerNoSub : Bytes := [10, 1, 98]

/-- A registration payload of beacon "b": interval 60, jitter 5, a `Register`
sub-message naming the host "h", and a next check-in delta of 1000. -/
def registerB : Bytes := [10, 1, 98, 16, 60, 24, 5, 34, 3, 18, 1, 104, 40, 232, 7]

/-- A record of beacon "b" as a previous registration left it. -/
def knownB : Beacon :=
  { newBeacon "b" with Name := "old", Hostname := "h0", Transport := "http", LastCheckin := 100,
                       Interval := 30, Jitter := 3, NextCheckin := 130 }

/-- An environment at time `now` in which beacon "b" is registered (as
`knownB`), no other beacon is, and identifiers parse to their own text. -/
def knownEnv (now : Int) : RegEnv where
  now := now
  BeaconByID := fun id => if id = "b" then (some knownB, none)
    else (none, some DbError.ErrRecordNotFound)
  FromString := fun s => s
  saveFails := fun _ => false

/-- An environment at time `now` in which no beacon is known and every `Save`
fails. -/
def noSaveEnv (now : Int) : RegEnv where
  now := now
  BeaconByID := fun _ => (none, some DbError.ErrRecordNotFound)
  FromString := fun s => s
  saveFails := fun _ => true

/-- An environment at time `now` in which the beacon lookup fails with an
error other than not-found. -/
def brokenEnv (now : Int) : RegEnv where
  now := now
  BeaconByID := fun _ => (none, some DbError.other)
  FromString := fun s => s
  saveFails := fun _ => false

/-- The message that `registerB` decodes to. -/
def regMsgB : BaconRegister :=
  { ID := "b", Interval := 60, Jitter := 5,
    Register := some { emptyRegister with Hostname := "h" }, NextCheckin := 1000 }

/-- The record saved for `registerB` at time 500 when beacon "b" is not yet known. -/
def savedB : Beacon :=
  registerBeacon (freshEnv 500) sampleConn regMsgB { emptyRegister with Hostname := "h" }
    (newBeacon "b")

/-! ## The tunnel writer of the implant (implant/sliver/handlers/tunnel_handlers) -/

/-- Modelled from the spec: `transports.Tunnel` (implant/sliver/transports is
not under src/): a tunnel identifier and two independent sequence counters
that count up from 0. -/
structure Tunnel where
  ID : Nat
  writeSequence : Nat
  readSequence : Nat
deriving DecidableEq, Repr

/-- Modelled from the spec: `Tunnel.WriteSequence()`, the current
write-sequence value. -/
def Tunnel.WriteSequence (t : Tunnel) : Nat := t.writeSequence

/-- Modelled from the spec: `Tunnel.ReadSequence()`, the current read-sequence
value. -/
def Tunnel.ReadSequence (t : Tunnel) : Nat := t.readSequence

/-- Modelled from the spec: `Tunnel.IncWriteSequence()`, which increments the
write sequence. -/
def Tunnel.IncWriteSequence (t : Tunnel) : Tunnel :=
  { t with writeSequence := t.writeSequence + 1 }

/-- Modelled from the spec: the `Send` channel of a `transports.Connection`
(not under src/) as the send statement of a writer meets it, with the three
cases of a channel send in Go. `receiving`: the channel is open and the
connection takes what is put on it, so the send completes (a send that waits
on backpressure is taken to its completion). `stalled`: the channel is open
and nothing receives from it any more, so the send blocks. `closed`: the
channel has been closed, so the send panics. The connection of a live tunnel
is `receiving`; a connection that has been removed is `closed` or `stalled`. -/
inductive ChanState where
  | receiving
  | stalled
  | closed
deriving DecidableEq, Repr

/-- Modelled from the spec: `transports.Connection` (not under src/): the
envelopes its `Send` channel has taken, oldest first, and the state of that
channel. -/
structure Connection where
  Send : List Envelope
  state : ChanState
deriving DecidableEq, Repr

/-- The message `sliverpb.TunnelData` as `tunnelWriter.Write` fills it. -/
structure TunnelData where
  Sequence : Nat
  Ack : Nat
  TunnelID : Nat
  Data : Bytes
deriving DecidableEq, Repr

/-- The protobuf side of the tunnel writer: the `sliverpb.MsgTunnelData` type
tag, `proto.Marshal` at `sliverpb.TunnelData` with its two results (the bytes
and the error), and `proto.Unmarshal` at that type. -/
structure TunnelProto where
  MsgTunnelData : Nat
  marshalTunnelData : TunnelData → Bytes × Option String
  unmarshalTunnelData : Bytes → Option TunnelData

/-- The struct `tunnelWriter`: the tunnel and the connection it points to. -/
structure tunnelWriter where
  tun : Tunnel
  conn : Connection
deriving DecidableEq, Repr

/-- The `sliverpb.TunnelData` that `tunnelWriter.Write` builds for a payload
(lines 41-46): the tunnel's write sequence, its read sequence as the
acknowledgment, its id and the payload. -/
def tunnelWriter.chunk (tw : tunnelWriter) (data : Bytes) : TunnelData :=
  { Sequence := tw.tun.WriteSequence, Ack := tw.tun.ReadSequence, TunnelID := tw.tun.ID,
    Data := data }

/-- The envelope `tunnelWriter.Write` sends (lines 51-54): type
`MsgTunnelData` around the marshalled chunk. -/
def tunnelEnvelope (p : TunnelProto) (data : Bytes) : Envelope :=
  { ID := 0, Type_ := p.MsgTunnelData, Data := data }

/-- How a call of `tunnelWriter.Write` ends: it returns its two results (the
length and the error), it stops on the panic of a send on a closed channel, or
it blocks in the send. -/
inductive WriteEnd where
  | returned (n : Nat) (err : Option String)
  | panicked
  | blocked
deriving DecidableEq, Repr

/-- The method `tunnelWriter.Write`: how the call ends, and the tunnel and
the connection as it leaves them. The chunk is marshalled (lines 41-46) and
the write sequence incremented (line 50) before the send on `conn.Send`
(lines 51-54), which completes, blocks or panics with the state of the
channel; only after a completed send does the call return the length of the
input and the marshalling error (line 55). -/
def tunnelWriter.Write (p : TunnelProto) (tw : tunnelWriter) (data : Bytes) :
    WriteEnd × tunnelWriter :=
  let n := data.length
  let (data, err) := p.marshalTunnelData (tw.chunk data)
  let tun := tw.tun.IncWriteSequence
  match tw.conn.state with
  | ChanState.receiving =>
    let conn := { tw.conn with Send := tw.conn.Send ++ [tunnelEnvelope p data] }
    (WriteEnd.returned n err, { tun := tun, conn := conn })
  | ChanState.stalled => (WriteEnd.blocked, { tun := tun, conn := tw.conn })
  | ChanState.closed => (WriteEnd.panicked, { tun := tun, conn := tw.conn })

/-- A run of `tunnelWriter.Write` over payloads written in turn: the results
of the calls that returned, in order, and the writer after the last call made.
The run ends with the first call that does not return. -/
def writeAll (p : TunnelProto) : tunnelWriter → List Bytes → List (Nat × Option String) × tunnelWriter
  | tw, [] => ([], tw)
  | tw, data :: rest =>
    match tunnelWriter.Write p tw data with
    | (WriteEnd.returned n err, tw1) =>
      let (rs, tw2) := writeAll p tw1 rest
      ((n, err) :: rs, tw2)
    | (_, tw1) => ([], tw1)

/-- The chunks that writes of the payloads in turn are to produce on a tunnel
`id` with read sequence `ack`, numbered from `seq` on: one chunk per payload,
in order. -/
def chunksFrom (id ack : Nat) : Nat → List Bytes → List TunnelData
  | _, [] => []
  | seq, data :: rest =>
    { Sequence := seq, Ack := ack, TunnelID := id, Data := data } :: chunksFrom id ack (seq + 1) rest

/-- Encoding of `sliverpb.TunnelData`, the fields numbered Data = 1,
Sequence = 3, Ack = 4, TunnelID = 8. -/
def wireMarshalTunnelData (t : TunnelData) : Bytes :=
  (if t.Data = [] then [] else writeBytes 10 t.Data)
  ++ (if t.Sequence = 0 then [] else 24 :: writeVarint 9 t.Sequence)
  ++ (if t.Ack = 0 then [] else 32 :: writeVarint 9 t.Ack)
  ++ (if t.TunnelID = 0 then [] else 64 :: writeVarint 9 t.TunnelID)

/-- Fills a `TunnelData` from the fields of a message. -/
def tunnelDataOfFields : List (Nat × WireValue) → TunnelData → TunnelData
  | [], t => t
  | (1, .bytes b) :: fs, t => tunnelDataOfFields fs { t with Data := b }
  | (3, .varint v) :: fs, t => tunnelDataOfFields fs { t with Sequence := v % 2 ^ 64 }
  | (4, .varint v) :: fs, t => tunnelDataOfFields fs { t with Ack := v % 2 ^ 64 }
  | (8, .varint v) :: fs, t => tunnelDataOfFields fs { t with TunnelID := v % 2 ^ 64 }
  | _ :: fs, t => tunnelDataOfFields fs t

/-- Decoding of `sliverpb.TunnelData`. -/
def wireUnmarshalTunnelData (data : Bytes) : Option TunnelData :=
  (readFields data.length data).map
    (fun fs => tunnelDataOfFields fs { Sequence := 0, Ack := 0, TunnelID := 0, Data := [] })

/-- Modelled from the spec: the tunnel data message of protobuf/sliverpb (not
under src/) in the protobuf wire format, the instance of `TunnelProto` at
which the tunnel writer is evaluated on concrete inputs; the spec gives the
payload a tunnel id, a sequence number, an acknowledgment number and binary
data; the field numbers and the value of the `MsgTunnelData` tag are
stand-ins. Marshalling this message has no failure case. -/
def wireTunnel : TunnelProto where
  MsgTunnelData := 101
  marshalTunnelData := fun t => (wireMarshalTunnelData t, none)
  unmarshalTunnelData := wireUnmarshalTunnelData

/-- A writer on tunnel 9 with write sequence `w` and read sequence `r`, its
connection live and with nothing queued. -/
def liveWriter (w r : Nat) : tunnelWriter :=
  { tun := { ID := 9, writeSequence := w, readSequence := r },
    conn := { Send := [], state := ChanState.receiving } }

/-- A writer on tunnel 9 with write sequence `w` and read sequence `r` whose
connection has been removed and its `Send` channel closed. -/
def orphanWriter (w r : Nat) : tunnelWriter :=
  { tun := { ID := 9, writeSequence := w, readSequence := r },
    conn := { Send := [], state := ChanState.closed } }

/-- A writer on tunnel 9 with write sequence `w` and read sequence `r` whose
connection has been removed and whose `Send` channel nothing receives from. -/
def stalledWriter (w r : Nat) : tunnelWriter :=
  { tun := { ID := 9, writeSequence := w, readSequence := r },
    conn := { Send := [], state := ChanState.stalled } }

/-! ## Two check-ins of one beacon -/

/-- The first database step of a check-in without results (lines 152-156 of
`beaconTasksHandler`): the pending tasks read, `none` when the handler
returns nil on a query error. -/
def pollQuery (env : Env) (rows : List BeaconTask) (id : String) : Option (List BeaconTask) :=
  match PendingBeaconTasksByBeaconID env rows id with
  | (_, some DbError.other) => none
  | (pendingTasks, _) => some pendingTasks

/-- Two check-ins A and B of one beacon, without results, processed one after
the other: A's query and loop, then B's query and loop. The result is the two
response batches and the table left. -/
def serialCheckIns (p : Proto) (envA envB : Env) (rows : List BeaconTask) (id : String) :
    Option ((List Envelope × List Envelope) × List BeaconTask) :=
  match pollQuery envA rows id with
  | none => none
  | some pendA =>
    let (batchA, rows1) := sendPending p envA pendA [] rows
    match pollQuery envB rows1 id with
    | none => none
    | some pendB =>
      let (batchB, rows2) := sendPending p envB pendB [] rows1
      some ((batchA, batchB), rows2)

/-- Two check-ins A and B of one beacon, without results, processed
concurrently in the interleaving in which both run the pending query (line
152) before either enters the loop that marks the tasks (lines 158-175);
nothing in `beaconTasksHandler` orders the steps of the two otherwise. -/
def overlappedCheckIns (p : Proto) (envA envB : Env) (rows : List BeaconTask) (id : String) :
    Option ((List Envelope × List Envelope) × List BeaconTask) :=
  match pollQuery envA rows id with
  | none => none
  | some pendA =>
    match pollQuery envB rows id with
    | none => none
    | some pendB =>
      let (batchA, rows1) := sendPending p envA pendA [] rows
      let (batchB, rows2) := sendPending p envB pendB [] rows1
      some ((batchA, batchB), rows2)

/-! ## The pivot graph RPC (server/rpc/rpc-pivots.go) -/

/-- The message `clientpb.PivotGraph`, over the type of its entries: the
`Children` slice, `none` for a nil slice. -/
structure PivotGraph (β : Type) where
  Children : Option (List β)
deriving DecidableEq, Repr

/-- Go's `append(s, x)` on a slice that may be nil. -/
def goAppend {β : Type} (s : Option (List β)) (x : β) : Option (List β) :=
  match s with
  | none => some [x]
  | some l => some (l ++ [x])

/-- The method `Server.PivotGraph`: `topLevel` is what `core.PivotGraph()`
returns and `ToProtobuf` the serialization of a top-level node (server/core is
not under src/). The results are the message and the error, which is nil. -/
def Server.PivotGraph {α β : Type} (ToProtobuf : α → β) (topLevel : List α) :
    Sliver.PivotGraph β × Option String :=
  let pivotGraph := topLevel.foldl
    (fun (g : Sliver.PivotGraph β) n => { g with Children := goAppend g.Children (ToProtobuf n) })
    { Children := some [] }
  (pivotGraph, none)

/-! ## The permission interceptor (server/transport/middleware.go) -/

/-- The fields of `models.Operator` read by the permission interceptors. -/
structure Operator where
  Name : String
  PermissionAll : Bool
  PermissionBuilder : Bool
  PermissionCrackstation : Bool
deriving DecidableEq, Repr

/-- The map `builderMethods` (lines 148-156), its entries in source order. -/
def builderMethods : List (String × Bool) :=
  [("/rpcpb.SliverRPC/GetVersion", true),
   ("/rpcpb.SliverRPC/GenerateExternalGetBuildConfig", true),
   ("/rpcpb.SliverRPC/GenerateExternalSaveBuild", true),
   ("/rpcpb.SliverRPC/BuilderRegister", true),
   ("/rpcpb.SliverRPC/BuilderTrigger", true),
   ("/rpcpb.SliverRPC/Builders", true)]

/-- The map `crackstationMethods` (lines 158-173), its entries in source order. -/
def crackstationMethods : List (String × Bool) :=
  [("/rpcpb.SliverRPC/GetVersion", true),
   ("/rpcpb.SliverRPC/CrackstationRegister", true),
   ("/rpcpb.SliverRPC/CrackstationTrigger", true),
   ("/rpcpb.SliverRPC/CrackstationBenchmark", true),
   ("/rpcpb.SliverRPC/Crackstations", true),
   ("/rpcpb.SliverRPC/CrackTaskByID", true),
   ("/rpcpb.SliverRPC/CrackTaskUpdate", true),
   ("/rpcpb.SliverRPC/CrackFilesList", true),
   ("/rpcpb.SliverRPC/CrackFileCreate", true),
   ("/rpcpb.SliverRPC/CrackFileChunkUpload", true),
   ("/rpcpb.SliverRPC/CrackFileChunkDownload", true),
   ("/rpcpb.SliverRPC/CrackFileComplete", true),
   ("/rpcpb.SliverRPC/CrackFileDelete", true)]

/-- Go's map index `m[key]` on a `map[string]bool`: the stored value, `false`
for a key that is not in the map. -/
def mapIndex (m : List (String × Bool)) (key : String) : Bool :=
  match m with
  | [] => false
  | (k, v) :: rest => if key = k then v else mapIndex rest key

/-- The gRPC status codes the interceptors return. -/
inductive Code where
  | Unauthenticated
  | PermissionDenied
deriving DecidableEq, Repr

/-- What an interceptor does with a call: it returns what the handler returns
(`handler`, the handler is invoked), or it returns a status error without
invoking the handler. -/
inductive Intercepted where
  | handler
  | status (code : Code) (msg : String)
deriving DecidableEq, Repr

/-- The interceptor returned by `permissionsUnaryServerInterceptor`, on the
operator stored in the context (a pointer, `none` for nil) and
`info.FullMethod`. -/
def permissionsUnaryServerInterceptor (operator : Option Operator) (FullMethod : String) :
    Intercepted :=
  match operator with
  | none => Intercepted.status Code.Unauthenticated "Authentication failure"
  | some operator =>
    if operator.PermissionAll then Intercepted.handler
    else if operator.PermissionBuilder && mapIndex builderMethods FullMethod then
      Intercepted.handler
    else if operator.PermissionCrackstation && mapIndex crackstationMethods FullMethod then
      Intercepted.handler
    else Intercepted.status Code.PermissionDenied "Token has insufficient permissions"

/-! ## The TCP stager listener (server/rpc/rpc-stager.go) -/

/-- An IPv4 address, the four bytes of a `net.IP`. -/
structure IP where
  b0 : Nat
  b1 : Nat
  b2 : Nat
  b3 : Nat
deriving DecidableEq, Repr

/-- The method `IP.String` of the Go package net at an IPv4 address: the
dotted decimal text. -/
def IP.String (ip : IP) : String :=
  toString ip.b0 ++ "." ++ toString ip.b1 ++ "." ++ toString ip.b2 ++ "." ++ toString ip.b3

/-- An address of a network interface as `i.Addrs()` yields it: a
`*net.IPNet`, the IP and the number of leading ones of its mask. The networks
of the model are IPv4 networks; the text of an IPv6 network has colons only
inside its IP and is refused by `SplitHostPort` with "too many colons in
address". -/
structure IPNet where
  IP : IP
  Ones : Nat
deriving DecidableEq, Repr

/-- The method `IPNet.String` of the Go package net: the CIDR text, the IP,
a slash and the length of the mask. -/
def IPNet.String (n : IPNet) : String :=
  n.IP.String ++ "/" ++ toString n.Ones

/-- A network interface as `checkInterface` sees it: the result of
`i.Addrs()`, `none` on error. -/
structure NetInterface where
  Addrs : Option (List IPNet)
deriving DecidableEq, Repr

/-- The `net` package as `checkInterface` uses it: the result of
`net.Interfaces()` (`none` on error) and, for `net.ResolveTCPAddr`, the
resolution of a host and a port once the address text has been split:
`lookup host port` is the text `addr.IP.String()` of the resolved address,
`none` on error. -/
structure Net where
  Interfaces : Option (List NetInterface)
  lookup : String → String → Option String

/-- The function `bytealg.IndexByteString`: the index of the first `c` in `s`. -/
def indexByte (s : List Char) (c : Char) : Option Nat :=
  match s with
  | [] => none
  | x :: rest => if x = c then some 0 else (indexByte rest c).map (fun i => i + 1)

/-- The function `bytealg.LastIndexByteString`: the index of the last `c` in
`s`. -/
def lastIndexByte (s : List Char) (c : Char) : Option Nat :=
  (indexByte s.reverse c).map (fun i => s.length - 1 - i)

/-- The end of `net.SplitHostPort`: no bracket may follow the positions `j`
and `k`; the port is what follows the last colon, at `i`. -/
def splitTail (s host : List Char) (i j k : Nat) : Except String (String × String) :=
  if '[' ∈ s.drop j then Except.error "unexpected '[' in address"
  else if ']' ∈ s.drop k then Except.error "unexpected ']' in address"
  else Except.ok (String.mk host, String.mk (s.drop (i + 1)))

/-- The function `net.SplitHostPort` of the Go standard library, with which
`net.ResolveTCPAddr` starts: it splits "host:port" and "[host]:port" at the
last colon and refuses a text without colon ("missing port in address") and
an unbracketed host with a colon in it ("too many colons in address"). -/
def SplitHostPort (hostport : String) : Except String (String × String) :=
  let s := hostport.toList
  match lastIndexByte s ':' with
  | none => Except.error "missing port in address"
  | some i =>
    if s.head? = some '[' then
      match indexByte s ']' with
      | none => Except.error "missing ']' in address"
      | some e =>
        if e + 1 = s.length then Except.error "missing port in address"
        else if e + 1 = i then splitTail s ((s.take e).drop 1) i 1 (e + 1)
        else if s.get? (e + 1) = some ':' then Except.error "too many colons in address"
        else Except.error "missing port in address"
    else if ':' ∈ s.take i then Except.error "too many colons in address"
    else splitTail s (s.take i) i 0 0

/-- The call `net.ResolveTCPAddr("tcp", address)` followed by
`addr.IP.String()`: the text is split by `SplitHostPort`, whose error is
returned, and host and port are resolved; `none` on error. -/
def Net.ResolveTCPAddr (net : Net) (address : String) : Option String :=
  match SplitHostPort address with
  | Except.error _ => none
  | Except.ok (host, port) => net.lookup host port

/-- The inner loop of `checkInterface` over the addresses of one interface:
`some true` when it returns true, `some false` when it returns false on a
resolution error, `none` when the loop ends. -/
def checkAddresses (net : Net) (a : String) : List IPNet → Option Bool
  | [] => none
  | netAddr :: rest =>
    match net.ResolveTCPAddr netAddr.String with
    | none => some false
    | some ip => if ip = a then some true else checkAddresses net a rest

/-- The outer loop of `checkInterface` over the interfaces. -/
def checkInterfaces (net : Net) (a : String) : List NetInterface → Bool
  | [] => false
  | i :: rest =>
    match i.Addrs with
    | none => false
    | some addresses =>
      match checkAddresses net a addresses with
      | some r => r
      | none => checkInterfaces net a rest

/-- The function `checkInterface`. -/
def checkInterface (net : Net) (a : String) : Bool :=
  match net.Interfaces with
  | none => false
  | some interfaces => checkInterfaces net a interfaces

/-- The fields of `clientpb.StagerListenerReq` read by `StartTCPStagerListener`. -/
structure StagerListenerReq where
  Host : String
  Port : Nat
  ProfileName : String
  Data : Bytes
deriving DecidableEq, Repr

/-- The method `Server.StartTCPStagerListener`: `startJob` is
`c2.StartTCPStagerListenerJob` (server/c2 is not under src/), which returns
the id of the job or an error. The results are the `JobID` of the
`clientpb.StagerListener` (nil on error) and the error. -/
def Server.StartTCPStagerListener (net : Net)
    (startJob : String → Nat → String → Bytes → Except String Nat) (req : StagerListenerReq) :
    Option Nat × Option String :=
  let host := if !checkInterface net req.Host then "0.0.0.0" else req.Host
  match startJob host (req.Port % 2 ^ 16) req.ProfileName req.Data with
  | Except.error err => (none, some err)
  | Except.ok jobID => (some (jobID % 2 ^ 32), none)

/-- A host with the loopback interface, address 127.0.0.1/8, and an interface
with the address 10.0.0.5/24; every host text that reaches the resolution
resolves to itself. -/
def loopbackNet : Net where
  Interfaces := some [{ Addrs := some [{ IP := { b0 := 127, b1 := 0, b2 := 0, b3 := 1 }, Ones := 8 }] },
                      { Addrs := some [{ IP := { b0 := 10, b1 := 0, b2 := 0, b3 := 5 }, Ones := 24 }] }]
  lookup := fun host _ => some host

/-- A job starter for the concrete evaluations: it reports the host it was
asked to listen on as an error text. -/
def echoJob (host : String) (_port : Nat) (_profile : String) (_data : Bytes) : Except String Nat :=
  Except.error host

/-! ## The MSF stager RPC (server/rpc/rpc-msf.go) -/

/-- The enum `clientpb.StageProtocol` as `MsfStage` tells its values apart:
the three named protocols and every other enum value. -/
inductive StageProtocol where
  | TCP
  | HTTP
  | HTTPS
  | other (n : Int)
deriving DecidableEq, Repr

/-- The fields of `clientpb.MsfStagerReq` read by `MsfStage`. -/
structure MsfStagerReq where
  Arch : String
  Format : String
  Port : Nat
  Host : String
  OS : String
  Protocol : StageProtocol
  BadChars : List String
  HTTPC2ConfigName : String
  AdvOptions : String
deriving DecidableEq, Repr

/-- A path segment of an HTTP C2 profile (an element of
`httpC2Config.ImplantConfig.PathSegments`), the fields `generateCallbackURI`
reads. -/
structure PathSegment where
  SegmentType : Int
  IsFile : Bool
  Value : String
deriving DecidableEq, Repr

/-- The fields of `msf.VenomConfig` set by `MsfStage`. -/
structure VenomConfig where
  Os : String
  Payload : String
  LHost : String
  LPort : Nat
  Arch : String
  Format : String
  BadChars : List String
  Luri : String
  AdvOptions : String
deriving DecidableEq, Repr

/-- The message `commonpb.File`. -/
structure File where
  Name : String
  Data : Bytes
deriving DecidableEq, Repr

/-- The message `clientpb.MsfStager`, whose `File` pointer `MsfStage` always sets. -/
structure MsfStager where
  File : File
deriving DecidableEq, Repr

/-- What a run of `MsfStage` takes from outside the program:
`db.LoadHTTPC2ConfigByName` (the path segments of the profile, or an error),
the values drawn in turn from the random source seeded with the clock,
`path.Join`, `msf.VenomPayload` and `codenames.GetCodename`. -/
structure MsfEnv where
  LoadHTTPC2ConfigByName : String → Except String (List PathSegment)
  rand : Nat → Nat
  Join : List String → String
  VenomPayload : VenomConfig → Except String Bytes
  GetCodename : Except String String

/-- The call `insecureRand.Intn(n)` as the `k`-th draw of the source: a number
below `n`, and a panic (`none`) when `n` is 0. -/
def Intn (rnd : Nat → Nat) (k n : Nat) : Option Nat :=
  if n = 0 then none else some (rnd k % n)

/-- The loop of `randomPath` (lines 237-240): `count` more segments are drawn,
`k` draws have been made and `genSegments` is the list so far; the result is
the list and the number of draws made, `none` on a panic. -/
def pickSegments (rnd : Nat → Nat) (segments : List String) :
    Nat → Nat → List String → Option (List String × Nat)
  | 0, k, genSegments => some (genSegments, k)
  | count + 1, k, genSegments =>
    match Intn rnd k segments.length with
    | none => none
    | some i =>
      match segments[i]? with
      | none => none
      | some seg => pickSegments rnd segments count (k + 1) (genSegments ++ [seg])

/-- The function `randomPath`; `none` when it panics. -/
def randomPath (rnd : Nat → Nat) (segments filenames : List String) : Option (List String) :=
  match Intn rnd 0 3 with
  | none => none
  | some n =>
    match pickSegments rnd segments n 1 [] with
    | none => none
    | some (genSegments, k) =>
      match Intn rnd k filenames.length with
      | none => none
      | some i =>
        match filenames[i]? with
        | none => none
        | some filename => some (genSegments ++ [filename])

/-- The loop of `generateCallbackURI` (lines 219-227) over the path segments:
the stage files and the stage paths collected so far. -/
def stageSegments : List PathSegment → List String × List String → List String × List String
  | [], acc => acc
  | segment :: rest, (StageFiles, StagePaths) =>
    if segment.SegmentType = 3 then
      if segment.IsFile then stageSegments rest (StageFiles ++ [segment.Value], StagePaths)
      else stageSegments rest (StageFiles, StagePaths ++ [segment.Value])
    else stageSegments rest (StageFiles, StagePaths)

/-- The function `generateCallbackURI`; `none` when `randomPath` panics. -/
def generateCallbackURI (env : MsfEnv) (httpC2ConfigName : String) : Option String :=
  match env.LoadHTTPC2ConfigByName httpC2ConfigName with
  | Except.error _ => some ""
  | Except.ok segments =>
    let (StageFiles, StagePaths) := stageSegments segments ([], [])
    (randomPath env.rand StagePaths StageFiles).map env.Join

/-- The stager `MsfStage` starts from: a `File` with no name and no data. -/
def emptyStager : MsfStager := { File := { Name := "", Data := [] } }

/-- Lines 178-206 of `MsfStage`, after the protocol switch has chosen the
payload and the callback URI. The state of the run is the list of
configurations passed to `msf.VenomPayload`. -/
def stageFor (env : MsfEnv) (req : MsfStagerReq) (arch payload uri : String) :
    Run (List VenomConfig) (MsfStager × Option String) :=
  if req.OS ≠ "windows" then
    Run.done (emptyStager, some (req.OS ++ " is currently not supported")) []
  else
    let venomConfig : VenomConfig :=
      { Os := req.OS, Payload := payload, LHost := req.Host, LPort := req.Port % 2 ^ 16,
        Arch := arch, Format := req.Format, BadChars := req.BadChars, Luri := uri,
        AdvOptions := req.AdvOptions }
    match env.VenomPayload venomConfig with
    | Except.error err => Run.done (emptyStager, some err) [venomConfig]
    | Except.ok stage =>
      match env.GetCodename with
      | Except.error err => Run.done ({ File := { Name := "", Data := stage } }, some err) [venomConfig]
      | Except.ok name => Run.done ({ File := { Name := name, Data := stage } }, none) [venomConfig]

/-- The method `Server.MsfStage`: the stager and the error it returns, or a
fault when `generateCallbackURI` panics. -/
def Server.MsfStage (env : MsfEnv) (req : MsfStagerReq) :
    Run (List VenomConfig) (MsfStager × Option String) :=
  let arch := if req.Arch = "amd64" then "x64" else "x86"
  match req.Protocol with
  | StageProtocol.TCP => stageFor env req arch "meterpreter/reverse_tcp" ""
  | StageProtocol.HTTP =>
    match generateCallbackURI env req.HTTPC2ConfigName with
    | none => Run.fault []
    | some uri => stageFor env req arch "custom/reverse_winhttp" uri
  | StageProtocol.HTTPS =>
    match generateCallbackURI env req.HTTPC2ConfigName with
    | none => Run.fault []
    | some uri => stageFor env req arch "custom/reverse_winhttps" uri
  | StageProtocol.other _ => Run.done (emptyStager, some "protocol not supported") []

/-- A join of path elements for the concrete evaluations: the elements that
are not empty, separated by a slash. -/
def joinSlash (elem : List String) : String :=
  String.intercalate "/" (elem.filter (fun e => e ≠ ""))

/-- An environment in which the profile "plain" has poll and session segments
but no stager segment, the profile "staged" has one stager path and one stager
file, no other profile loads, payload generation yields three bytes and the
codename is "HAPPY_HIPPO". -/
def msfEnv : MsfEnv where
  LoadHTTPC2ConfigByName := fun name =>
    if name = "plain" then
      Except.ok [{ SegmentType := 0, IsFile := false, Value := "api" },
                 { SegmentType := 1, IsFile := true, Value := "index.php" }]
    else if name = "staged" then
      Except.ok [{ SegmentType := 3, IsFile := false, Value := "static" },
                 { SegmentType := 3, IsFile := true, Value := "stage.woff" }]
    else Except.error "record not found"
  rand := fun k => k + 1
  Join := joinSlash
  VenomPayload := fun _ => Except.ok [1, 2, 3]
  GetCodename := Except.ok "HAPPY_HIPPO"

/-- A stager request for Linux over HTTP with the profile "plain". -/
def linuxHttpReq : MsfStagerReq :=
  { Arch := "amd64", Format := "raw", Port := 8443, Host := "10.0.0.1", OS := "linux",
    Protocol := StageProtocol.HTTP, BadChars := [], HTTPC2ConfigName := "plain",
    AdvOptions := "" }

/-! ## The DNS canary model (server/db/models/canary.go) -/

/-- The struct `models.DNSCanary`; times are in seconds, 0 for the zero time. -/
structure DNSCanary where
  ID : UUID
  CreatedAt : Int
  ImplantName : String
  Domain : String
  Triggered : Bool
  FirstTrigger : Int
  LatestTrigger : Int
  Count : Nat
deriving DecidableEq, Repr

/-- The fields of the message `clientpb.DNSCanary` that the conversions of
canary.go read or set. -/
structure DNSCanaryPB where
  ID : String
  ImplantName : String
  Domain : String
  Triggered : Bool
  FirstTriggered : String
  LatestTrigger : String
  Count : Nat
deriving DecidableEq, Repr

/-- The library calls of the conversions: `uuid.FromString` with its error
dropped, `t.Format(time.RFC1123)` and `time.Parse(time.RFC1123, s)` with its
error dropped. -/
structure CanaryLib where
  FromString : String → UUID
  Format : Int → String
  Parse : String → Int

/-- The method `DNSCanary.ToProtobuf` (lines 52-62); the `ID` of the message
is not set and has its zero value. -/
def DNSCanary.ToProtobuf (lib : CanaryLib) (c : DNSCanary) : DNSCanaryPB :=
  { ID := ""
    ImplantName := c.ImplantName
    Domain := c.Domain
    Triggered := c.Triggered
    FirstTriggered := lib.Format c.FirstTrigger
    LatestTrigger := lib.Format c.LatestTrigger
    Count := c.Count }

/-- The function `DNSCanaryFromProtobuf` (lines 64-78); `CreatedAt` is not set
and has its zero value. -/
def DNSCanaryFromProtobuf (lib : CanaryLib) (m : DNSCanaryPB) : DNSCanary :=
  { ID := lib.FromString m.ID
    CreatedAt := 0
    ImplantName := m.ImplantName
    Domain := m.Domain
    Triggered := m.Triggered
    FirstTrigger := lib.Parse m.FirstTriggered
    LatestTrigger := lib.Parse m.LatestTrigger
    Count := m.Count }

/-- The text of `uuid.Nil`. -/
def nilUUID : UUID := "00000000-0000-0000-0000-000000000000"

/-- A library for the concrete evaluations: a text of 36 characters parses to
the identifier of that text and every other text, the empty one included, to
`uuid.Nil`; times are written as the decimal number of their seconds. -/
def sampleLib : CanaryLib where
  FromString := fun s => if s.length = 36 then s else nilUUID
  Format := fun t => toString t
  Parse := fun s => s.toInt?.getD 0

/-- A canary with a non-nil identifier that has been triggered twice. -/
def canaryX : DNSCanary :=
  { ID := "123e4567-e89b-12d3-a456-426614174000", CreatedAt := 10, ImplantName := "x",
    Domain := "a.example.com", Triggered := true, FirstTrigger := 20, LatestTrigger := 30,
    Count := 2 }

/-- A queued task of beacon "b" with envelope id 11 whose stored request is an
envelope of type 5 that carries the id 42. -/
def taskT4 : BeaconTask :=
  { ID := "t4", EnvelopeID := 11, BeaconID := "b", CreatedAt := 4, State := TaskState.CREATED,
    SentAt := 0, CompletedAt := 0, Request := [8, 42, 16, 5], Response := [] }

/-! ## The stream permission interceptor and the token cache (middleware.go) -/

/-- The interceptor returned by `permissionsStreamServerInterceptor` (lines
200-222), on the operator stored in the context of the stream (a pointer,
`none` for nil) and `info.FullMethod`. -/
def permissionsStreamServerInterceptor (operator : Option Operator) (FullMethod : String) :
    Intercepted :=
  match operator with
  | none => Intercepted.status Code.Unauthenticated "Authentication failure"
  | some operator =>
    if operator.PermissionAll then Intercepted.handler
    else if operator.PermissionBuilder && mapIndex builderMethods FullMethod then
      Intercepted.handler
    else if operator.PermissionCrackstation && mapIndex crackstationMethods FullMethod then
      Intercepted.handler
    else Intercepted.status Code.PermissionDenied "Token has insufficient permissions"

/-- The values `tokenAuthFunc` puts into the context it returns. -/
structure AuthContext where
  Transport : String
  Operator : Operator
deriving DecidableEq, Repr

/-- The two results of `tokenAuthFunc`: a context, or nil with a status error. -/
inductive AuthResult where
  | ok (ctx : AuthContext)
  | status (code : Code) (msg : String)
deriving DecidableEq, Repr

/-- The variable `tokenCache`, a `sync.Map` from token digests to operators,
as the list of its entries. -/
abbrev TokenCache := List (String × Operator)

/-- The call `tokenCache.Load(token)`. -/
def TokenCache.Load (cache : TokenCache) (token : String) : Option Operator :=
  cache.lookup token

/-- The call `tokenCache.Store(token, operator)`: the entry of the key is set,
replacing an earlier one. -/
def TokenCache.Store (cache : TokenCache) (token : String) (operator : Operator) : TokenCache :=
  (token, operator) :: cache.filter (fun e => e.1 ≠ token)

/-- The function `ClearTokenCache`: the cache is a fresh empty map. -/
def ClearTokenCache (_cache : TokenCache) : TokenCache := []

/-- The function `tokenAuthFunc`. `rawToken` is the result of
`grpc_auth.AuthFromMD(ctx, "Bearer")` (`none` on error), `Sum256Hex` is
`hex.EncodeToString` of `sha256.Sum256`, and `OperatorByToken` is what
`db.OperatorByToken` returns at the time of the call (an operator pointer and
an error). The results are the result of the call and the cache it leaves. -/
def tokenAuthFunc (Sum256Hex : String → String)
    (OperatorByToken : String → Option Operator × Option DbError)
    (cache : TokenCache) (rawToken : Option String) : AuthResult × TokenCache :=
  match rawToken with
  | none => (AuthResult.status Code.Unauthenticated "Authentication failure", cache)
  | some rawToken =>
    let token := Sum256Hex rawToken
    match cache.Load token with
    | some op => (AuthResult.ok { Transport := "mtls", Operator := op }, cache)
    | none =>
      match OperatorByToken token with
      | (some operator, none) =>
        (AuthResult.ok { Transport := "mtls", Operator := operator }, cache.Store token operator)
      | _ => (AuthResult.status Code.Unauthenticated "Authentication failure", cache)

/-- One step of the life of the token cache: a call of `tokenAuthFunc` with
the bearer token of the request and the database as it answers at that time,
or a call of `ClearTokenCache`. -/
inductive AuthCall where
  | auth (rawToken : Option String) (OperatorByToken : String → Option Operator × Option DbError)
  | clear

/-- A sequence of calls from a given cache: the results of the `tokenAuthFunc`
calls in order and the cache at the end. -/
def authRun (Sum256Hex : String → String) : List AuthCall → TokenCache → List AuthResult × TokenCache
  | [], cache => ([], cache)
  | AuthCall.auth rawToken db :: rest, cache =>
    let (r, cache1) := tokenAuthFunc Sum256Hex db cache rawToken
    let (rs, cache2) := authRun Sum256Hex rest cache1
    (r :: rs, cache2)
  | AuthCall.clear :: rest, cache => authRun Sum256Hex rest (ClearTokenCache cache)

/-- A cache entry is validated by a sequence of calls when one of its
`tokenAuthFunc` calls carried a token with that digest and the database
returned that operator for the digest. -/
def validatedBy (Sum256Hex : String → String) (calls : List AuthCall)
    (entry : String × Operator) : Prop :=
  ∃ tok db, AuthCall.auth (some tok) db ∈ calls ∧ entry.1 = Sum256Hex tok
    ∧ db entry.1 = (some entry.2, none)

/-- A digest function for the concrete evaluations, standing for the hex
SHA-256 digest: the token between two marks. -/
def markDigest (rawToken : String) : String := "sha256(" ++ rawToken ++ ")"

/-- The operator "alice", with every permission. -/
def alice : Operator :=
  { Name := "alice", PermissionAll := true, PermissionBuilder := false,
    PermissionCrackstation := false }

/-- A database in which the digest of the token "s3cret" belongs to `alice`
and no other digest belongs to an operator. -/
def aliceDb (token : String) : Option Operator × Option DbError :=
  if token = markDigest "s3cret" then (some alice, none)
  else (none, some DbError.ErrRecordNotFound)

/-- A database in which no token belongs to an operator. -/
def emptyDb (_token : String) : Option Operator × Option DbError :=
  (none, some DbError.ErrRecordNotFound)

end Sliver

namespace Sliver

/-! ## The dispatch loop -/

theorem sendPending_fst (p : Proto) (env : Env) (pend : List BeaconTask) :
    ∀ (acc : List Envelope) (rows : List BeaconTask),
      (sendPending p env pend acc rows).1 = acc ++ pend.filterMap (taskEnvelope p) := by
  induction pend with
  | nil => intro acc rows; simp [sendPending]
  | cons t rest ih =>
    intro acc rows
    cases h : taskEnvelope p t with
    | none => simp [sendPending, h, ih]
    | some e =>
      by_cases hu : env.updateFails (markSent env t) = true
      · simp [sendPending, h, hu, ih]
      · simp [sendPending, h, hu, ih]

theorem updateTask_ids (rows : List BeaconTask) (id : String) (task : BeaconTask)
    (h : task.ID = id) : (updateTask rows id task).map (fun r => r.ID) = rows.map (fun r => r.ID) := by
  unfold updateTask
  rw [List.map_map]
  apply List.map_congr_left
  intro r _
  by_cases hr : r.ID = id
  · simp [hr, h]
  · simp [hr]

theorem sendPending_ids (p : Proto) (env : Env) (pend : List BeaconTask) :
    ∀ (acc : List Envelope) (rows : List BeaconTask),
      (sendPending p env pend acc rows).2.map (fun r => r.ID) = rows.map (fun r => r.ID) := by
  induction pend with
  | nil => intro acc rows; simp [sendPending]
  | cons t rest ih =>
    intro acc rows
    cases h : taskEnvelope p t with
    | none => simp [sendPending, h, ih]
    | some e =>
      by_cases hu : env.updateFails (markSent env t) = true
      · simp [sendPending, h, hu, ih]
      · simp only [sendPending, h, hu]
        rw [if_neg (by simp), ih]
        exact updateTask_ids rows t.ID (markSent env t) rfl

/-- Rows that are all `SENT` under one identifier stay so through the loop. -/
theorem sendPending_keeps_sent (p : Proto) (env : Env) (x : String) (pend : List BeaconTask) :
    ∀ (acc : List Envelope) (rows : List BeaconTask),
      (∀ r ∈ rows, r.ID = x → r.State = TaskState.SENT) →
      ∀ r ∈ (sendPending p env pend acc rows).2, r.ID = x → r.State = TaskState.SENT := by
  induction pend with
  | nil => intro acc rows h; simpa [sendPending] using h
  | cons t rest ih =>
    intro acc rows h
    cases ht : taskEnvelope p t with
    | none => simpa [sendPending, ht] using ih acc rows h
    | some e =>
      by_cases hu : env.updateFails (markSent env t) = true
      · simpa [sendPending, ht, hu] using ih (acc ++ [e]) rows h
      · simp only [sendPending, ht, hu]
        rw [if_neg (by simp)]
        apply ih
        intro r hr hx
        unfold updateTask at hr
        rcases List.mem_map.1 hr with ⟨r0, hr0, rfl⟩
        by_cases h0 : r0.ID = t.ID
        · simp [h0, markSent]
        · simp only [h0, if_false] at hx ⊢
          exact h r0 hr0 hx

/-- A pending task that decodes and whose write succeeds is `SENT` after the loop. -/
theorem sendPending_marks (p : Proto) (env : Env) (pend : List BeaconTask) :
    ∀ (acc : List Envelope) (rows : List BeaconTask) (t : BeaconTask), t ∈ pend →
      taskEnvelope p t ≠ none → env.updateFails (markSent env t) = false →
      ∀ r ∈ (sendPending p env pend acc rows).2, r.ID = t.ID → r.State = TaskState.SENT := by
  induction pend with
  | nil => intro acc rows t ht; simp at ht
  | cons t0 rest ih =>
    intro acc rows t ht hdec hup
    rcases List.mem_cons.1 ht with rfl | hrest
    · cases he : taskEnvelope p t with
      | none => exact absurd he hdec
      | some e =>
        simp only [sendPending, he, hup]
        rw [if_neg (by simp)]
        apply sendPending_keeps_sent
        intro r hr _
        unfold updateTask at hr
        rcases List.mem_map.1 hr with ⟨r0, hr0, rfl⟩
        by_cases h0 : r0.ID = t.ID
        · simp [h0, markSent]
        · simp only [h0, if_false] at *
    · cases he : taskEnvelope p t0 with
      | none => simpa [sendPending, he] using ih acc rows t hrest hdec hup
      | some e =>
        by_cases hu : env.updateFails (markSent env t0) = true
        · simpa [sendPending, he, hu] using ih (acc ++ [e]) rows t hrest hdec hup
        · simp only [sendPending, he, hu]
          rw [if_neg (by simp)]
          exact ih _ _ t hrest hdec hup

/-! ## The check-in handler on a request without results -/

/-- What `beaconTasksHandler` returns and leaves behind on a check-in that
carries no results, from the outcome of the pending query. -/
theorem beaconTasksHandler_poll (p : Proto) (env : Env) (w : World) (data : Bytes)
    (msg : BaconTasks) (pending : List BeaconTask) (err : Option DbError)
    (hmsg : p.unmarshalBaconTasks data = some msg) (hres : msg.Tasks = [])
    (hq : PendingBeaconTasksByBeaconID env w.tasks msg.ID = (pending, err))
    (herr : err ≠ some DbError.other) :
    beaconTasksHandler p env w data =
      ((p.marshalBaconTasks
          { ID := "", Tasks := pending.filterMap (taskEnvelope p), NextCheckin := 0 }).map
        (fun d => { ID := 0, Type_ := p.MsgBeaconTasks, Data := d }),
       { tasks := (sendPending p env pending [] w.tasks).2,
         events := w.events,
         checkins := w.checkins ++ [(msg.ID, msg.NextCheckin)] }) := by
  have hfst := sendPending_fst p env pending [] w.tasks
  simp only [List.nil_append] at hfst
  unfold beaconTasksHandler
  simp only [hmsg, hres, List.length_nil, Nat.lt_irrefl, if_false, hq]
  cases err with
  | none =>
    simp only [hfst]
    split <;> simp [*]
  | some e =>
    cases e with
    | other => exact absurd rfl herr
    | ErrRecordNotFound =>
      simp only [hfst]
      split <;> simp [*]

/-! ## Check-ins without new tasks -/

/-- C1 as stated fails: with an empty task table the pending query of beacon
"b" returns no task, and a check-in of "b" without results is answered with a
`MsgBeaconTasks` envelope (with an empty batch), not with nil. -/
theorem beaconTasksHandler_empty_poll_replies :
    wire.unmarshalBaconTasks pollB = some { ID := "b", Tasks := [], NextCheckin := 0 } ∧
    PendingBeaconTasksByBeaconID (calm 100) [] "b" = ([], none) ∧
    beaconTasksHandler wire (calm 100) { tasks := [], events := [], checkins := [] } pollB =
      (some { ID := 0, Type_ := wire.MsgBeaconTasks, Data := [] },
       { tasks := [], events := [], checkins := [("b", 0)] }) := by
  decide

/-- C1, amended: on a check-in without results for which the pending query
returns no task (and no error other than not-found), `beaconTasksHandler`
changes no task and publishes no event, and what it returns is one
`MsgBeaconTasks` envelope whose batch holds no task envelope (nil only when
marshalling that empty batch fails). -/
theorem beaconTasksHandler_no_pending (p : Proto) (env : Env) (w : World) (data : Bytes)
    (msg : BaconTasks) (err : Option DbError)
    (hmsg : p.unmarshalBaconTasks data = some msg) (hres : msg.Tasks = [])
    (hq : PendingBeaconTasksByBeaconID env w.tasks msg.ID = ([], err))
    (herr : err ≠ some DbError.other) :
    beaconTasksHandler p env w data =
      ((p.marshalBaconTasks { ID := "", Tasks := [], NextCheckin := 0 }).map
        (fun d => { ID := 0, Type_ := p.MsgBeaconTasks, Data := d }),
       { tasks := w.tasks, events := w.events,
         checkins := w.checkins ++ [(msg.ID, msg.NextCheckin)] }) := by
  rw [beaconTasksHandler_poll p env w data msg [] err hmsg hres hq herr]
  simp [sendPending]

/-- A check-in of beacon "b" on an empty table, every database call succeeding. -/
theorem beaconTasksHandler_no_pending_witness :
    beaconTasksHandler wire (calm 100) { tasks := [], events := [], checkins := [] } pollB =
      ((wire.marshalBaconTasks { ID := "", Tasks := [], NextCheckin := 0 }).map
        (fun d => { ID := 0, Type_ := wire.MsgBeaconTasks, Data := d }),
       { tasks := [], events := [],
         checkins := [] ++ [("b", 0)] }) :=
  beaconTasksHandler_no_pending wire (calm 100) { tasks := [], events := [], checkins := [] }
    pollB { ID := "b", Tasks := [], NextCheckin := 0 } none (by decide) rfl (by decide) (by decide)

/-! ## Dispatch of the pending tasks -/

/-- C2 as stated fails: the pending query returns one task for beacon "b",
its stored request does not decode, and the check-in is answered with a batch
of no envelope while the task stays `CREATED`. -/
theorem beaconTasksHandler_skips_undecodable :
    PendingBeaconTasksByBeaconID (calm 100) [taskBad] "b" = ([taskBad], none) ∧
    wire.unmarshalEnvelope taskBad.Request = none ∧
    beaconTasksHandler wire (calm 100) { tasks := [taskBad], events := [], checkins := [] } pollB =
      (some { ID := 0, Type_ := wire.MsgBeaconTasks,
              Data := wireMarshalBaconTasks { ID := "", Tasks := [], NextCheckin := 0 } },
       { tasks := [taskBad], events := [], checkins := [("b", 0)] }) ∧
    taskBad.State = TaskState.CREATED := by
  decide

/-- C2, amended: on a check-in without results, for the list of pending tasks
the query returns, `beaconTasksHandler` returns one `MsgBeaconTasks` envelope
whose batch holds, in the order of that list, the envelope of each pending
task whose stored request decodes (exactly one per pending task, carrying the
tasks' envelope ids in order, when all of them decode); the table keeps its
rows' identifiers, and each pending task whose request decodes and whose
write succeeds is in state `SENT` afterwards. -/
theorem beaconTasksHandler_dispatch (p : Proto) (env : Env) (w : World) (data : Bytes)
    (msg : BaconTasks) (pending : List BeaconTask) (err : Option DbError)
    (hmsg : p.unmarshalBaconTasks data = some msg) (hres : msg.Tasks = [])
    (hq : PendingBeaconTasksByBeaconID env w.tasks msg.ID = (pending, err))
    (herr : err ≠ some DbError.other) :
    (beaconTasksHandler p env w data).1 =
      (p.marshalBaconTasks
          { ID := "", Tasks := pending.filterMap (taskEnvelope p), NextCheckin := 0 }).map
        (fun d => { ID := 0, Type_ := p.MsgBeaconTasks, Data := d })
    ∧ ((∀ t ∈ pending, taskEnvelope p t ≠ none) →
        (pending.filterMap (taskEnvelope p)).map (fun e => e.ID)
          = pending.map (fun t => t.EnvelopeID))
    ∧ (beaconTasksHandler p env w data).2.tasks.map (fun r => r.ID) = w.tasks.map (fun r => r.ID)
    ∧ ∀ t ∈ pending, taskEnvelope p t ≠ none → env.updateFails (markSent env t) = false →
        ∀ r ∈ (beaconTasksHandler p env w data).2.tasks, r.ID = t.ID → r.State = TaskState.SENT := by
  rw [beaconTasksHandler_poll p env w data msg pending err hmsg hres hq herr]
  refine ⟨rfl, ?_, sendPending_ids p env pending [] w.tasks, ?_⟩
  · clear hq
    induction pending with
    | nil => intro _; rfl
    | cons t rest ih =>
      intro h
      have ht := h t (List.mem_cons_self _ _)
      have hrest := ih (fun t' ht' => h t' (List.mem_cons_of_mem _ ht'))
      cases he : taskEnvelope p t with
      | none => exact absurd he ht
      | some e =>
        have hid : e.ID = t.EnvelopeID := by
          unfold taskEnvelope at he
          cases hd : p.unmarshalEnvelope t.Request with
          | none => simp [hd] at he
          | some e0 => simp [hd] at he; rw [← he]
        simp [List.filterMap_cons, he, hid, hrest]
  · intro t ht hdec hup
    exact sendPending_marks p env pending [] w.tasks t ht hdec hup

/-- Three queued tasks of beacon "b", the third with a request that does not decode. -/
theorem beaconTasksHandler_dispatch_witness :
    PendingBeaconTasksByBeaconID (calm 100) [taskT2, taskBad, taskT1] "b"
      = ([taskT1, taskT2, taskBad], none) ∧
    (beaconTasksHandler wire (calm 100)
        { tasks := [taskT2, taskBad, taskT1], events := [], checkins := [] } pollB).1 =
      (wire.marshalBaconTasks
          { ID := "", Tasks := [taskT1, taskT2, taskBad].filterMap (taskEnvelope wire),
            NextCheckin := 0 }).map
        (fun d => { ID := 0, Type_ := wire.MsgBeaconTasks, Data := d })
    ∧ ((∀ t ∈ [taskT1, taskT2, taskBad], taskEnvelope wire t ≠ none) →
        ([taskT1, taskT2, taskBad].filterMap (taskEnvelope wire)).map (fun e => e.ID)
          = [taskT1, taskT2, taskBad].map (fun t => t.EnvelopeID))
    ∧ (beaconTasksHandler wire (calm 100)
        { tasks := [taskT2, taskBad, taskT1], events := [], checkins := [] } pollB).2.tasks.map
          (fun r => r.ID) = [taskT2, taskBad, taskT1].map (fun r => r.ID)
    ∧ ∀ t ∈ [taskT1, taskT2, taskBad], taskEnvelope wire t ≠ none →
        (calm 100).updateFails (markSent (calm 100) t) = false →
        ∀ r ∈ (beaconTasksHandler wire (calm 100)
          { tasks := [taskT2, taskBad, taskT1], events := [], checkins := [] } pollB).2.tasks,
          r.ID = t.ID → r.State = TaskState.SENT :=
  ⟨by decide,
   beaconTasksHandler_dispatch wire (calm 100)
    { tasks := [taskT2, taskBad, taskT1], events := [], checkins := [] } pollB
    { ID := "b", Tasks := [], NextCheckin := 0 } [taskT1, taskT2, taskBad] none
    (by decide) rfl (by decide) (by decide)⟩

/-! ## At most one dispatch -/

/-- C3 as stated fails: when the write that marks the task `SENT` fails, the
task stays `CREATED` and two successive check-ins without results, with no
task enqueued in between, both carry its envelope. -/
theorem beaconTasksHandler_resends_after_failed_write :
    beaconTasksHandler wire (failing 100) { tasks := [taskT1], events := [], checkins := [] } pollB
      = (some { ID := 0, Type_ := wire.MsgBeaconTasks,
                Data := wireMarshalBaconTasks
                  { ID := "", Tasks := [{ ID := 7, Type_ := 5, Data := [] }], NextCheckin := 0 } },
         { tasks := [taskT1], events := [], checkins := [("b", 0)] }) ∧
    beaconTasksHandler wire (failing 101)
        { tasks := [taskT1], events := [], checkins := [("b", 0)] } pollB
      = (some { ID := 0, Type_ := wire.MsgBeaconTasks,
                Data := wireMarshalBaconTasks
                  { ID := "", Tasks := [{ ID := 7, Type_ := 5, Data := [] }], NextCheckin := 0 } },
         { tasks := [taskT1], events := [], checkins := [("b", 0), ("b", 0)] }) := by
  decide

/-- The pending query returns rows of the table that are in state `CREATED`. -/
theorem pending_mem (env : Env) (rows : List BeaconTask) (id : String) (t : BeaconTask)
    (h : t ∈ (PendingBeaconTasksByBeaconID env rows id).1) :
    t ∈ rows ∧ t.BeaconID = id ∧ t.State = TaskState.CREATED := by
  unfold PendingBeaconTasksByBeaconID at h
  cases hq : env.queryErr id with
  | some e => simp [hq] at h
  | none =>
    simp only [hq] at h
    have h2 := (List.perm_insertionSort createdBefore _).mem_iff.1 h
    simpa using h2

/-- C3, amended: a task is dispatched at most once provided the write that
marks it `SENT` succeeds: a pending task whose envelope went into the response
batch of a check-in without results (its stored request decoded) and whose
write succeeded is not returned by the pending query of any later check-in
with no task enqueued in between, so it is in no later response batch. -/
theorem dispatched_not_pending_again (p : Proto) (env env2 : Env) (w : World) (data : Bytes)
    (msg : BaconTasks) (pending : List BeaconTask) (err : Option DbError) (id2 : String)
    (hmsg : p.unmarshalBaconTasks data = some msg) (hres : msg.Tasks = [])
    (hq : PendingBeaconTasksByBeaconID env w.tasks msg.ID = (pending, err))
    (herr : err ≠ some DbError.other)
    (t : BeaconTask) (ht : t ∈ pending) (hdec : taskEnvelope p t ≠ none)
    (hup : env.updateFails (markSent env t) = false) :
    ∀ t2 ∈ (PendingBeaconTasksByBeaconID env2 (beaconTasksHandler p env w data).2.tasks id2).1,
      t2.ID ≠ t.ID := by
  intro t2 ht2 hid
  obtain ⟨hmem, _, hst⟩ := pending_mem env2 _ id2 t2 ht2
  rw [beaconTasksHandler_poll p env w data msg pending err hmsg hres hq herr] at hmem
  have := sendPending_marks p env pending [] w.tasks t ht hdec hup t2 hmem hid
  rw [hst] at this
  exact absurd this (by decide)

/-- The task `taskT1`, dispatched by a first check-in, is not pending for a second one. -/
theorem dispatched_not_pending_again_witness :
    taskT1 ∈ [taskT1, taskT2] ∧
    ∀ t2 ∈ (PendingBeaconTasksByBeaconID (calm 101) (beaconTasksHandler wire (calm 100)
        { tasks := [taskT2, taskT1], events := [], checkins := [] } pollB).2.tasks "b").1,
      t2.ID ≠ taskT1.ID :=
  ⟨by decide,
   dispatched_not_pending_again wire (calm 100) (calm 101)
    { tasks := [taskT2, taskT1], events := [], checkins := [] } pollB
    { ID := "b", Tasks := [], NextCheckin := 0 } [taskT1, taskT2] none "b"
    (by decide) rfl (by decide) (by decide) taskT1 (by decide) (by decide) (by decide)⟩

/-! ## The result path -/

theorem beaconTaskResults_append (p : Proto) (env : Env) (b : String) (xs ys : List Envelope) :
    ∀ w : World, beaconTaskResults p env b (xs ++ ys) w
      = beaconTaskResults p env b ys (beaconTaskResults p env b xs w) := by
  induction xs with
  | nil => intro w; rfl
  | cons x rest ih => intro w; simp [beaconTaskResults, ih]

/-- A task found by the lookup is a row of the table, of that beacon, with
that envelope id, in state `SENT`. -/
theorem lookup_found (env : Env) (rows : List BeaconTask) (b : String) (id : Int)
    (t : BeaconTask) (err : Option DbError)
    (h : BeaconTaskByEnvelopeID env rows b id = (some t, err)) :
    t ∈ rows ∧ t.BeaconID = b ∧ t.EnvelopeID = id ∧ t.State = TaskState.SENT ∧ err = none := by
  unfold BeaconTaskByEnvelopeID at h
  cases hl : env.lookupErr b id with
  | some e => simp [hl] at h
  | none =>
    simp only [hl] at h
    split at h
    · rename_i t0 hf
      simp only [Prod.mk.injEq, Option.some.injEq] at h
      obtain ⟨rfl, rfl⟩ := h
      have hm := List.mem_of_find?_eq_some hf
      have hp := List.find?_some hf
      simp only [decide_eq_true_eq] at hp
      exact ⟨hm, hp.1, hp.2.1, hp.2.2, rfl⟩
    · simp at h

/-- Without a `SENT` row for the beacon and envelope id the lookup finds no
task and reports an error. -/
theorem lookup_stale (env : Env) (rows : List BeaconTask) (b : String) (id : Int)
    (h : ∀ r ∈ rows, r.BeaconID = b → r.EnvelopeID = id → r.State ≠ TaskState.SENT) :
    (BeaconTaskByEnvelopeID env rows b id).1 = none
      ∧ (BeaconTaskByEnvelopeID env rows b id).2 ≠ none := by
  cases hl : BeaconTaskByEnvelopeID env rows b id with
  | mk ot err =>
    cases ot with
    | some t =>
      obtain ⟨hm, hb, hi, hs, _⟩ := lookup_found env rows b id t err hl
      exact absurd hs (h t hm hb hi)
    | none =>
      refine ⟨rfl, ?_⟩
      unfold BeaconTaskByEnvelopeID at hl
      cases hq : env.lookupErr b id with
      | some e => simp [hq] at hl; subst hl; simp
      | none =>
        simp only [hq] at hl
        split at hl
        · simp at hl
        · simp at hl; simp [← hl]

/-- An envelope whose lookup reports an error or returns no task changes nothing. -/
theorem taskResult_skip (p : Proto) (env : Env) (b : String) (e : Envelope) (w : World)
    (h : (BeaconTaskByEnvelopeID env w.tasks b e.ID).2 ≠ none
      ∨ (BeaconTaskByEnvelopeID env w.tasks b e.ID).1 = none) :
    taskResult p env b e w = w := by
  unfold taskResult
  cases hl : BeaconTaskByEnvelopeID env w.tasks b e.ID with
  | mk ot err =>
    rw [hl] at h
    cases err with
    | some x => cases ot <;> rfl
    | none =>
      cases ot with
      | none => rfl
      | some t => simp at h

/-- An envelope whose lookup and write succeed: the row is rewritten and one
event is published. -/
theorem taskResult_done (p : Proto) (env : Env) (b : String) (e : Envelope) (w : World)
    (t : BeaconTask) (hl : BeaconTaskByEnvelopeID env w.tasks b e.ID = (some t, none))
    (hu : env.updateFails (markCompleted env t e) = false) :
    taskResult p env b e w =
      { tasks := updateTask w.tasks t.ID (markCompleted env t e),
        events := w.events ++ [{ EventType := EventType.BeaconTaskResultEvent,
                                 Data := p.marshalBeaconTask (markCompleted env t e) }],
        checkins := w.checkins } := by
  unfold taskResult
  simp only [hl, hu]
  rfl

/-- An envelope whose write fails changes nothing. -/
theorem taskResult_failed (p : Proto) (env : Env) (b : String) (e : Envelope) (w : World)
    (t : BeaconTask) (hl : BeaconTaskByEnvelopeID env w.tasks b e.ID = (some t, none))
    (hu : env.updateFails (markCompleted env t e) = true) :
    taskResult p env b e w = w := by
  unfold taskResult
  simp only [hl, hu]
  rfl

/-- The three outcomes of one envelope. -/
theorem taskResult_cases (p : Proto) (env : Env) (b : String) (e : Envelope) (w : World) :
    taskResult p env b e w = w ∨
    ∃ t, BeaconTaskByEnvelopeID env w.tasks b e.ID = (some t, none)
      ∧ env.updateFails (markCompleted env t e) = false
      ∧ taskResult p env b e w =
        { tasks := updateTask w.tasks t.ID (markCompleted env t e),
          events := w.events ++ [{ EventType := EventType.BeaconTaskResultEvent,
                                   Data := p.marshalBeaconTask (markCompleted env t e) }],
          checkins := w.checkins } := by
  cases hl : BeaconTaskByEnvelopeID env w.tasks b e.ID with
  | mk ot err =>
    cases err with
    | some x => exact Or.inl (taskResult_skip p env b e w (Or.inl (by simp [hl])))
    | none =>
      cases ot with
      | none => exact Or.inl (taskResult_skip p env b e w (Or.inr (by simp [hl])))
      | some t =>
        cases hu : env.updateFails (markCompleted env t e) with
        | true => exact Or.inl (taskResult_failed p env b e w t hl hu)
        | false => exact Or.inr ⟨t, rfl, hu, taskResult_done p env b e w t hl hu⟩

/-- C4: a result whose envelope id refers, when it is processed, to no task
of the beacon in state `SENT` (a task still `CREATED`, one already
`COMPLETED`, or an unknown id) changes nothing: the table, the events and the
check-ins after it are those before it, and the batch has the effect of the
batch without that result; `beaconTaskResults` has no error result. -/
theorem beaconTaskResults_stale_ignored (p : Proto) (env : Env) (b : String)
    (pre post : List Envelope) (e : Envelope) (w : World)
    (h : ∀ r ∈ (beaconTaskResults p env b pre w).tasks,
      r.BeaconID = b → r.EnvelopeID = e.ID → r.State ≠ TaskState.SENT) :
    taskResult p env b e (beaconTaskResults p env b pre w) = beaconTaskResults p env b pre w
    ∧ beaconTaskResults p env b (pre ++ e :: post) w = beaconTaskResults p env b (pre ++ post) w := by
  have hs := taskResult_skip p env b e (beaconTaskResults p env b pre w)
    (Or.inr (lookup_stale env _ b e.ID h).1)
  refine ⟨hs, ?_⟩
  rw [beaconTaskResults_append, beaconTaskResults_append]
  simp [beaconTaskResults, hs]

/-- A result for envelope id 5, whose task is already `COMPLETED`, between two live results. -/
theorem beaconTaskResults_stale_ignored_witness :
    (∀ r ∈ (beaconTaskResults wire (calm 200) "b" [resultFor 8 [2]]
        { tasks := [taskDone, taskT1, sentT2], events := [], checkins := [] }).tasks,
      r.BeaconID = "b" → r.EnvelopeID = (resultFor 5 [9]).ID → r.State ≠ TaskState.SENT) ∧
    (taskResult wire (calm 200) "b" (resultFor 5 [9])
        (beaconTaskResults wire (calm 200) "b" [resultFor 8 [2]]
          { tasks := [taskDone, taskT1, sentT2], events := [], checkins := [] })
      = beaconTaskResults wire (calm 200) "b" [resultFor 8 [2]]
          { tasks := [taskDone, taskT1, sentT2], events := [], checkins := [] }
    ∧ beaconTaskResults wire (calm 200) "b" ([resultFor 8 [2]] ++ resultFor 5 [9] :: [resultFor 7 [3]])
          { tasks := [taskDone, taskT1, sentT2], events := [], checkins := [] }
      = beaconTaskResults wire (calm 200) "b" ([resultFor 8 [2]] ++ [resultFor 7 [3]])
          { tasks := [taskDone, taskT1, sentT2], events := [], checkins := [] }) :=
  ⟨by decide,
   beaconTaskResults_stale_ignored wire (calm 200) "b" [resultFor 8 [2]] [resultFor 7 [3]]
    (resultFor 5 [9]) { tasks := [taskDone, taskT1, sentT2], events := [], checkins := [] }
    (by decide)⟩

/-! ## Rows kept by the result path -/

theorem updateTask_mem_of_ne (rows : List BeaconTask) (id : String) (task r : BeaconTask)
    (hr : r ∈ rows) (hne : r.ID ≠ id) : r ∈ updateTask rows id task := by
  unfold updateTask
  exact List.mem_map.2 ⟨r, hr, by simp [hne]⟩

theorem updateTask_mem_new (rows : List BeaconTask) (id : String) (task t : BeaconTask)
    (ht : t ∈ rows) (hid : t.ID = id) : task ∈ updateTask rows id task := by
  unfold updateTask
  exact List.mem_map.2 ⟨t, ht, by simp [hid]⟩

theorem updateTask_mem (rows : List BeaconTask) (id : String) (task r : BeaconTask)
    (hr : r ∈ updateTask rows id task) : r ∈ rows ∨ r = task := by
  unfold updateTask at hr
  rcases List.mem_map.1 hr with ⟨r0, hr0, rfl⟩
  by_cases h : r0.ID = id
  · simp [h]
  · simp [h, hr0]

/-- In a table whose identifiers are pairwise distinct a row is determined by
its identifier. -/
theorem row_of_id (rows : List BeaconTask) (hn : (rows.map (fun r => r.ID)).Nodup)
    (r t : BeaconTask) (hr : r ∈ rows) (ht : t ∈ rows) (h : r.ID = t.ID) : r = t :=
  List.inj_on_of_nodup_map hn hr ht h

theorem taskResult_ids (p : Proto) (env : Env) (b : String) (e : Envelope) (w : World) :
    (taskResult p env b e w).tasks.map (fun r => r.ID) = w.tasks.map (fun r => r.ID) := by
  rcases taskResult_cases p env b e w with h | ⟨t, _, _, h⟩
  · rw [h]
  · rw [h]
    exact updateTask_ids w.tasks t.ID (markCompleted env t e) rfl

theorem beaconTaskResults_ids (p : Proto) (env : Env) (b : String) (batch : List Envelope) :
    ∀ w : World, (beaconTaskResults p env b batch w).tasks.map (fun r => r.ID)
      = w.tasks.map (fun r => r.ID) := by
  induction batch with
  | nil => intro w; rfl
  | cons e rest ih =>
    intro w
    simp only [beaconTaskResults]
    rw [ih, taskResult_ids]

/-- One envelope leaves every row but the one its lookup finds as it is. -/
theorem taskResult_keeps (p : Proto) (env : Env) (b : String) (e : Envelope) (w : World)
    (hn : (w.tasks.map (fun r => r.ID)).Nodup) (r : BeaconTask) (hr : r ∈ w.tasks)
    (h : r.State = TaskState.SENT → r.BeaconID = b → e.ID ≠ r.EnvelopeID) :
    r ∈ (taskResult p env b e w).tasks := by
  rcases taskResult_cases p env b e w with hw | ⟨t, hl, _, hw⟩
  · rw [hw]; exact hr
  · rw [hw]
    obtain ⟨htm, htb, hti, hts, _⟩ := lookup_found env w.tasks b e.ID t none hl
    apply updateTask_mem_of_ne _ _ _ _ hr
    intro hid
    have hrt := row_of_id w.tasks hn r t hr htm hid
    subst hrt
    exact h hts htb hti.symm

/-- A batch leaves as it is every row that none of its envelopes can refer
to: a row not in state `SENT`, of another beacon, or with another envelope id. -/
theorem beaconTaskResults_keeps (p : Proto) (env : Env) (b : String) (batch : List Envelope) :
    ∀ (w : World), (w.tasks.map (fun r => r.ID)).Nodup → ∀ r ∈ w.tasks,
      (∀ e ∈ batch, r.State = TaskState.SENT → r.BeaconID = b → e.ID ≠ r.EnvelopeID) →
      r ∈ (beaconTaskResults p env b batch w).tasks := by
  induction batch with
  | nil => intro w _ r hr _; exact hr
  | cons e rest ih =>
    intro w hn r hr h
    simp only [beaconTaskResults]
    apply ih
    · rw [taskResult_ids]; exact hn
    · exact taskResult_keeps p env b e w hn r hr (h e (List.mem_cons_self _ _))
    · intro e2 he2
      exact h e2 (List.mem_cons_of_mem _ he2)

/-- C7: result ingestion touches only the reported tasks: in a table whose
task identifiers are pairwise distinct, every task whose envelope id does not
occur in the batch is after `beaconTaskResults` the row it was before, with
its state, response and timestamps, and the table holds the same identifiers
in the same places. -/
theorem beaconTaskResults_frame (p : Proto) (env : Env) (b : String) (batch : List Envelope)
    (w : World) (hn : (w.tasks.map (fun r => r.ID)).Nodup) (r : BeaconTask) (hr : r ∈ w.tasks)
    (h : ∀ e ∈ batch, e.ID ≠ r.EnvelopeID) :
    r ∈ (beaconTaskResults p env b batch w).tasks
    ∧ (beaconTaskResults p env b batch w).tasks.map (fun r => r.ID)
        = w.tasks.map (fun r => r.ID) :=
  ⟨beaconTaskResults_keeps p env b batch w hn r hr (fun e he _ _ => h e he),
   beaconTaskResults_ids p env b batch w⟩

/-- With T1 and T2 both `SENT`, a batch with T1's result completes T1 and leaves T2 as it is. -/
theorem beaconTaskResults_frame_witness :
    ([sentT1, sentT2].map (fun r => r.ID)).Nodup ∧
    (beaconTaskResults wire (calm 200) "b" [resultFor 7 [3]]
        { tasks := [sentT1, sentT2], events := [], checkins := [] }).tasks
      = [markCompleted (calm 200) sentT1 (resultFor 7 [3]), sentT2] ∧
    (sentT2 ∈ (beaconTaskResults wire (calm 200) "b" [resultFor 7 [3]]
        { tasks := [sentT1, sentT2], events := [], checkins := [] }).tasks
    ∧ (beaconTaskResults wire (calm 200) "b" [resultFor 7 [3]]
        { tasks := [sentT1, sentT2], events := [], checkins := [] }).tasks.map (fun r => r.ID)
        = [sentT1, sentT2].map (fun r => r.ID)) :=
  ⟨by decide, by decide,
   beaconTaskResults_frame wire (calm 200) "b" [resultFor 7 [3]]
    { tasks := [sentT1, sentT2], events := [], checkins := [] } (by decide) sentT2 (by decide)
    (by decide)⟩

/-! ## Completion of the reported tasks -/

/-- What one successful envelope leaves in the table persists to the end of
the batch: the completed row is in the final table. -/
theorem completed_persists (p : Proto) (env : Env) (b : String) (pre post : List Envelope)
    (e : Envelope) (w : World) (t : BeaconTask)
    (hn : (w.tasks.map (fun r => r.ID)).Nodup)
    (hl : BeaconTaskByEnvelopeID env (beaconTaskResults p env b pre w).tasks b e.ID = (some t, none))
    (hu : env.updateFails (markCompleted env t e) = false) :
    markCompleted env t e ∈ (beaconTaskResults p env b (pre ++ e :: post) w).tasks := by
  have hn1 : ((beaconTaskResults p env b pre w).tasks.map (fun r => r.ID)).Nodup := by
    rw [beaconTaskResults_ids]; exact hn
  obtain ⟨htm, _, _, _, _⟩ := lookup_found env _ b e.ID t none hl
  have hstep := taskResult_done p env b e (beaconTaskResults p env b pre w) t hl hu
  rw [beaconTaskResults_append]
  simp only [beaconTaskResults]
  apply beaconTaskResults_keeps
  · rw [taskResult_ids]; exact hn1
  · rw [hstep]
    exact updateTask_mem_new _ t.ID _ t htm rfl
  · intro e2 _ hs
    simp [markCompleted] at hs

/-- C6: for a result envelope of a batch whose lookup, when the envelope is
processed, finds a task and whose database update succeeds, in a table whose
task identifiers are pairwise distinct: after `beaconTaskResults` the row with
that task's identifier is the task with state `COMPLETED`, `Response` equal to
the envelope's `Data` and `CompletedAt` equal to the clock reading taken for
it, and
processing the envelope publishes exactly one event, a `BeaconTaskResultEvent`
carrying that completed task. -/
theorem beaconTaskResults_completes (p : Proto) (env : Env) (b : String)
    (pre post : List Envelope) (e : Envelope) (w : World) (t : BeaconTask)
    (hn : (w.tasks.map (fun r => r.ID)).Nodup)
    (hl : BeaconTaskByEnvelopeID env (beaconTaskResults p env b pre w).tasks b e.ID = (some t, none))
    (hu : env.updateFails (markCompleted env t e) = false) :
    (∃ r ∈ (beaconTaskResults p env b (pre ++ e :: post) w).tasks, r.ID = t.ID)
    ∧ (∀ r ∈ (beaconTaskResults p env b (pre ++ e :: post) w).tasks, r.ID = t.ID →
        r = markCompleted env t e ∧ r.State = TaskState.COMPLETED ∧ r.Response = e.Data
          ∧ r.CompletedAt = env.now t)
    ∧ (beaconTaskResults p env b (pre ++ [e]) w).events
        = (beaconTaskResults p env b pre w).events
          ++ [{ EventType := EventType.BeaconTaskResultEvent,
                Data := p.marshalBeaconTask (markCompleted env t e) }] := by
  have hmem := completed_persists p env b pre post e w t hn hl hu
  refine ⟨⟨_, hmem, rfl⟩, ?_, ?_⟩
  · intro r hr hid
    have hnf : ((beaconTaskResults p env b (pre ++ e :: post) w).tasks.map
        (fun r => r.ID)).Nodup := by
      rw [beaconTaskResults_ids]; exact hn
    have := row_of_id _ hnf r (markCompleted env t e) hr hmem hid
    subst this
    exact ⟨rfl, rfl, rfl, rfl⟩
  · rw [beaconTaskResults_append]
    simp only [beaconTaskResults]
    rw [taskResult_done p env b e _ t hl hu]

/-- The result for envelope id 7 between a result for id 8 and a repeated result for id 7. -/
theorem beaconTaskResults_completes_witness :
    ([sentT1, sentT2].map (fun r => r.ID)).Nodup ∧
    BeaconTaskByEnvelopeID (calm 200) (beaconTaskResults wire (calm 200) "b" [resultFor 8 [2]]
      { tasks := [sentT1, sentT2], events := [], checkins := [] }).tasks "b" (resultFor 7 [3]).ID
      = (some sentT1, none) ∧
    ((∃ r ∈ (beaconTaskResults wire (calm 200) "b" ([resultFor 8 [2]] ++ resultFor 7 [3] :: [resultFor 7 [4]])
        { tasks := [sentT1, sentT2], events := [], checkins := [] }).tasks, r.ID = sentT1.ID)
    ∧ (∀ r ∈ (beaconTaskResults wire (calm 200) "b" ([resultFor 8 [2]] ++ resultFor 7 [3] :: [resultFor 7 [4]])
        { tasks := [sentT1, sentT2], events := [], checkins := [] }).tasks, r.ID = sentT1.ID →
        r = markCompleted (calm 200) sentT1 (resultFor 7 [3]) ∧ r.State = TaskState.COMPLETED
          ∧ r.Response = (resultFor 7 [3]).Data ∧ r.CompletedAt = (calm 200).now sentT1)
    ∧ (beaconTaskResults wire (calm 200) "b" ([resultFor 8 [2]] ++ [resultFor 7 [3]])
        { tasks := [sentT1, sentT2], events := [], checkins := [] }).events
        = (beaconTaskResults wire (calm 200) "b" [resultFor 8 [2]]
            { tasks := [sentT1, sentT2], events := [], checkins := [] }).events
          ++ [{ EventType := EventType.BeaconTaskResultEvent,
                Data := wire.marshalBeaconTask (markCompleted (calm 200) sentT1 (resultFor 7 [3])) }]) :=
  ⟨by decide, by decide,
   beaconTaskResults_completes wire (calm 200) "b" [resultFor 8 [2]] [resultFor 7 [4]]
    (resultFor 7 [3]) { tasks := [sentT1, sentT2], events := [], checkins := [] } sentT1
    (by decide) (by decide) (by decide)⟩

/-- Every row of the table after a batch is a row from before it or the
completed record of an envelope of the batch whose lookup and write succeeded. -/
theorem beaconTaskResults_rows (p : Proto) (env : Env) (b : String) (batch : List Envelope) :
    ∀ (w : World), ∀ r ∈ (beaconTaskResults p env b batch w).tasks,
      r ∈ w.tasks ∨ ∃ pre e post t, batch = pre ++ e :: post
        ∧ BeaconTaskByEnvelopeID env (beaconTaskResults p env b pre w).tasks b e.ID = (some t, none)
        ∧ env.updateFails (markCompleted env t e) = false
        ∧ r = markCompleted env t e := by
  induction batch with
  | nil => intro w r hr; exact Or.inl hr
  | cons e0 rest ih =>
    intro w r hr
    simp only [beaconTaskResults] at hr
    rcases ih _ r hr with h1 | ⟨pre, e, post, t, hb, hl, hu, hr2⟩
    · rcases taskResult_cases p env b e0 w with hw | ⟨t, hl, hu, hw⟩
      · rw [hw] at h1; exact Or.inl h1
      · rw [hw] at h1
        rcases updateTask_mem _ _ _ _ h1 with h2 | h2
        · exact Or.inl h2
        · exact Or.inr ⟨[], e0, rest, t, rfl, hl, hu, h2⟩
    · exact Or.inr ⟨e0 :: pre, e, post, t, by simp [hb], hl, hu, hr2⟩

/-- C8: in a table whose task identifiers are pairwise distinct, an envelope
of the batch whose lookup reports an error or returns no task is skipped: it
changes nothing and publishes no event, and the envelopes before and after it
are processed as if it were not there. The tasks completed by
`beaconTaskResults` are those of the envelopes whose lookup and update
succeed: every row of the final table is a row from before the batch or the
completed record of such an envelope, and the completed record of every such
envelope is in the final table. -/
theorem beaconTaskResults_skips_failed (p : Proto) (env : Env) (b : String)
    (batch : List Envelope) (w : World) (hn : (w.tasks.map (fun r => r.ID)).Nodup) :
    (∀ pre e post, batch = pre ++ e :: post →
      ((BeaconTaskByEnvelopeID env (beaconTaskResults p env b pre w).tasks b e.ID).2 ≠ none
        ∨ (BeaconTaskByEnvelopeID env (beaconTaskResults p env b pre w).tasks b e.ID).1 = none) →
      taskResult p env b e (beaconTaskResults p env b pre w) = beaconTaskResults p env b pre w
      ∧ beaconTaskResults p env b batch w
          = beaconTaskResults p env b post (beaconTaskResults p env b pre w))
    ∧ (∀ r ∈ (beaconTaskResults p env b batch w).tasks,
        r ∈ w.tasks ∨ ∃ pre e post t, batch = pre ++ e :: post
          ∧ BeaconTaskByEnvelopeID env (beaconTaskResults p env b pre w).tasks b e.ID = (some t, none)
          ∧ env.updateFails (markCompleted env t e) = false
          ∧ r = markCompleted env t e)
    ∧ (∀ pre e post t, batch = pre ++ e :: post →
        BeaconTaskByEnvelopeID env (beaconTaskResults p env b pre w).tasks b e.ID = (some t, none) →
        env.updateFails (markCompleted env t e) = false →
        markCompleted env t e ∈ (beaconTaskResults p env b batch w).tasks) := by
  refine ⟨?_, beaconTaskResults_rows p env b batch w, ?_⟩
  · intro pre e post hb hskip
    have hs := taskResult_skip p env b e _ hskip
    refine ⟨hs, ?_⟩
    rw [hb, beaconTaskResults_append]
    simp only [beaconTaskResults]
    rw [hs]
  · intro pre e post t hb hl hu
    rw [hb]
    exact completed_persists p env b pre post e w t hn hl hu

/-- A batch whose first envelope refers to a completed task and whose second has a failing lookup. -/
theorem beaconTaskResults_skips_failed_witness :
    ([sentT1, sentT2, taskDone].map (fun r => r.ID)).Nodup ∧
    beaconTaskResults wire (lookupFails8 200) "b" [resultFor 5 [9], resultFor 8 [2], resultFor 7 [3]]
        { tasks := [sentT1, sentT2, taskDone], events := [], checkins := [] }
      = { tasks := [markCompleted (lookupFails8 200) sentT1 (resultFor 7 [3]), sentT2, taskDone],
          events := [{ EventType := EventType.BeaconTaskResultEvent,
                       Data := wire.marshalBeaconTask
                         (markCompleted (lookupFails8 200) sentT1 (resultFor 7 [3])) }],
          checkins := [] } ∧
    ((∀ pre e post, [resultFor 5 [9], resultFor 8 [2], resultFor 7 [3]] = pre ++ e :: post →
      ((BeaconTaskByEnvelopeID (lookupFails8 200) (beaconTaskResults wire (lookupFails8 200) "b" pre
          { tasks := [sentT1, sentT2, taskDone], events := [], checkins := [] }).tasks "b" e.ID).2 ≠ none
        ∨ (BeaconTaskByEnvelopeID (lookupFails8 200) (beaconTaskResults wire (lookupFails8 200) "b" pre
          { tasks := [sentT1, sentT2, taskDone], events := [], checkins := [] }).tasks "b" e.ID).1 = none) →
      taskResult wire (lookupFails8 200) "b" e (beaconTaskResults wire (lookupFails8 200) "b" pre
          { tasks := [sentT1, sentT2, taskDone], events := [], checkins := [] })
        = beaconTaskResults wire (lookupFails8 200) "b" pre
          { tasks := [sentT1, sentT2, taskDone], events := [], checkins := [] }
      ∧ beaconTaskResults wire (lookupFails8 200) "b" [resultFor 5 [9], resultFor 8 [2], resultFor 7 [3]]
          { tasks := [sentT1, sentT2, taskDone], events := [], checkins := [] }
          = beaconTaskResults wire (lookupFails8 200) "b" post
            (beaconTaskResults wire (lookupFails8 200) "b" pre
              { tasks := [sentT1, sentT2, taskDone], events := [], checkins := [] }))
    ∧ (∀ r ∈ (beaconTaskResults wire (lookupFails8 200) "b"
          [resultFor 5 [9], resultFor 8 [2], resultFor 7 [3]]
          { tasks := [sentT1, sentT2, taskDone], events := [], checkins := [] }).tasks,
        r ∈ [sentT1, sentT2, taskDone] ∨ ∃ pre e post t,
          [resultFor 5 [9], resultFor 8 [2], resultFor 7 [3]] = pre ++ e :: post
          ∧ BeaconTaskByEnvelopeID (lookupFails8 200) (beaconTaskResults wire (lookupFails8 200) "b" pre
              { tasks := [sentT1, sentT2, taskDone], events := [], checkins := [] }).tasks "b" e.ID
              = (some t, none)
          ∧ (lookupFails8 200).updateFails (markCompleted (lookupFails8 200) t e) = false
          ∧ r = markCompleted (lookupFails8 200) t e)
    ∧ (∀ pre e post t, [resultFor 5 [9], resultFor 8 [2], resultFor 7 [3]] = pre ++ e :: post →
        BeaconTaskByEnvelopeID (lookupFails8 200) (beaconTaskResults wire (lookupFails8 200) "b" pre
            { tasks := [sentT1, sentT2, taskDone], events := [], checkins := [] }).tasks "b" e.ID
            = (some t, none) →
        (lookupFails8 200).updateFails (markCompleted (lookupFails8 200) t e) = false →
        markCompleted (lookupFails8 200) t e ∈ (beaconTaskResults wire (lookupFails8 200) "b"
          [resultFor 5 [9], resultFor 8 [2], resultFor 7 [3]]
          { tasks := [sentT1, sentT2, taskDone], events := [], checkins := [] }).tasks)) :=
  ⟨by decide, by decide,
   beaconTaskResults_skips_failed wire (lookupFails8 200) "b"
    [resultFor 5 [9], resultFor 8 [2], resultFor 7 [3]]
    { tasks := [sentT1, sentT2, taskDone], events := [], checkins := [] } (by decide)⟩

/-! ## Monotonic task states -/

theorem sendPending_mono (p : Proto) (env : Env) (rows0 : List BeaconTask)
    (hn : (rows0.map (fun r => r.ID)).Nodup) (pend : List BeaconTask) :
    ∀ (acc : List Envelope) (rows : List BeaconTask),
      (∀ t ∈ pend, t ∈ rows0 ∧ t.State = TaskState.CREATED) →
      (∀ r ∈ rows0, ∀ r2 ∈ rows, r2.ID = r.ID → r.State.rank ≤ r2.State.rank) →
      ∀ r ∈ rows0, ∀ r2 ∈ (sendPending p env pend acc rows).2, r2.ID = r.ID →
        r.State.rank ≤ r2.State.rank := by
  induction pend with
  | nil => intro acc rows _ h; simpa [sendPending] using h
  | cons t rest ih =>
    intro acc rows hp h
    have hrest : ∀ t2 ∈ rest, t2 ∈ rows0 ∧ t2.State = TaskState.CREATED :=
      fun t2 h2 => hp t2 (List.mem_cons_of_mem _ h2)
    cases ht : taskEnvelope p t with
    | none => simpa [sendPending, ht] using ih acc rows hrest h
    | some e =>
      by_cases hu : env.updateFails (markSent env t) = true
      · simpa [sendPending, ht, hu] using ih (acc ++ [e]) rows hrest h
      · simp only [sendPending, ht, hu]
        rw [if_neg (by simp)]
        apply ih _ _ hrest
        intro r hr r2 hr2 hid
        rcases updateTask_mem _ _ _ _ hr2 with h2 | h2
        · exact h r hr r2 h2 hid
        · subst h2
          obtain ⟨htm, hts⟩ := hp t (List.mem_cons_self _ _)
          have : r = t := row_of_id rows0 hn r t hr htm (by simpa [markSent] using hid.symm)
          subst this
          simp [hts, markSent, TaskState.rank]

theorem TaskState.rank_le_two (s : TaskState) : s.rank ≤ 2 := by
  cases s <;> simp [TaskState.rank]

theorem taskResult_mono (p : Proto) (env : Env) (b : String) (e : Envelope)
    (rows0 : List BeaconTask) (w : World)
    (h : ∀ r ∈ rows0, ∀ r2 ∈ w.tasks, r2.ID = r.ID → r.State.rank ≤ r2.State.rank) :
    ∀ r ∈ rows0, ∀ r2 ∈ (taskResult p env b e w).tasks, r2.ID = r.ID →
      r.State.rank ≤ r2.State.rank := by
  intro r hr r2 hr2 hid
  rcases taskResult_cases p env b e w with hw | ⟨t, _, _, hw⟩
  · rw [hw] at hr2; exact h r hr r2 hr2 hid
  · rw [hw] at hr2
    rcases updateTask_mem _ _ _ _ hr2 with h2 | h2
    · exact h r hr r2 h2 hid
    · subst h2
      exact TaskState.rank_le_two _

theorem beaconTaskResults_mono (p : Proto) (env : Env) (b : String) (rows0 : List BeaconTask)
    (batch : List Envelope) :
    ∀ (w : World),
      (∀ r ∈ rows0, ∀ r2 ∈ w.tasks, r2.ID = r.ID → r.State.rank ≤ r2.State.rank) →
      ∀ r ∈ rows0, ∀ r2 ∈ (beaconTaskResults p env b batch w).tasks, r2.ID = r.ID →
        r.State.rank ≤ r2.State.rank := by
  induction batch with
  | nil => intro w h; exact h
  | cons e rest ih =>
    intro w h
    simp only [beaconTaskResults]
    exact ih _ (taskResult_mono p env b e rows0 w h)

/-- The table after one check-in, by the path the handler takes. -/
theorem beaconTasksHandler_tasks (p : Proto) (env : Env) (w : World) (data : Bytes) :
    (beaconTasksHandler p env w data).2.tasks = w.tasks
    ∨ (∃ msg, p.unmarshalBaconTasks data = some msg ∧ msg.Tasks ≠ [] ∧
        (beaconTasksHandler p env w data).2.tasks = (beaconTaskResults p env msg.ID msg.Tasks
          { tasks := w.tasks, events := w.events,
            checkins := w.checkins ++ [(msg.ID, msg.NextCheckin)] }).tasks)
    ∨ (∃ msg, p.unmarshalBaconTasks data = some msg ∧ msg.Tasks = [] ∧
        (beaconTasksHandler p env w data).2.tasks
          = (sendPending p env (PendingBeaconTasksByBeaconID env w.tasks msg.ID).1 [] w.tasks).2) := by
  cases hmsg : p.unmarshalBaconTasks data with
  | none => left; simp [beaconTasksHandler, hmsg]
  | some msg =>
    by_cases hres : msg.Tasks = []
    · cases hq : PendingBeaconTasksByBeaconID env w.tasks msg.ID with
      | mk pending err =>
        by_cases herr : err = some DbError.other
        · left
          subst herr
          simp [beaconTasksHandler, hmsg, hres, hq]
        · right; right
          refine ⟨msg, rfl, hres, ?_⟩
          rw [beaconTasksHandler_poll p env w data msg pending err hmsg hres hq herr, hq]
    · right; left
      refine ⟨msg, rfl, hres, ?_⟩
      have hpos : 0 < msg.Tasks.length := List.length_pos.2 hres
      simp [beaconTasksHandler, hmsg, hpos]

theorem beaconTasksHandler_ids (p : Proto) (env : Env) (w : World) (data : Bytes) :
    (beaconTasksHandler p env w data).2.tasks.map (fun r => r.ID)
      = w.tasks.map (fun r => r.ID) := by
  rcases beaconTasksHandler_tasks p env w data with h | ⟨msg, _, _, h⟩ | ⟨msg, _, _, h⟩
  · rw [h]
  · rw [h, beaconTaskResults_ids]
  · rw [h, sendPending_ids]

theorem beaconTasksHandler_mono (p : Proto) (env : Env) (w : World) (data : Bytes)
    (hn : (w.tasks.map (fun r => r.ID)).Nodup) :
    ∀ r ∈ w.tasks, ∀ r2 ∈ (beaconTasksHandler p env w data).2.tasks, r2.ID = r.ID →
      r.State.rank ≤ r2.State.rank := by
  have h0 : ∀ r ∈ w.tasks, ∀ r2 ∈ w.tasks, r2.ID = r.ID → r.State.rank ≤ r2.State.rank := by
    intro r hr r2 hr2 hid
    rw [row_of_id w.tasks hn r2 r hr2 hr hid]
  rcases beaconTasksHandler_tasks p env w data with h | ⟨msg, _, _, h⟩ | ⟨msg, _, _, h⟩
  · rw [h]; exact h0
  · rw [h]
    exact beaconTaskResults_mono p env msg.ID w.tasks msg.Tasks _ h0
  · rw [h]
    apply sendPending_mono p env w.tasks hn _ [] w.tasks _ h0
    intro t ht
    obtain ⟨hm, _, hs⟩ := pending_mem env w.tasks msg.ID t ht
    exact ⟨hm, hs⟩

theorem checkIns_append (p : Proto) (s1 s2 : List (Env × Bytes)) :
    ∀ w : World, checkIns p (s1 ++ s2) w = checkIns p s2 (checkIns p s1 w) := by
  induction s1 with
  | nil => intro w; rfl
  | cons x rest ih =>
    intro w
    obtain ⟨env, data⟩ := x
    simp [checkIns, ih]

theorem checkIns_ids (p : Proto) (steps : List (Env × Bytes)) :
    ∀ w : World, (checkIns p steps w).tasks.map (fun r => r.ID) = w.tasks.map (fun r => r.ID) := by
  induction steps with
  | nil => intro w; rfl
  | cons x rest ih =>
    intro w
    obtain ⟨env, data⟩ := x
    simp only [checkIns]
    rw [ih, beaconTasksHandler_ids]

theorem checkIns_mono (p : Proto) (steps : List (Env × Bytes)) :
    ∀ w : World, (w.tasks.map (fun r => r.ID)).Nodup →
      ∀ r ∈ w.tasks, ∀ r2 ∈ (checkIns p steps w).tasks, r2.ID = r.ID →
        r.State.rank ≤ r2.State.rank := by
  induction steps with
  | nil =>
    intro w hn r hr r2 hr2 hid
    rw [row_of_id w.tasks hn r2 r hr2 hr hid]
  | cons x rest ih =>
    intro w hn r hr r2 hr2 hid
    obtain ⟨env, data⟩ := x
    simp only [checkIns] at hr2
    have hn1 : ((beaconTasksHandler p env w data).2.tasks.map (fun r => r.ID)).Nodup := by
      rw [beaconTasksHandler_ids]; exact hn
    have hin : r.ID ∈ (beaconTasksHandler p env w data).2.tasks.map (fun r => r.ID) := by
      rw [beaconTasksHandler_ids]; exact List.mem_map.2 ⟨r, hr, rfl⟩
    obtain ⟨r1, hr1, hid1⟩ := List.mem_map.1 hin
    have h1 := beaconTasksHandler_mono p env w data hn r hr r1 hr1 hid1
    have h2 := ih _ hn1 r1 hr1 r2 hr2 (hid.trans hid1.symm)
    exact le_trans h1 h2

/-- C5: task state is monotonic along CREATED, SENT, COMPLETED: over every
sequence of check-ins processed by `beaconTasksHandler` (and by
`beaconTaskResults` for those that carry results), from a table whose task
identifiers are pairwise distinct, between any two points of the run the table
holds the same task identifiers and no task has a state earlier on that line
than before: a `COMPLETED` task stays `COMPLETED` and a `SENT` task is never
`CREATED` again. -/
theorem checkIns_monotonic (p : Proto) (s1 s2 : List (Env × Bytes)) (w : World)
    (hn : (w.tasks.map (fun r => r.ID)).Nodup) :
    (checkIns p (s1 ++ s2) w).tasks.map (fun r => r.ID)
      = (checkIns p s1 w).tasks.map (fun r => r.ID)
    ∧ ∀ r ∈ (checkIns p s1 w).tasks, ∀ r2 ∈ (checkIns p (s1 ++ s2) w).tasks, r2.ID = r.ID →
        r.State.rank ≤ r2.State.rank
        ∧ (r.State = TaskState.COMPLETED → r2.State = TaskState.COMPLETED)
        ∧ (r.State = TaskState.SENT → r2.State ≠ TaskState.CREATED) := by
  have hn1 : ((checkIns p s1 w).tasks.map (fun r => r.ID)).Nodup := by
    rw [checkIns_ids]; exact hn
  rw [checkIns_append]
  refine ⟨checkIns_ids p s2 _, ?_⟩
  intro r hr r2 hr2 hid
  have hle := checkIns_mono p s2 _ hn1 r hr r2 hr2 hid
  refine ⟨hle, ?_, ?_⟩
  · intro hc
    rw [hc] at hle
    cases hs : r2.State <;> simp [hs, TaskState.rank] at hle ⊢
  · intro hc hc2
    rw [hc, hc2] at hle
    simp [TaskState.rank] at hle

/-- A check-in without results followed by one that reports the result of `taskT1`. -/
theorem checkIns_monotonic_witness :
    ([taskT1, taskDone, taskT2].map (fun r => r.ID)).Nodup ∧
    (checkIns wire ([(calm 100, pollB)] ++ [(calm 200, resultsB)])
        { tasks := [taskT1, taskDone, taskT2], events := [], checkins := [] }).tasks
      = [markCompleted (calm 200) sentT1 (resultFor 7 [3]), taskDone, sentT2] ∧
    ((checkIns wire ([(calm 100, pollB)] ++ [(calm 200, resultsB)])
        { tasks := [taskT1, taskDone, taskT2], events := [], checkins := [] }).tasks.map (fun r => r.ID)
      = (checkIns wire [(calm 100, pollB)]
        { tasks := [taskT1, taskDone, taskT2], events := [], checkins := [] }).tasks.map (fun r => r.ID)
    ∧ ∀ r ∈ (checkIns wire [(calm 100, pollB)]
        { tasks := [taskT1, taskDone, taskT2], events := [], checkins := [] }).tasks,
      ∀ r2 ∈ (checkIns wire ([(calm 100, pollB)] ++ [(calm 200, resultsB)])
        { tasks := [taskT1, taskDone, taskT2], events := [], checkins := [] }).tasks, r2.ID = r.ID →
        r.State.rank ≤ r2.State.rank
        ∧ (r.State = TaskState.COMPLETED → r2.State = TaskState.COMPLETED)
        ∧ (r.State = TaskState.SENT → r2.State ≠ TaskState.CREATED)) :=
  ⟨by decide, by decide,
   checkIns_monotonic wire [(calm 100, pollB)] [(calm 200, resultsB)]
    { tasks := [taskT1, taskDone, taskT2], events := [], checkins := [] } (by decide)⟩

/-! ## Results and dispatch in one check-in; the check-in update -/

theorem beaconTaskResults_checkins (p : Proto) (env : Env) (b : String) (batch : List Envelope) :
    ∀ w : World, (beaconTaskResults p env b batch w).checkins = w.checkins := by
  induction batch with
  | nil => intro w; rfl
  | cons e rest ih =>
    intro w
    simp only [beaconTaskResults]
    rw [ih]
    rcases taskResult_cases p env b e w with h | ⟨t, _, _, h⟩ <;> rw [h]

/-- What `beaconTasksHandler` does on a check-in that carries results. -/
theorem beaconTasksHandler_results (p : Proto) (env : Env) (w : World) (data : Bytes)
    (msg : BaconTasks) (hmsg : p.unmarshalBaconTasks data = some msg) (hres : msg.Tasks ≠ []) :
    beaconTasksHandler p env w data =
      (none, beaconTaskResults p env msg.ID msg.Tasks
        { tasks := w.tasks, events := w.events,
          checkins := w.checkins ++ [(msg.ID, msg.NextCheckin)] }) := by
  have hpos : 0 < msg.Tasks.length := List.length_pos.2 hres
  simp [beaconTasksHandler, hmsg, hpos]

/-- C9: results and dispatch never happen in the same check-in. An envelope
is returned only for a check-in that decodes and carries zero results; for
every check-in that carries at least one result, whatever `CREATED` tasks the
table holds, `beaconTasksHandler` returns no envelope and marks no task
`SENT`: every row of the table afterwards is a row from before or is
`COMPLETED`. -/
theorem beaconTasksHandler_results_no_dispatch (p : Proto) (env : Env) (w : World)
    (data : Bytes) :
    ((beaconTasksHandler p env w data).1 ≠ none →
      ∃ msg, p.unmarshalBaconTasks data = some msg ∧ msg.Tasks = [])
    ∧ ∀ msg, p.unmarshalBaconTasks data = some msg → msg.Tasks ≠ [] →
        (beaconTasksHandler p env w data).1 = none
        ∧ (∀ r ∈ (beaconTasksHandler p env w data).2.tasks,
            r ∈ w.tasks ∨ r.State = TaskState.COMPLETED) := by
  constructor
  · intro hne
    cases hmsg : p.unmarshalBaconTasks data with
    | none => simp [beaconTasksHandler, hmsg] at hne
    | some msg =>
      by_cases hres : msg.Tasks = []
      · exact ⟨msg, rfl, hres⟩
      · rw [beaconTasksHandler_results p env w data msg hmsg hres] at hne
        exact absurd rfl hne
  · intro msg hmsg hres
    rw [beaconTasksHandler_results p env w data msg hmsg hres]
    refine ⟨rfl, ?_⟩
    intro r hr
    rcases beaconTaskResults_rows p env msg.ID msg.Tasks _ r hr with h | ⟨_, e, _, t, _, _, _, h⟩
    · exact Or.inl h
    · right; rw [h]; rfl

/-- A check-in with one result while `taskT2` is still `CREATED`. -/
theorem beaconTasksHandler_results_no_dispatch_witness :
    wire.unmarshalBaconTasks resultsB
      = some { ID := "b", Tasks := [resultFor 7 [3]], NextCheckin := 60 } ∧
    beaconTasksHandler wire (calm 200) { tasks := [taskT2, sentT1], events := [], checkins := [] }
        resultsB
      = (none,
         { tasks := [taskT2, markCompleted (calm 200) sentT1 (resultFor 7 [3])],
           events := [{ EventType := EventType.BeaconTaskResultEvent,
                        Data := wire.marshalBeaconTask
                          (markCompleted (calm 200) sentT1 (resultFor 7 [3])) }],
           checkins := [("b", 60)] }) ∧
    ((beaconTasksHandler wire (calm 200)
        { tasks := [taskT2, sentT1], events := [], checkins := [] } resultsB).1 = none
     ∧ (∀ r ∈ (beaconTasksHandler wire (calm 200)
          { tasks := [taskT2, sentT1], events := [], checkins := [] } resultsB).2.tasks,
          r ∈ [taskT2, sentT1] ∨ r.State = TaskState.COMPLETED)) :=
  ⟨by decide, by decide,
   (beaconTasksHandler_results_no_dispatch wire (calm 200)
      { tasks := [taskT2, sentT1], events := [], checkins := [] } resultsB).2
      { ID := "b", Tasks := [resultFor 7 [3]], NextCheckin := 60 } (by decide) (by decide)⟩

/-- C10: for every check-in message that decodes, with or without task
results, `beaconTasksHandler` requests exactly one next-check-in update
(`UpdateBeaconCheckinByID`), with the message's beacon id and its `NextCheckin`
value; for a payload that does not decode it requests none, returns nil and
changes no task. -/
theorem beaconTasksHandler_checkin_update (p : Proto) (env : Env) (w : World) (data : Bytes) :
    (∀ msg, p.unmarshalBaconTasks data = some msg →
      (beaconTasksHandler p env w data).2.checkins
        = w.checkins ++ [(msg.ID, msg.NextCheckin)])
    ∧ (p.unmarshalBaconTasks data = none → beaconTasksHandler p env w data = (none, w)) := by
  constructor
  · intro msg hmsg
    by_cases hres : msg.Tasks = []
    · cases hq : PendingBeaconTasksByBeaconID env w.tasks msg.ID with
      | mk pending err =>
        by_cases herr : err = some DbError.other
        · subst herr
          simp [beaconTasksHandler, hmsg, hres, hq]
        · rw [beaconTasksHandler_poll p env w data msg pending err hmsg hres hq herr]
    · rw [beaconTasksHandler_results p env w data msg hmsg hres, beaconTaskResults_checkins]
  · intro hmsg
    simp [beaconTasksHandler, hmsg]

/-- A check-in that decodes, and a payload that does not. -/
theorem beaconTasksHandler_checkin_update_witness :
    wire.unmarshalBaconTasks resultsB
      = some { ID := "b", Tasks := [resultFor 7 [3]], NextCheckin := 60 } ∧
    (beaconTasksHandler wire (calm 200)
        { tasks := [taskT2, sentT1], events := [], checkins := [("a", 5)] } resultsB).2.checkins
      = [("a", 5)] ++ [("b", 60)] ∧
    wire.unmarshalBaconTasks [255] = none ∧
    beaconTasksHandler wire (calm 200)
        { tasks := [taskT2, sentT1], events := [], checkins := [("a", 5)] } [255]
      = (none, { tasks := [taskT2, sentT1], events := [], checkins := [("a", 5)] }) :=
  ⟨by decide,
   (beaconTasksHandler_checkin_update wire (calm 200)
      { tasks := [taskT2, sentT1], events := [], checkins := [("a", 5)] } resultsB).1
      { ID := "b", Tasks := [resultFor 7 [3]], NextCheckin := 60 } (by decide),
   by decide,
   (beaconTasksHandler_checkin_update wire (calm 200)
      { tasks := [taskT2, sentT1], events := [], checkins := [("a", 5)] } [255]).2 (by decide)⟩

/-! ## Beacon registration -/

/-- What `beaconRegisterHandler` does with a registration that decodes and
carries a `Register` sub-message, for a beacon record at hand. -/
theorem beaconRegisterHandler_registers (p : RegProto) (env : RegEnv)
    (implantConn : ImplantConnection) (w : Registry) (data : Bytes) (beaconReg : BaconRegister)
    (register : Register) (found : Option Beacon) (err : Option DbError) (beacon : Beacon)
    (hmsg : p.unmarshalBaconRegister data = some beaconReg)
    (hreg : beaconReg.Register = some register)
    (hl : env.BeaconByID beaconReg.ID = (found, err)) (herr : err ≠ some DbError.other)
    (hb : (if err = some DbError.ErrRecordNotFound then some (newBeacon (env.FromString beaconReg.ID))
      else found) = some beacon) :
    beaconRegisterHandler p env implantConn w data =
      Run.done none
        (saveAndPublish p env w (registerBeacon env implantConn beaconReg register beacon)
          register) := by
  unfold beaconRegisterHandler
  simp only [hmsg, hl]
  cases err with
  | none => simp only [hreg, hb]
  | some e =>
    cases e with
    | other => exact absurd rfl herr
    | ErrRecordNotFound =>
      simp only [if_true, Option.some.injEq] at hb
      subst hb
      simp [hreg]

/-- C11 as stated fails: the registration `registerB` of the unknown beacon
"b" decodes, with a `Register` sub-message, and when the `Save` of its record
fails the handler only logs the error: no beacon record is saved, and the
`BeaconRegisteredEvent` is published all the same. -/
theorem beaconRegisterHandler_save_fails :
    wireReg.unmarshalBaconRegister registerB = some regMsgB ∧
    beaconRegisterHandler wireReg (noSaveEnv 500) sampleConn
        { saved := [], events := [], audit := [] } registerB
      = Run.done none
          { saved := [],
            events := [{ EventType := EventType.BeaconRegisteredEvent,
                         Data := wireMarshalBeacon savedB, Beacon := savedB }],
            audit := [(savedB, { emptyRegister with Hostname := "h" })] } := by
  refine ⟨by decide, by rfl⟩

/-- C11, amended: for every registration payload that decodes and carries a
`Register` sub-message, `beaconRegisterHandler` passes exactly one beacon
record to `Save`, which stores it unless the write fails, publishes one
`BeaconRegisteredEvent` for it either way and returns nil: when the lookup
finds a beacon the record keeps that record's ID, and when the lookup reports
not-found the record's ID is the identifier parsed from the registration. When
the lookup fails with another error nothing is saved and no event is
published. -/
theorem beaconRegisterHandler_saves_one (p : RegProto) (env : RegEnv)
    (implantConn : ImplantConnection) (w : Registry) (data : Bytes) (beaconReg : BaconRegister)
    (register : Register)
    (hmsg : p.unmarshalBaconRegister data = some beaconReg)
    (hreg : beaconReg.Register = some register) :
    (∀ existing, env.BeaconByID beaconReg.ID = (some existing, none) →
      ∃ w2 b, beaconRegisterHandler p env implantConn w data = Run.done none w2
        ∧ b = registerBeacon env implantConn beaconReg register existing
        ∧ b.ID = existing.ID
        ∧ (env.saveFails b = false → w2.saved = w.saved ++ [b])
        ∧ (env.saveFails b = true → w2.saved = w.saved)
        ∧ w2.events = w.events ++ [{ EventType := EventType.BeaconRegisteredEvent,
                                     Data := p.marshalBeacon b, Beacon := b }])
    ∧ (∀ found, env.BeaconByID beaconReg.ID = (found, some DbError.ErrRecordNotFound) →
      ∃ w2 b, beaconRegisterHandler p env implantConn w data = Run.done none w2
        ∧ b = registerBeacon env implantConn beaconReg register
            (newBeacon (env.FromString beaconReg.ID))
        ∧ b.ID = env.FromString beaconReg.ID
        ∧ (env.saveFails b = false → w2.saved = w.saved ++ [b])
        ∧ (env.saveFails b = true → w2.saved = w.saved)
        ∧ w2.events = w.events ++ [{ EventType := EventType.BeaconRegisteredEvent,
                                     Data := p.marshalBeacon b, Beacon := b }])
    ∧ (∀ found, env.BeaconByID beaconReg.ID = (found, some DbError.other) →
      beaconRegisterHandler p env implantConn w data = Run.done none w) := by
  refine ⟨?_, ?_, ?_⟩
  · intro existing hl
    refine ⟨_, _, beaconRegisterHandler_registers p env implantConn w data beaconReg register
      (some existing) none existing hmsg hreg hl (by simp) (by simp), rfl, rfl, ?_, ?_, rfl⟩
    · intro hs; simp [saveAndPublish, hs]
    · intro hs; simp [saveAndPublish, hs]
  · intro found hl
    refine ⟨_, _, beaconRegisterHandler_registers p env implantConn w data beaconReg register
      found (some DbError.ErrRecordNotFound) _ hmsg hreg hl (by simp) (by simp), rfl, rfl,
      ?_, ?_, rfl⟩
    · intro hs; simp [saveAndPublish, hs]
    · intro hs; simp [saveAndPublish, hs]
  · intro found hl
    unfold beaconRegisterHandler
    simp only [hmsg, hl]

/-- The registration `registerB` of beacon "b" when "b" is known, and under a
failing lookup. -/
theorem beaconRegisterHandler_saves_one_witness :
    wireReg.unmarshalBaconRegister registerB = some regMsgB ∧
    beaconRegisterHandler wireReg (knownEnv 500) sampleConn
        { saved := [], events := [], audit := [] } registerB
      = Run.done none (saveAndPublish wireReg (knownEnv 500)
          { saved := [], events := [], audit := [] }
          { knownB with Name := "", Hostname := "h", Transport := "mtls",
                        RemoteAddress := "10.0.0.9:4444", LastCheckin := 500, Interval := 60,
                        Jitter := 5, NextCheckin := 1500 }
          { emptyRegister with Hostname := "h" }) ∧
    (∃ w2 b, beaconRegisterHandler wireReg (knownEnv 500) sampleConn
          { saved := [], events := [], audit := [] } registerB = Run.done none w2
        ∧ b = registerBeacon (knownEnv 500) sampleConn regMsgB
            { emptyRegister with Hostname := "h" } knownB
        ∧ b.ID = knownB.ID
        ∧ ((knownEnv 500).saveFails b = false → w2.saved = [] ++ [b])
        ∧ ((knownEnv 500).saveFails b = true → w2.saved = [])
        ∧ w2.events = [] ++ [{ EventType := EventType.BeaconRegisteredEvent,
                               Data := wireReg.marshalBeacon b, Beacon := b }]) ∧
    beaconRegisterHandler wireReg (brokenEnv 500) sampleConn
        { saved := [knownB], events := [], audit := [] } registerB
      = Run.done none { saved := [knownB], events := [], audit := [] } :=
  ⟨by decide, by rfl,
   (beaconRegisterHandler_saves_one wireReg (knownEnv 500) sampleConn
      { saved := [], events := [], audit := [] } registerB regMsgB
      { emptyRegister with Hostname := "h" } (by decide) rfl).1 knownB (by decide),
   (beaconRegisterHandler_saves_one wireReg (brokenEnv 500) sampleConn
      { saved := [knownB], events := [], audit := [] } registerB regMsgB
      { emptyRegister with Hostname := "h" } (by decide) rfl).2.2 none (by decide)⟩

/-- C12 as stated fails: the registration `registerB` (interval 60, jitter 5,
next check-in delta 1000) on a connection last heard at time 500, at clock
reading 500, saves a record whose `NextCheckin` is 1500, 940 away from
`LastCheckin + Interval` = 560, more than the jitter 5. -/
theorem beaconRegisterHandler_checkin_unrelated :
    beaconRegisterHandler wireReg (freshEnv 500) sampleConn
        { saved := [], events := [], audit := [] } registerB
      = Run.done none
          { saved := [savedB],
            events := [{ EventType := EventType.BeaconRegisteredEvent,
                         Data := wireMarshalBeacon savedB, Beacon := savedB }],
            audit := [(savedB, { emptyRegister with Hostname := "h" })] } ∧
    savedB.NextCheckin = 1500 ∧ savedB.LastCheckin = 500 ∧ savedB.Interval = 60 ∧
    savedB.Jitter = 5 ∧
    savedB.Jitter < Int.natAbs (savedB.NextCheckin - (savedB.LastCheckin + savedB.Interval)) := by
  refine ⟨by rfl, by decide, by decide, by decide, by decide, by decide⟩

/-- C12, amended: in every record `beaconRegisterHandler` saves, `NextCheckin`
is the clock reading plus the `NextCheckin` delta of the registration message,
`LastCheckin` is the last-message time of the connection, and `Interval` and
`Jitter` are the values of the message; the handler relates them in no other
way. -/
theorem beaconRegisterHandler_checkin_fields (p : RegProto) (env : RegEnv)
    (implantConn : ImplantConnection) (w w2 : Registry) (data : Bytes) (r : Option Envelope)
    (b : Beacon)
    (h : beaconRegisterHandler p env implantConn w data = Run.done r w2)
    (hs : w2.saved = w.saved ++ [b]) :
    ∃ beaconReg, p.unmarshalBaconRegister data = some beaconReg
      ∧ b.NextCheckin = env.now + beaconReg.NextCheckin
      ∧ b.LastCheckin = implantConn.LastMessage
      ∧ b.Interval = beaconReg.Interval
      ∧ b.Jitter = beaconReg.Jitter := by
  have hlen : ∀ l : List Beacon, l ≠ l ++ [b] := by
    intro l hl
    have := congrArg List.length hl
    simp at this
  have hno : ∀ w3 : Registry, Run.done (none : Option Envelope) w = Run.done r w3 →
      w3.saved ≠ w.saved ++ [b] := by
    intro w3 h3 h4
    simp only [Run.done.injEq] at h3
    rw [← h3.2] at h4
    exact hlen _ h4
  unfold beaconRegisterHandler at h
  cases hmsg : p.unmarshalBaconRegister data with
  | none =>
    simp only [hmsg] at h
    exact absurd hs (hno w2 h)
  | some beaconReg =>
    refine ⟨beaconReg, rfl, ?_⟩
    simp only [hmsg] at h
    split at h
    · exact absurd hs (hno w2 h)
    · split at h
      · simp at h
      · split at h
        · simp at h
        · rename_i beacon0 _
          simp only [Run.done.injEq] at h
          rw [← h.2] at hs
          simp only [saveAndPublish] at hs
          split at hs
          · exact absurd hs (hlen _)
          · simp only [List.append_cancel_left_eq, List.cons.injEq, and_true] at hs
            rw [← hs]
            exact ⟨rfl, rfl, rfl, rfl⟩

/-- The record saved for `registerB` when beacon "b" is not yet known. -/
theorem beaconRegisterHandler_checkin_fields_witness :
    beaconRegisterHandler wireReg (freshEnv 500) sampleConn
        { saved := [], events := [], audit := [] } registerB
      = Run.done none (saveAndPublish wireReg (freshEnv 500)
          { saved := [], events := [], audit := [] } savedB
          { emptyRegister with Hostname := "h" }) ∧
    ∃ beaconReg, wireReg.unmarshalBaconRegister registerB = some beaconReg
      ∧ savedB.NextCheckin = (freshEnv 500).now + beaconReg.NextCheckin
      ∧ savedB.LastCheckin = sampleConn.LastMessage
      ∧ savedB.Interval = beaconReg.Interval
      ∧ savedB.Jitter = beaconReg.Jitter :=
  ⟨by rfl,
   beaconRegisterHandler_checkin_fields wireReg (freshEnv 500) sampleConn
    { saved := [], events := [], audit := [] }
    (saveAndPublish wireReg (freshEnv 500) { saved := [], events := [], audit := [] } savedB
      { emptyRegister with Hostname := "h" })
    registerB none savedB (by rfl) (by rfl)⟩

/-- C13, the code at the failing input: a registration payload that names
beacon "b" and carries no `Register` sub-message decodes, the beacon is not
known, and `beaconRegisterHandler` stops on the nil dereference of
`beaconReg.Register` at line 66 instead of returning. -/
theorem beaconRegisterHandler_faults_without_register :
    wireReg.unmarshalBaconRegister registerNoSub
      = some { ID := "b", Interval := 0, Jitter := 0, Register := none, NextCheckin := 0 } ∧
    (freshEnv 500).BeaconByID "b" = (none, some DbError.ErrRecordNotFound) ∧
    beaconRegisterHandler wireReg (freshEnv 500) sampleConn
        { saved := [], events := [], audit := [] } registerNoSub
      = Run.fault { saved := [], events := [], audit := [] } := by
  decide

/-! ## The tunnel writer -/

/-- What a call of `tunnelWriter.Write` does on a connection whose channel
takes the envelope. -/
theorem tunnelWriter_Write_live (p : TunnelProto) (tw : tunnelWriter) (data : Bytes)
    (hlive : tw.conn.state = ChanState.receiving) :
    tunnelWriter.Write p tw data
      = (WriteEnd.returned data.length (p.marshalTunnelData (tw.chunk data)).2,
         { tun := tw.tun.IncWriteSequence,
           conn := { Send := tw.conn.Send ++ [tunnelEnvelope p (p.marshalTunnelData (tw.chunk data)).1],
                     state := ChanState.receiving } }) := by
  obtain ⟨tun, send, state⟩ := tw
  cases state with
  | receiving => rfl
  | stalled => cases hlive
  | closed => cases hlive

/-- C14: for every tunnel with write sequence w and read sequence r, on a
connection whose `Send` channel takes what is put on it, and for every
payload, `tunnelWriter.Write` returns the length of the payload and the error
of the marshalling and appends exactly one envelope to the connection's send
queue: its type is `MsgTunnelData`, its correlation id is unset and its data
is the marshalling of the `TunnelData` with `Sequence` = w, `Ack` = r,
`TunnelID` = the tunnel's id and `Data` = the payload, so that where
unmarshalling undoes the marshalling of that chunk the data of the queued
envelope reads back as that chunk. Afterwards the write sequence is w + 1,
the read sequence is still r and the tunnel id is unchanged. -/
theorem tunnelWriter_Write_chunk (p : TunnelProto) (tw : tunnelWriter) (data : Bytes)
    (hlive : tw.conn.state = ChanState.receiving) :
    (tunnelWriter.Write p tw data).1
      = WriteEnd.returned data.length
          (p.marshalTunnelData
            { Sequence := tw.tun.writeSequence, Ack := tw.tun.readSequence,
              TunnelID := tw.tun.ID, Data := data }).2
    ∧ (tunnelWriter.Write p tw data).2.conn.Send
      = tw.conn.Send ++
          [{ ID := 0, Type_ := p.MsgTunnelData,
             Data := (p.marshalTunnelData
                       { Sequence := tw.tun.writeSequence, Ack := tw.tun.readSequence,
                         TunnelID := tw.tun.ID, Data := data }).1 }]
    ∧ ((tunnelWriter.Write p tw data).2.conn.Send.drop tw.conn.Send.length).map
          (fun e => (e.ID, e.Type_))
      = [(0, p.MsgTunnelData)]
    ∧ (p.unmarshalTunnelData (p.marshalTunnelData
            { Sequence := tw.tun.writeSequence, Ack := tw.tun.readSequence,
              TunnelID := tw.tun.ID, Data := data }).1
          = some { Sequence := tw.tun.writeSequence, Ack := tw.tun.readSequence,
                   TunnelID := tw.tun.ID, Data := data } →
        ((tunnelWriter.Write p tw data).2.conn.Send.drop tw.conn.Send.length).map
            (fun e => p.unmarshalTunnelData e.Data)
          = [some { Sequence := tw.tun.writeSequence, Ack := tw.tun.readSequence,
                    TunnelID := tw.tun.ID, Data := data }])
    ∧ (tunnelWriter.Write p tw data).2.conn.state = ChanState.receiving
    ∧ (tunnelWriter.Write p tw data).2.tun
      = { ID := tw.tun.ID, writeSequence := tw.tun.writeSequence + 1,
          readSequence := tw.tun.readSequence } := by
  rw [tunnelWriter_Write_live p tw data hlive]
  refine ⟨rfl, rfl, ?_, ?_, rfl, rfl⟩
  · simp only [List.drop_left]
    rfl
  · intro hrt
    simp only [List.drop_left, List.map_cons, List.map_nil]
    exact congrArg (fun x => [x]) hrt

/-- A write of "abc" on tunnel 9 at write sequence 3 and read sequence 4: the
queued envelope carries the eleven bytes of the chunk. -/
theorem tunnelWriter_Write_chunk_witness :
    (liveWriter 3 4).conn.state = ChanState.receiving ∧
    tunnelWriter.Write wireTunnel (liveWriter 3 4) [97, 98, 99]
      = (WriteEnd.returned 3 none,
         { tun := { ID := 9, writeSequence := 4, readSequence := 4 },
           conn := { Send := [{ ID := 0, Type_ := 101,
                                Data := [10, 3, 97, 98, 99, 24, 3, 32, 4, 64, 9] }],
                     state := ChanState.receiving } }) ∧
    wireUnmarshalTunnelData [10, 3, 97, 98, 99, 24, 3, 32, 4, 64, 9]
      = some { Sequence := 3, Ack := 4, TunnelID := 9, Data := [97, 98, 99] } ∧
    (tunnelWriter.Write wireTunnel (liveWriter 3 4) [97, 98, 99]).2.conn.Send
      = (liveWriter 3 4).conn.Send ++
          [{ ID := 0, Type_ := wireTunnel.MsgTunnelData,
             Data := (wireTunnel.marshalTunnelData
                       { Sequence := (liveWriter 3 4).tun.writeSequence,
                         Ack := (liveWriter 3 4).tun.readSequence,
                         TunnelID := (liveWriter 3 4).tun.ID, Data := [97, 98, 99] }).1 }] :=
  ⟨rfl, by decide, by decide,
   (tunnelWriter_Write_chunk wireTunnel (liveWriter 3 4) [97, 98, 99] rfl).2.1⟩

theorem chunksFrom_sequence (id ack : Nat) (payloads : List Bytes) :
    ∀ seq, (chunksFrom id ack seq payloads).map (fun c => c.Sequence)
      = List.range' seq payloads.length := by
  induction payloads with
  | nil => intro seq; rfl
  | cons d rest ih => intro seq; simp [chunksFrom, ih, List.range'_succ]

theorem chunksFrom_data (id ack : Nat) (payloads : List Bytes) :
    ∀ seq, (chunksFrom id ack seq payloads).map (fun c => c.Data) = payloads := by
  induction payloads with
  | nil => intro seq; rfl
  | cons d rest ih => intro seq; simp [chunksFrom, ih]

/-- What a run of writes leaves on a connection whose channel takes the
envelopes: every call returns, one envelope per payload is queued in order,
numbered from the write sequence on, and the sequence is advanced by their
number. -/
theorem writeAll_spec (p : TunnelProto) (payloads : List Bytes) :
    ∀ tw : tunnelWriter, tw.conn.state = ChanState.receiving →
      (writeAll p tw payloads).2.conn.Send
        = tw.conn.Send ++ (chunksFrom tw.tun.ID tw.tun.readSequence tw.tun.writeSequence
            payloads).map (fun c => tunnelEnvelope p (p.marshalTunnelData c).1)
      ∧ (writeAll p tw payloads).1.map (fun r => r.1) = payloads.map (fun d => d.length)
      ∧ (writeAll p tw payloads).2.tun.writeSequence = tw.tun.writeSequence + payloads.length := by
  induction payloads with
  | nil => intro tw _; simp [writeAll, chunksFrom]
  | cons d rest ih =>
    intro tw hlive
    have hW := tunnelWriter_Write_live p tw d hlive
    obtain ⟨h1, h2, h3⟩ := ih
      { tun := tw.tun.IncWriteSequence,
        conn := { Send := tw.conn.Send ++ [tunnelEnvelope p (p.marshalTunnelData (tw.chunk d)).1],
                  state := ChanState.receiving } } rfl
    have h1b : (writeAll p
        { tun := tw.tun.IncWriteSequence,
          conn := { Send := tw.conn.Send ++ [tunnelEnvelope p (p.marshalTunnelData (tw.chunk d)).1],
                    state := ChanState.receiving } } rest).2.conn.Send
        = (tw.conn.Send ++ [tunnelEnvelope p (p.marshalTunnelData
              (TunnelData.mk tw.tun.writeSequence tw.tun.readSequence tw.tun.ID d)).1])
          ++ (chunksFrom tw.tun.ID tw.tun.readSequence (tw.tun.writeSequence + 1) rest).map
              (fun c => tunnelEnvelope p (p.marshalTunnelData c).1) := h1
    have h3b : (writeAll p
        { tun := tw.tun.IncWriteSequence,
          conn := { Send := tw.conn.Send ++ [tunnelEnvelope p (p.marshalTunnelData (tw.chunk d)).1],
                    state := ChanState.receiving } } rest).2.tun.writeSequence
        = tw.tun.writeSequence + 1 + rest.length := h3
    simp only [writeAll, hW, chunksFrom, List.map_cons, List.length_cons]
    refine ⟨?_, ?_, ?_⟩
    · rw [h1b]
      simp
    · rw [h2]
    · rw [h3b]
      omega

/-- C15: for every N and every list of N payloads written in turn with
`tunnelWriter.Write` to a tunnel whose write sequence starts at 0, on a
connection whose `Send` channel takes what is put on it, the send queue
receives N envelopes, the marshalled chunks in order; the chunks carry the
sequence numbers 0, 1, ..., N-1 in that order and the payloads as their data,
so that the concatenation of their data is the concatenation of the payloads;
each `Write` returns, with the length of its payload; and when unmarshalling
undoes the marshalling of these chunks, reading the new envelopes back in
order yields exactly these chunks. -/
theorem writeAll_round_trip (p : TunnelProto) (tw : tunnelWriter) (payloads : List Bytes)
    (h0 : tw.tun.writeSequence = 0) (hlive : tw.conn.state = ChanState.receiving) :
    (writeAll p tw payloads).2.conn.Send
        = tw.conn.Send ++ (chunksFrom tw.tun.ID tw.tun.readSequence 0 payloads).map
            (fun c => tunnelEnvelope p (p.marshalTunnelData c).1)
    ∧ (chunksFrom tw.tun.ID tw.tun.readSequence 0 payloads).length = payloads.length
    ∧ (chunksFrom tw.tun.ID tw.tun.readSequence 0 payloads).map (fun c => c.Sequence)
        = List.range payloads.length
    ∧ ((chunksFrom tw.tun.ID tw.tun.readSequence 0 payloads).map (fun c => c.Data)).flatten
        = payloads.flatten
    ∧ (writeAll p tw payloads).1.map (fun r => r.1) = payloads.map (fun d => d.length)
    ∧ ((∀ c ∈ chunksFrom tw.tun.ID tw.tun.readSequence 0 payloads,
          p.unmarshalTunnelData (p.marshalTunnelData c).1 = some c) →
        ((writeAll p tw payloads).2.conn.Send.drop tw.conn.Send.length).filterMap
            (fun e => p.unmarshalTunnelData e.Data)
          = chunksFrom tw.tun.ID tw.tun.readSequence 0 payloads) := by
  obtain ⟨h1, h2, _⟩ := writeAll_spec p payloads tw hlive
  rw [h0] at h1
  refine ⟨h1, ?_, ?_, ?_, h2, ?_⟩
  · have := congrArg List.length (chunksFrom_data tw.tun.ID tw.tun.readSequence payloads 0)
    simpa using this
  · rw [chunksFrom_sequence, List.range_eq_range']
  · rw [chunksFrom_data]
  · intro hrt
    rw [h1, List.drop_left, List.filterMap_map]
    generalize chunksFrom tw.tun.ID tw.tun.readSequence 0 payloads = cs at hrt
    induction cs with
    | nil => rfl
    | cons c rest ih =>
      have hc : p.unmarshalTunnelData (tunnelEnvelope p (p.marshalTunnelData c).1).Data = some c :=
        hrt c (List.mem_cons_self _ _)
      have hr := ih (fun c2 h2 => hrt c2 (List.mem_cons_of_mem _ h2))
      simp only [List.filterMap_cons, Function.comp_apply, hc, hr]

/-- The writes of "abc" then "def" on a tunnel at write sequence 0. -/
theorem writeAll_round_trip_witness :
    (liveWriter 0 4).tun.writeSequence = 0 ∧
    (liveWriter 0 4).conn.state = ChanState.receiving ∧
    chunksFrom 9 4 0 [[97, 98, 99], [100, 101, 102]]
      = [{ Sequence := 0, Ack := 4, TunnelID := 9, Data := [97, 98, 99] },
         { Sequence := 1, Ack := 4, TunnelID := 9, Data := [100, 101, 102] }] ∧
    ((writeAll wireTunnel (liveWriter 0 4) [[97, 98, 99], [100, 101, 102]]).2.conn.Send.drop
        (liveWriter 0 4).conn.Send.length).filterMap
          (fun e => wireTunnel.unmarshalTunnelData e.Data)
      = chunksFrom (liveWriter 0 4).tun.ID (liveWriter 0 4).tun.readSequence 0
          [[97, 98, 99], [100, 101, 102]] ∧
    (writeAll wireTunnel (liveWriter 0 4) [[97, 98, 99], [100, 101, 102]]).1.map (fun r => r.1)
      = [[97, 98, 99], [100, 101, 102]].map (fun d => d.length) :=
  ⟨rfl, rfl, by decide,
   (writeAll_round_trip wireTunnel (liveWriter 0 4) [[97, 98, 99], [100, 101, 102]] rfl
     rfl).2.2.2.2.2 (by decide),
   (writeAll_round_trip wireTunnel (liveWriter 0 4) [[97, 98, 99], [100, 101, 102]] rfl
     rfl).2.2.2.2.1⟩

/-- C16 as stated fails: a write of one byte on a tunnel at write sequence 3
whose owning connection has been removed returns no error. Where the `Send`
channel of the connection is closed the call stops on the panic of the send,
and where nothing receives from the channel it blocks in the send; in both
cases the write sequence has already advanced to 4. -/
theorem tunnelWriter_Write_on_removed_connection :
    (orphanWriter 3 4).conn.state = ChanState.closed ∧
    tunnelWriter.Write wireTunnel (orphanWriter 3 4) [97]
      = (WriteEnd.panicked,
         { tun := { ID := 9, writeSequence := 4, readSequence := 4 },
           conn := { Send := [], state := ChanState.closed } }) ∧
    (stalledWriter 3 4).conn.state = ChanState.stalled ∧
    tunnelWriter.Write wireTunnel (stalledWriter 3 4) [97]
      = (WriteEnd.blocked,
         { tun := { ID := 9, writeSequence := 4, readSequence := 4 },
           conn := { Send := [], state := ChanState.stalled } }) := by
  decide

/-- C16, amended: `tunnelWriter.Write` has no check of the owning connection
and no error for a removed one. Whatever the state of the connection, the
call leaves the write sequence advanced by one and the read sequence and the
tunnel id as they were; when it returns, the connection's channel has taken
the envelope and the results are the length of the payload and the error of
the marshalling, the only error it can return. On a connection that has been
removed, whose channel is closed or has no receiver, the call does not return:
it stops on the panic of the send or blocks in it, and nothing is queued. -/
theorem tunnelWriter_Write_ignores_removal (p : TunnelProto) (tw : tunnelWriter) (data : Bytes) :
    (tunnelWriter.Write p tw data).2.tun
      = { ID := tw.tun.ID, writeSequence := tw.tun.writeSequence + 1,
          readSequence := tw.tun.readSequence }
    ∧ (∀ n err, (tunnelWriter.Write p tw data).1 = WriteEnd.returned n err →
        n = data.length ∧ err = (p.marshalTunnelData (tw.chunk data)).2
        ∧ tw.conn.state = ChanState.receiving)
    ∧ (tw.conn.state = ChanState.closed →
        (tunnelWriter.Write p tw data).1 = WriteEnd.panicked
        ∧ (tunnelWriter.Write p tw data).2.conn = tw.conn)
    ∧ (tw.conn.state = ChanState.stalled →
        (tunnelWriter.Write p tw data).1 = WriteEnd.blocked
        ∧ (tunnelWriter.Write p tw data).2.conn = tw.conn) := by
  obtain ⟨tun, send, state⟩ := tw
  cases state with
  | receiving =>
    refine ⟨rfl, ?_, fun h => (by cases h), fun h => (by cases h)⟩
    intro n err h
    have h2 : WriteEnd.returned data.length
        (p.marshalTunnelData (tunnelWriter.chunk ⟨tun, send, ChanState.receiving⟩ data)).2
        = WriteEnd.returned n err := h
    simp only [WriteEnd.returned.injEq] at h2
    exact ⟨h2.1.symm, h2.2.symm, rfl⟩
  | stalled =>
    refine ⟨rfl, ?_, fun h => (by cases h), fun _ => ⟨rfl, rfl⟩⟩
    intro n err h
    have h2 : WriteEnd.blocked = WriteEnd.returned n err := h
    cases h2
  | closed =>
    refine ⟨rfl, ?_, fun _ => ⟨rfl, rfl⟩, fun h => (by cases h)⟩
    intro n err h
    have h2 : WriteEnd.panicked = WriteEnd.returned n err := h
    cases h2

/-- A write on the tunnel of a removed connection whose channel is closed. -/
theorem tunnelWriter_Write_ignores_removal_witness :
    (orphanWriter 3 4).conn.state = ChanState.closed ∧
    (tunnelWriter.Write wireTunnel (orphanWriter 3 4) [97]).1 = WriteEnd.panicked ∧
    (tunnelWriter.Write wireTunnel (orphanWriter 3 4) [97]).2.tun
      = { ID := (orphanWriter 3 4).tun.ID,
          writeSequence := (orphanWriter 3 4).tun.writeSequence + 1,
          readSequence := (orphanWriter 3 4).tun.readSequence } :=
  ⟨rfl, ((tunnelWriter_Write_ignores_removal wireTunnel (orphanWriter 3 4) [97]).2.2.1 rfl).1,
   (tunnelWriter_Write_ignores_removal wireTunnel (orphanWriter 3 4) [97]).1⟩

/-! ## Two check-ins of one beacon -/

/-- C17 as stated fails: with one `CREATED` task of beacon "b", two check-ins
without results that both run the pending query before either marks the task
`SENT` both return its envelope: the task is dispatched twice. -/
theorem overlappedCheckIns_dispatch_twice :
    overlappedCheckIns wire (calm 100) (calm 101) [taskT1] "b"
      = some (([{ ID := 7, Type_ := 5, Data := [] }], [{ ID := 7, Type_ := 5, Data := [] }]),
              [markSent (calm 101) taskT1]) ∧
    taskEnvelope wire taskT1 = some { ID := 7, Type_ := 5, Data := [] } := by
  decide

theorem pollQuery_eq (env : Env) (rows : List BeaconTask) (id : String)
    (pend : List BeaconTask) (h : pollQuery env rows id = some pend) :
    pend = (PendingBeaconTasksByBeaconID env rows id).1 := by
  unfold pollQuery at h
  split at h
  · simp at h
  · rename_i l e _ heq
    simp only [Option.some.injEq] at h
    rw [heq, ← h]

/-- C17, amended: `beaconTasksHandler` takes no lock per beacon. When two
check-ins of one beacon without results are processed one after the other,
the response batches are the envelopes of the tasks each one's query returned,
and a task of the first check-in whose stored request decodes and whose `SENT`
write succeeds is not among the tasks of the second: it is dispatched once.
When both run the pending query before either marks the tasks, both queries
return the same tasks and each response batch holds the envelopes of all of
them. -/
theorem serialCheckIns_no_duplicate (p : Proto) (envA envB : Env) (rows : List BeaconTask)
    (id : String) (pendA : List BeaconTask) (hA : pollQuery envA rows id = some pendA) :
    (∀ pendB, pollQuery envB (sendPending p envA pendA [] rows).2 id = some pendB →
      serialCheckIns p envA envB rows id
        = some ((pendA.filterMap (taskEnvelope p), pendB.filterMap (taskEnvelope p)),
                (sendPending p envB pendB [] (sendPending p envA pendA [] rows).2).2)
      ∧ ∀ t ∈ pendA, taskEnvelope p t ≠ none → envA.updateFails (markSent envA t) = false →
          ∀ t2 ∈ pendB, t2.ID ≠ t.ID)
    ∧ (∀ pendB, pollQuery envB rows id = some pendB →
      overlappedCheckIns p envA envB rows id
        = some ((pendA.filterMap (taskEnvelope p), pendB.filterMap (taskEnvelope p)),
                (sendPending p envB pendB [] (sendPending p envA pendA [] rows).2).2)
      ∧ (envA.queryErr id = none → envB.queryErr id = none → pendB = pendA)) := by
  constructor
  · intro pendB hB
    constructor
    · have h1 := sendPending_fst p envA pendA [] rows
      have h2 := sendPending_fst p envB pendB [] (sendPending p envA pendA [] rows).2
      simp only [List.nil_append] at h1 h2
      simp only [serialCheckIns, hA, hB, h1, h2]
    · intro t ht hdec hup t2 ht2 hid
      rw [pollQuery_eq envB _ id pendB hB] at ht2
      obtain ⟨hmem, _, hst⟩ := pending_mem envB _ id t2 ht2
      have := sendPending_marks p envA pendA [] rows t ht hdec hup t2 hmem hid
      rw [hst] at this
      exact absurd this (by decide)
  · intro pendB hB
    constructor
    · have h1 := sendPending_fst p envA pendA [] rows
      have h2 := sendPending_fst p envB pendB [] (sendPending p envA pendA [] rows).2
      simp only [List.nil_append] at h1 h2
      simp only [overlappedCheckIns, hA, hB, h1, h2]
    · intro hqa hqb
      rw [pollQuery_eq envA rows id pendA hA, pollQuery_eq envB rows id pendB hB]
      simp [PendingBeaconTasksByBeaconID, hqa, hqb]

/-- Two check-ins of beacon "b" over the tasks `taskT1` and `taskT2`. -/
theorem serialCheckIns_no_duplicate_witness :
    pollQuery (calm 100) [taskT2, taskT1] "b" = some [taskT1, taskT2] ∧
    serialCheckIns wire (calm 100) (calm 101) [taskT2, taskT1] "b"
      = some (([{ ID := 7, Type_ := 5, Data := [] }, { ID := 8, Type_ := 6, Data := [] }], []),
              [sentT2, sentT1]) ∧
    (serialCheckIns wire (calm 100) (calm 101) [taskT2, taskT1] "b"
        = some (([taskT1, taskT2].filterMap (taskEnvelope wire), [].filterMap (taskEnvelope wire)),
                (sendPending wire (calm 101) []
                  [] (sendPending wire (calm 100) [taskT1, taskT2] [] [taskT2, taskT1]).2).2)
      ∧ ∀ t ∈ [taskT1, taskT2], taskEnvelope wire t ≠ none →
          (calm 100).updateFails (markSent (calm 100) t) = false →
          ∀ t2 ∈ ([] : List BeaconTask), t2.ID ≠ t.ID) :=
  ⟨by decide, by decide,
   (serialCheckIns_no_duplicate wire (calm 100) (calm 101) [taskT2, taskT1] "b"
      [taskT1, taskT2] (by decide)).1 [] (by decide)⟩

/-! ## The pivot graph RPC -/

theorem foldl_goAppend {α β : Type} (ToProtobuf : α → β) (topLevel : List α) :
    ∀ init : List β,
      topLevel.foldl
        (fun (g : PivotGraph β) n => { g with Children := goAppend g.Children (ToProtobuf n) })
        { Children := some init }
      = { Children := some (init ++ topLevel.map ToProtobuf) } := by
  induction topLevel with
  | nil => intro init; simp
  | cons n rest ih =>
    intro init
    have hstep : goAppend (some init) (ToProtobuf n) = some (init ++ [ToProtobuf n]) := rfl
    simp only [List.foldl_cons, hstep, List.map_cons]
    rw [ih]
    simp

/-- C18: for every list of top-level nodes returned by `core.PivotGraph()`,
the `PivotGraph` RPC returns no error and a `PivotGraph` whose `Children` list
has exactly one entry per top-level node, in the same order, each the
protobuf serialization of that node; with no top-level node `Children` is an
empty list that is not nil. -/
theorem Server_PivotGraph_children {α β : Type} (ToProtobuf : α → β) (topLevel : List α) :
    Server.PivotGraph ToProtobuf topLevel
      = ({ Children := some (topLevel.map ToProtobuf) }, none)
    ∧ (topLevel = [] → (Server.PivotGraph ToProtobuf topLevel).1.Children = some [])
    ∧ ∀ l, (Server.PivotGraph ToProtobuf topLevel).1.Children = some l →
        l.length = topLevel.length := by
  have h : Server.PivotGraph ToProtobuf topLevel
      = ({ Children := some (topLevel.map ToProtobuf) }, none) := by
    unfold Server.PivotGraph
    simp only [foldl_goAppend, List.nil_append]
  refine ⟨h, ?_, ?_⟩
  · intro he
    rw [h, he]
    rfl
  · intro l hl
    rw [h] at hl
    simp only [Option.some.injEq] at hl
    rw [← hl, List.length_map]

/-- The RPC on three top-level nodes and on none. -/
theorem Server_PivotGraph_children_witness :
    Server.PivotGraph (fun n : Nat => (n, "peer")) [3, 1, 2]
      = ({ Children := some [(3, "peer"), (1, "peer"), (2, "peer")] }, none) ∧
    (Server.PivotGraph (fun n : Nat => (n, "peer")) []).1.Children = some [] :=
  ⟨(Server_PivotGraph_children (fun n : Nat => (n, "peer")) [3, 1, 2]).1,
   (Server_PivotGraph_children (fun n : Nat => (n, "peer")) []).2.1 rfl⟩

/-! ## The permission interceptor -/

/-- In a map all of whose values are `true`, indexing yields `true` exactly
for the keys of the map. -/
theorem mapIndex_true (m : List (String × Bool)) (hall : ∀ e ∈ m, e.2 = true) (key : String) :
    mapIndex m key = true ↔ key ∈ m.map Prod.fst := by
  induction m with
  | nil => simp [mapIndex]
  | cons e rest ih =>
    obtain ⟨k, v⟩ := e
    have hv : v = true := hall (k, v) (List.mem_cons_self _ _)
    have ih2 := ih (fun e he => hall e (List.mem_cons_of_mem _ he))
    by_cases hk : key = k
    · simp [mapIndex, hk, hv]
    · simp [mapIndex, hk, ih2]

/-- C19: for every authenticated operator and every RPC method name,
`permissionsUnaryServerInterceptor` invokes the handler if and only if the
operator has `PermissionAll`, or has `PermissionBuilder` and the method is one
of the builder methods, or has `PermissionCrackstation` and the method is one
of the crackstation methods; in every other case it returns
`PermissionDenied` without invoking the handler. -/
theorem permissionsUnaryServerInterceptor_decision (operator : Operator) (FullMethod : String) :
    (permissionsUnaryServerInterceptor (some operator) FullMethod = Intercepted.handler ↔
      (operator.PermissionAll = true
        ∨ (operator.PermissionBuilder = true ∧ FullMethod ∈ builderMethods.map Prod.fst)
        ∨ (operator.PermissionCrackstation = true
            ∧ FullMethod ∈ crackstationMethods.map Prod.fst)))
    ∧ (permissionsUnaryServerInterceptor (some operator) FullMethod ≠ Intercepted.handler →
        permissionsUnaryServerInterceptor (some operator) FullMethod
          = Intercepted.status Code.PermissionDenied "Token has insufficient permissions") := by
  have hb := mapIndex_true builderMethods (by decide) FullMethod
  have hc := mapIndex_true crackstationMethods (by decide) FullMethod
  unfold permissionsUnaryServerInterceptor
  by_cases h1 : operator.PermissionAll = true
  · simp [h1]
  · by_cases h2 : (operator.PermissionBuilder && mapIndex builderMethods FullMethod) = true
    · have h2b := h2
      simp only [Bool.and_eq_true] at h2b
      simp only [h1, h2, if_true]
      refine ⟨⟨fun _ => Or.inr (Or.inl ⟨h2b.1, hb.1 h2b.2⟩), fun _ => ?_⟩, fun h => absurd ?_ h⟩
      · simp
      · simp
    · by_cases h3 : (operator.PermissionCrackstation
          && mapIndex crackstationMethods FullMethod) = true
      · have h3b := h3
        simp only [Bool.and_eq_true] at h3b
        simp only [h1, h2, h3, if_true]
        refine ⟨⟨fun _ => Or.inr (Or.inr ⟨h3b.1, hc.1 h3b.2⟩), fun _ => ?_⟩, fun h => absurd ?_ h⟩
        · simp
        · simp
      · simp only [h1, h2, h3]
        refine ⟨⟨fun h => ?_, fun h => ?_⟩, fun _ => ?_⟩
        · simp at h
        · rcases h with h | ⟨ha, hm⟩ | ⟨ha, hm⟩
          · simp at h
          · exact absurd (by simp [ha, hb.2 hm]) h2
          · exact absurd (by simp [ha, hc.2 hm]) h3
        · simp

/-- A builder operator on a builder method and on a crackstation method. -/
theorem permissionsUnaryServerInterceptor_decision_witness :
    permissionsUnaryServerInterceptor
        (some { Name := "bob", PermissionAll := false, PermissionBuilder := true,
                PermissionCrackstation := false }) "/rpcpb.SliverRPC/Builders"
      = Intercepted.handler ∧
    (permissionsUnaryServerInterceptor
        (some { Name := "bob", PermissionAll := false, PermissionBuilder := true,
                PermissionCrackstation := false }) "/rpcpb.SliverRPC/CrackTaskByID"
          ≠ Intercepted.handler →
      permissionsUnaryServerInterceptor
        (some { Name := "bob", PermissionAll := false, PermissionBuilder := true,
                PermissionCrackstation := false }) "/rpcpb.SliverRPC/CrackTaskByID"
      = Intercepted.status Code.PermissionDenied "Token has insufficient permissions") :=
  ⟨by decide,
   (permissionsUnaryServerInterceptor_decision
      { Name := "bob", PermissionAll := false, PermissionBuilder := true,
        PermissionCrackstation := false } "/rpcpb.SliverRPC/CrackTaskByID").2⟩

/-! ## The interface check of the TCP stager listener -/

theorem indexByte_none (c : Char) (s : List Char) (h : c ∉ s) : indexByte s c = none := by
  induction s with
  | nil => rfl
  | cons x rest ih =>
    have hx : x ≠ c := fun e => h (e ▸ List.mem_cons_self _ _)
    have hr : c ∉ rest := fun m => h (List.mem_cons_of_mem _ m)
    simp [indexByte, hx, ih hr]

/-- A text without colon is refused by `SplitHostPort`. -/
theorem SplitHostPort_no_colon (s : String) (h : ':' ∉ s.toList) :
    SplitHostPort s = Except.error "missing port in address" := by
  have hl : lastIndexByte s.toList ':' = none := by
    unfold lastIndexByte
    rw [indexByte_none ':' s.toList.reverse (by simpa using h)]
    rfl
  unfold SplitHostPort
  simp only [hl]

theorem digitChar_ne_colon : ∀ m, m < 10 → Nat.digitChar m ≠ ':' := by
  decide

theorem toDigitsCore_no_colon (fuel : Nat) :
    ∀ (n : Nat) (ds : List Char), ':' ∉ ds → ':' ∉ Nat.toDigitsCore 10 fuel n ds := by
  induction fuel with
  | zero => intro n ds h; exact h
  | succ f ih =>
    intro n ds h
    have hd : ':' ∉ Nat.digitChar (n % 10) :: ds := by
      intro hm
      rcases List.mem_cons.1 hm with h1 | h2
      · exact digitChar_ne_colon (n % 10) (Nat.mod_lt _ (by decide)) h1.symm
      · exact h h2
    unfold Nat.toDigitsCore
    simp only
    split
    · exact hd
    · exact ih _ _ hd

theorem toString_no_colon (n : Nat) : ':' ∉ (toString n).toList := by
  show ':' ∉ Nat.toDigits 10 n
  exact toDigitsCore_no_colon _ _ _ (by simp)

/-- The CIDR text of an IPv4 network has no colon. -/
theorem IPNet_String_no_colon (n : IPNet) : ':' ∉ n.String.toList := by
  have h0 := toString_no_colon n.IP.b0
  have h1 := toString_no_colon n.IP.b1
  have h2 := toString_no_colon n.IP.b2
  have h3 := toString_no_colon n.IP.b3
  have h4 := toString_no_colon n.Ones
  simp only [String.toList] at h0 h1 h2 h3 h4
  simp only [IPNet.String, IP.String, String.toList, String.data_append, List.mem_append, not_or]
  refine ⟨⟨⟨⟨⟨⟨⟨⟨h0, ?_⟩, h1⟩, ?_⟩, h2⟩, ?_⟩, h3⟩, ?_⟩, h4⟩ <;> decide

/-- The address of an interface never resolves: its CIDR text has no port. -/
theorem ResolveTCPAddr_IPNet (net : Net) (n : IPNet) : net.ResolveTCPAddr n.String = none := by
  unfold Net.ResolveTCPAddr
  rw [SplitHostPort_no_colon n.String (IPNet_String_no_colon n)]

/-- On a host whose interfaces have IPv4 addresses `checkInterface` is false
for every text, whatever the resolver does with a host and a port: the first
address met ends the check with the error of `net.ResolveTCPAddr`, and
`StartTCPStagerListener` starts every job on 0.0.0.0. -/
theorem checkInterface_false (net : Net) :
    (∀ a, checkInterface net a = false)
    ∧ ∀ startJob req, Server.StartTCPStagerListener net startJob req
        = match startJob "0.0.0.0" (req.Port % 2 ^ 16) req.ProfileName req.Data with
          | Except.error err => (none, some err)
          | Except.ok jobID => (some (jobID % 2 ^ 32), none) := by
  have haddr : ∀ (a : String) (addrs : List IPNet), checkAddresses net a addrs = none
      ∨ checkAddresses net a addrs = some false := by
    intro a addrs
    cases addrs with
    | nil => exact Or.inl rfl
    | cons n rest => right; simp [checkAddresses, ResolveTCPAddr_IPNet]
  have hifs : ∀ (a : String) (l : List NetInterface), checkInterfaces net a l = false := by
    intro a l
    induction l with
    | nil => rfl
    | cons i rest ih =>
      unfold checkInterfaces
      cases hi : i.Addrs with
      | none => rfl
      | some addrs =>
        rcases haddr a addrs with h | h
        · simp only [h]; exact ih
        · simp only [h]
  have hci : ∀ a, checkInterface net a = false := by
    intro a
    unfold checkInterface
    cases net.Interfaces with
    | none => rfl
    | some l => exact hifs a l
  refine ⟨hci, ?_⟩
  intro startJob req
  unfold Server.StartTCPStagerListener
  simp only [hci req.Host]
  rfl

/-- C20, the code at the failing input: on a host whose loopback interface
has the address 127.0.0.1/8 and whose second interface has the address
10.0.0.5/24, `checkInterface("127.0.0.1")` and `checkInterface("10.0.0.5")`
are false although both IPs are attached to an interface.
`net.ResolveTCPAddr` is called on the CIDR text "127.0.0.1/8" of the first
address, which has no port: `SplitHostPort` refuses it and the check returns
false on that error, at the first address it meets. A listener asked for host
127.0.0.1 is started on 0.0.0.0. The resolver itself resolves "127.0.0.1:0"
to 127.0.0.1, and the CIDR text of an IPv6 address is refused as well. -/
theorem checkInterface_false_on_attached_address :
    loopbackNet.Interfaces
      = some [{ Addrs := some [{ IP := { b0 := 127, b1 := 0, b2 := 0, b3 := 1 }, Ones := 8 }] },
              { Addrs := some [{ IP := { b0 := 10, b1 := 0, b2 := 0, b3 := 5 }, Ones := 24 }] }] ∧
    IPNet.String { IP := { b0 := 127, b1 := 0, b2 := 0, b3 := 1 }, Ones := 8 } = "127.0.0.1/8" ∧
    SplitHostPort "127.0.0.1/8" = Except.error "missing port in address" ∧
    SplitHostPort "fe80::1/64" = Except.error "too many colons in address" ∧
    loopbackNet.ResolveTCPAddr "127.0.0.1/8" = none ∧
    loopbackNet.ResolveTCPAddr "127.0.0.1:0" = some "127.0.0.1" ∧
    checkInterface loopbackNet "127.0.0.1" = false ∧
    checkInterface loopbackNet "10.0.0.5" = false ∧
    Server.StartTCPStagerListener loopbackNet echoJob
        { Host := "127.0.0.1", Port := 8443, ProfileName := "", Data := [] }
      = (none, some "0.0.0.0") := by
  refine ⟨rfl, by decide, by rfl, by rfl, by decide, by decide, by decide, by decide, by decide⟩

/-! ## The MSF stager RPC -/

/-- Without a stager file `randomPath` panics, whatever the random source
yields: the file name is drawn with `Intn(0)`. -/
theorem randomPath_no_files (rnd : Nat → Nat) (segments : List String) :
    randomPath rnd segments [] = none := by
  unfold randomPath
  cases Intn rnd 0 3 with
  | none => rfl
  | some n =>
    simp only
    cases pickSegments rnd segments n 1 [] with
    | none => rfl
    | some r =>
      obtain ⟨g, k⟩ := r
      simp [Intn]

/-- What `MsfStage` does with a request that is not for Windows or whose
protocol is not supported, when it does not fault: it returns an error and the
empty stager and generates no payload; it can only fault inside
`generateCallbackURI`, for the protocols HTTP and HTTPS. -/
theorem MsfStage_refuses (env : MsfEnv) (req : MsfStagerReq)
    (h : req.OS ≠ "windows" ∨ ∃ n, req.Protocol = StageProtocol.other n) :
    Server.MsfStage env req
        = Run.done (emptyStager, some (req.OS ++ " is currently not supported")) []
    ∨ Server.MsfStage env req = Run.done (emptyStager, some "protocol not supported") []
    ∨ (Server.MsfStage env req = Run.fault []
        ∧ (req.Protocol = StageProtocol.HTTP ∨ req.Protocol = StageProtocol.HTTPS)
        ∧ generateCallbackURI env req.HTTPC2ConfigName = none) := by
  unfold Server.MsfStage
  cases hp : req.Protocol with
  | other n => right; left; rfl
  | TCP =>
    rcases h with h | ⟨n, hn⟩
    · left; simp [stageFor, h]
    · rw [hp] at hn; cases hn
  | HTTP =>
    rcases h with h | ⟨n, hn⟩
    · cases hu : generateCallbackURI env req.HTTPC2ConfigName with
      | none => right; right; exact ⟨rfl, Or.inl rfl, rfl⟩
      | some uri => left; simp [stageFor, h]
    · rw [hp] at hn; cases hn
  | HTTPS =>
    rcases h with h | ⟨n, hn⟩
    · cases hu : generateCallbackURI env req.HTTPC2ConfigName with
      | none => right; right; exact ⟨rfl, Or.inr rfl, rfl⟩
      | some uri => left; simp [stageFor, h]
    · rw [hp] at hn; cases hn

/-- C21, the code at the failing input: a stager request for Linux over HTTP
whose HTTP C2 profile loads and has no stager path or file segment. The
protocol switch calls `generateCallbackURI` before the check of the OS, and
`randomPath` draws the file name with `Intn(0)`: `MsfStage` stops on that
panic instead of returning an error. -/
theorem MsfStage_faults_without_stage_files :
    linuxHttpReq.OS = "linux" ∧ linuxHttpReq.Protocol = StageProtocol.HTTP ∧
    msfEnv.LoadHTTPC2ConfigByName linuxHttpReq.HTTPC2ConfigName
      = Except.ok [{ SegmentType := 0, IsFile := false, Value := "api" },
                   { SegmentType := 1, IsFile := true, Value := "index.php" }] ∧
    stageSegments [{ SegmentType := 0, IsFile := false, Value := "api" },
                   { SegmentType := 1, IsFile := true, Value := "index.php" }] ([], [])
      = ([], []) ∧
    generateCallbackURI msfEnv "plain" = none ∧
    Server.MsfStage msfEnv linuxHttpReq = Run.fault [] := by
  refine ⟨by decide, by decide, by rfl, by decide, by decide, by decide⟩

/-! ## The DNS canary conversions -/

/-- What `DNSCanaryFromProtobuf` after `ToProtobuf` gives: the name, the
domain, the trigger flag and the count of the canary, and as `ID` what
`uuid.FromString` returns on the empty string. -/
theorem DNSCanary_round_trip_fields (lib : CanaryLib) (c : DNSCanary) :
    (DNSCanaryFromProtobuf lib (c.ToProtobuf lib)).ImplantName = c.ImplantName
    ∧ (DNSCanaryFromProtobuf lib (c.ToProtobuf lib)).Domain = c.Domain
    ∧ (DNSCanaryFromProtobuf lib (c.ToProtobuf lib)).Triggered = c.Triggered
    ∧ (DNSCanaryFromProtobuf lib (c.ToProtobuf lib)).Count = c.Count
    ∧ (DNSCanaryFromProtobuf lib (c.ToProtobuf lib)).ID = lib.FromString "" :=
  ⟨rfl, rfl, rfl, rfl, rfl⟩

/-- C22, the code at the failing input: `ToProtobuf` does not copy the `ID` of
the canary into the message, so the canary read back from the message has the
nil identifier, not the identifier of the canary it came from. -/
theorem DNSCanary_round_trip_loses_ID :
    canaryX.ID = "123e4567-e89b-12d3-a456-426614174000" ∧
    (canaryX.ToProtobuf sampleLib).ID = "" ∧
    (DNSCanaryFromProtobuf sampleLib (canaryX.ToProtobuf sampleLib)).ID = nilUUID ∧
    (DNSCanaryFromProtobuf sampleLib (canaryX.ToProtobuf sampleLib)).ID ≠ canaryX.ID := by
  decide

/-! ## The correlation id of a dispatched task -/

theorem taskEnvelope_some (p : Proto) (t : BeaconTask) (e : Envelope)
    (h : taskEnvelope p t = some e) :
    ∃ e0, p.unmarshalEnvelope t.Request = some e0 ∧ e = { e0 with ID := t.EnvelopeID }
      ∧ e.ID = t.EnvelopeID := by
  unfold taskEnvelope at h
  cases hd : p.unmarshalEnvelope t.Request with
  | none => simp [hd] at h
  | some e0 =>
    simp only [hd, Option.some.injEq] at h
    exact ⟨e0, rfl, h.symm, by rw [← h]⟩

/-- C23: on a check-in without results the response batch is built from the
pending tasks by `taskEnvelope`: for every pending task whose stored request
decodes, the envelope placed in the batch is the decoded request with its `ID`
set to the task's `EnvelopeID`, whatever `ID` the stored request contained;
two dispatched tasks with distinct `EnvelopeID`s are sent with distinct ids;
and a result that echoes the id of a dispatched envelope is looked up by the
beacon id and that task's `EnvelopeID`. -/
theorem beaconTasksHandler_correlation_id (p : Proto) (env : Env) (w : World) (data : Bytes)
    (msg : BaconTasks) (pending : List BeaconTask) (err : Option DbError)
    (hmsg : p.unmarshalBaconTasks data = some msg) (hres : msg.Tasks = [])
    (hq : PendingBeaconTasksByBeaconID env w.tasks msg.ID = (pending, err))
    (herr : err ≠ some DbError.other) :
    (beaconTasksHandler p env w data).1 =
      (p.marshalBaconTasks
          { ID := "", Tasks := pending.filterMap (taskEnvelope p), NextCheckin := 0 }).map
        (fun d => { ID := 0, Type_ := p.MsgBeaconTasks, Data := d })
    ∧ (∀ t ∈ pending, ∀ e0, p.unmarshalEnvelope t.Request = some e0 →
        taskEnvelope p t = some { e0 with ID := t.EnvelopeID }
        ∧ { e0 with ID := t.EnvelopeID } ∈ pending.filterMap (taskEnvelope p))
    ∧ (∀ e ∈ pending.filterMap (taskEnvelope p), ∃ t ∈ pending, e.ID = t.EnvelopeID)
    ∧ (∀ t1 ∈ pending, ∀ t2 ∈ pending, ∀ e1 e2, taskEnvelope p t1 = some e1 →
        taskEnvelope p t2 = some e2 → t1.EnvelopeID ≠ t2.EnvelopeID → e1.ID ≠ e2.ID)
    ∧ (∀ t ∈ pending, ∀ e, taskEnvelope p t = some e →
        ∀ (env2 : Env) (w2 : World) (r : Envelope), r.ID = e.ID →
          taskResult p env2 msg.ID r w2 = w2 ∨
          ∃ found, BeaconTaskByEnvelopeID env2 w2.tasks msg.ID t.EnvelopeID = (some found, none)
            ∧ env2.updateFails (markCompleted env2 found r) = false
            ∧ taskResult p env2 msg.ID r w2 =
              { tasks := updateTask w2.tasks found.ID (markCompleted env2 found r),
                events := w2.events ++ [{ EventType := EventType.BeaconTaskResultEvent,
                                          Data := p.marshalBeaconTask (markCompleted env2 found r) }],
                checkins := w2.checkins }) := by
  refine ⟨?_, ?_, ?_, ?_, ?_⟩
  · rw [beaconTasksHandler_poll p env w data msg pending err hmsg hres hq herr]
  · intro t ht e0 he0
    have hte : taskEnvelope p t = some { e0 with ID := t.EnvelopeID } := by
      simp [taskEnvelope, he0]
    exact ⟨hte, List.mem_filterMap.2 ⟨t, ht, hte⟩⟩
  · intro e he
    obtain ⟨t, ht, hte⟩ := List.mem_filterMap.1 he
    obtain ⟨_, _, _, hid⟩ := taskEnvelope_some p t e hte
    exact ⟨t, ht, hid⟩
  · intro t1 _ t2 _ e1 e2 h1 h2 hne heq
    obtain ⟨_, _, _, hid1⟩ := taskEnvelope_some p t1 e1 h1
    obtain ⟨_, _, _, hid2⟩ := taskEnvelope_some p t2 e2 h2
    exact hne (by rw [← hid1, ← hid2, heq])
  · intro t _ e hte env2 w2 r hr
    obtain ⟨_, _, _, hid⟩ := taskEnvelope_some p t e hte
    have hrid : r.ID = t.EnvelopeID := by rw [hr, hid]
    rcases taskResult_cases p env2 msg.ID r w2 with h | ⟨found, hl, hu, h⟩
    · exact Or.inl h
    · exact Or.inr ⟨found, by rw [← hrid]; exact hl, hu, h⟩

/-- A check-in of beacon "b" with `taskT1` and `taskT4` pending: the stored
request of `taskT4` carries the id 42 and is sent with the id 11. -/
theorem beaconTasksHandler_correlation_id_witness :
    PendingBeaconTasksByBeaconID (calm 100) [taskT4, taskT1] "b" = ([taskT1, taskT4], none) ∧
    wire.unmarshalEnvelope taskT4.Request = some { ID := 42, Type_ := 5, Data := [] } ∧
    [taskT1, taskT4].filterMap (taskEnvelope wire)
      = [{ ID := 7, Type_ := 5, Data := [] }, { ID := 11, Type_ := 5, Data := [] }] ∧
    (taskEnvelope wire taskT4 = some { ({ ID := 42, Type_ := 5, Data := [] } : Envelope) with
        ID := taskT4.EnvelopeID }
      ∧ { ({ ID := 42, Type_ := 5, Data := [] } : Envelope) with ID := taskT4.EnvelopeID }
          ∈ [taskT1, taskT4].filterMap (taskEnvelope wire)) :=
  ⟨by decide, by decide, by decide,
   (beaconTasksHandler_correlation_id wire (calm 100)
      { tasks := [taskT4, taskT1], events := [], checkins := [] } pollB
      { ID := "b", Tasks := [], NextCheckin := 0 } [taskT1, taskT4] none
      (by decide) rfl (by decide) (by decide)).2.1 taskT4 (by decide)
      { ID := 42, Type_ := 5, Data := [] } (by decide)⟩

/-! ## The two permission interceptors -/

/-- C24: the unary and the stream permission interceptors make the same
decision: for every operator (nil, or any combination of `PermissionAll`,
`PermissionBuilder` and `PermissionCrackstation`) and every full method name
they return the same outcome, so one invokes its handler if and only if the
other does, and when they deny they return the same status code (and
message). -/
theorem permissions_unary_stream_agree (operator : Option Operator) (FullMethod : String) :
    permissionsUnaryServerInterceptor operator FullMethod
      = permissionsStreamServerInterceptor operator FullMethod
    ∧ (permissionsUnaryServerInterceptor operator FullMethod = Intercepted.handler ↔
        permissionsStreamServerInterceptor operator FullMethod = Intercepted.handler)
    ∧ ∀ code msg, permissionsUnaryServerInterceptor operator FullMethod
          = Intercepted.status code msg →
        permissionsStreamServerInterceptor operator FullMethod = Intercepted.status code msg := by
  have h : permissionsUnaryServerInterceptor operator FullMethod
      = permissionsStreamServerInterceptor operator FullMethod := by
    unfold permissionsUnaryServerInterceptor permissionsStreamServerInterceptor
    cases operator with
    | none => rfl
    | some op => rfl
  exact ⟨h, by rw [h], fun code msg hu => by rw [← h]; exact hu⟩

/-- A crackstation operator on a crackstation method and on a builder method,
and a call without operator. -/
theorem permissions_unary_stream_agree_witness :
    permissionsStreamServerInterceptor
        (some { Name := "carl", PermissionAll := false, PermissionBuilder := false,
                PermissionCrackstation := true }) "/rpcpb.SliverRPC/CrackFilesList"
      = Intercepted.handler ∧
    permissionsStreamServerInterceptor
        (some { Name := "carl", PermissionAll := false, PermissionBuilder := false,
                PermissionCrackstation := true }) "/rpcpb.SliverRPC/Builders"
      = Intercepted.status Code.PermissionDenied "Token has insufficient permissions" ∧
    permissionsStreamServerInterceptor none "/rpcpb.SliverRPC/Builders"
      = Intercepted.status Code.Unauthenticated "Authentication failure" ∧
    permissionsUnaryServerInterceptor
        (some { Name := "carl", PermissionAll := false, PermissionBuilder := false,
                PermissionCrackstation := true }) "/rpcpb.SliverRPC/Builders"
      = permissionsStreamServerInterceptor
        (some { Name := "carl", PermissionAll := false, PermissionBuilder := false,
                PermissionCrackstation := true }) "/rpcpb.SliverRPC/Builders" :=
  ⟨by decide, by decide, by decide,
   (permissions_unary_stream_agree
      (some { Name := "carl", PermissionAll := false, PermissionBuilder := false,
              PermissionCrackstation := true }) "/rpcpb.SliverRPC/Builders").1⟩

/-! ## The token cache -/

theorem TokenCache.Store_mem (cache : TokenCache) (token : String) (operator : Operator)
    (e : String × Operator) (h : e ∈ cache.Store token operator) :
    e = (token, operator) ∨ e ∈ cache := by
  unfold TokenCache.Store at h
  rcases List.mem_cons.1 h with h1 | h2
  · exact Or.inl h1
  · exact Or.inr (List.mem_of_mem_filter h2)

/-- The outcomes of one call of `tokenAuthFunc`. -/
theorem tokenAuthFunc_cases (d : String → String)
    (db : String → Option Operator × Option DbError) (cache : TokenCache)
    (rawToken : Option String) :
    (tokenAuthFunc d db cache rawToken
        = (AuthResult.status Code.Unauthenticated "Authentication failure", cache)
      ∧ (rawToken = none ∨ ∃ t, rawToken = some t ∧ cache.Load (d t) = none
          ∧ ∀ op, db (d t) ≠ (some op, none)))
    ∨ (∃ t op, rawToken = some t ∧ cache.Load (d t) = some op
        ∧ tokenAuthFunc d db cache rawToken
          = (AuthResult.ok { Transport := "mtls", Operator := op }, cache))
    ∨ (∃ t op, rawToken = some t ∧ cache.Load (d t) = none ∧ db (d t) = (some op, none)
        ∧ tokenAuthFunc d db cache rawToken
          = (AuthResult.ok { Transport := "mtls", Operator := op }, cache.Store (d t) op)) := by
  cases rawToken with
  | none => exact Or.inl ⟨rfl, Or.inl rfl⟩
  | some t =>
    cases hl : cache.Load (d t) with
    | some op =>
      right; left
      exact ⟨t, op, rfl, hl, by simp [tokenAuthFunc, hl]⟩
    | none =>
      cases hdb : db (d t) with
      | mk o e =>
        cases o with
        | none =>
          left
          refine ⟨by simp [tokenAuthFunc, hl, hdb], Or.inr ⟨t, rfl, hl, ?_⟩⟩
          intro op h
          rw [hdb] at h
          simp at h
        | some op =>
          cases e with
          | none =>
            right; right
            exact ⟨t, op, rfl, hl, hdb, by simp [tokenAuthFunc, hl, hdb]⟩
          | some x =>
            left
            refine ⟨by simp [tokenAuthFunc, hl, hdb], Or.inr ⟨t, rfl, hl, ?_⟩⟩
            intro op2 h
            rw [hdb] at h
            simp at h

/-- An entry of the cache after one call was in the cache before it or was
validated by the call. -/
theorem tokenAuthFunc_entries (d : String → String)
    (db : String → Option Operator × Option DbError) (cache : TokenCache)
    (rawToken : Option String) (e : String × Operator)
    (h : e ∈ (tokenAuthFunc d db cache rawToken).2) :
    e ∈ cache ∨ ∃ t, rawToken = some t ∧ e.1 = d t ∧ db e.1 = (some e.2, none) := by
  rcases tokenAuthFunc_cases d db cache rawToken with ⟨hr, _⟩ | ⟨t, op, _, _, hr⟩
      | ⟨t, op, ht, _, hdb, hr⟩
  · rw [hr] at h; exact Or.inl h
  · rw [hr] at h; exact Or.inl h
  · rw [hr] at h
    rcases TokenCache.Store_mem cache (d t) op e h with h1 | h2
    · right
      refine ⟨t, ht, by rw [h1], ?_⟩
      rw [h1]
      exact hdb
    · exact Or.inl h2

theorem validatedBy_cons (d : String → String) (c : AuthCall) (calls : List AuthCall)
    (e : String × Operator) (h : validatedBy d calls e) : validatedBy d (c :: calls) e := by
  obtain ⟨tok, db, hm, h1, h2⟩ := h
  exact ⟨tok, db, List.mem_cons_of_mem _ hm, h1, h2⟩

/-- An entry of the cache after a sequence of calls was in the cache before
it or was validated by one of the calls. -/
theorem authRun_entries (d : String → String) (calls : List AuthCall) :
    ∀ (cache : TokenCache), ∀ e ∈ (authRun d calls cache).2,
      e ∈ cache ∨ validatedBy d calls e := by
  induction calls with
  | nil => intro cache e h; exact Or.inl h
  | cons c rest ih =>
    intro cache e h
    cases c with
    | clear =>
      simp only [authRun, ClearTokenCache] at h
      rcases ih [] e h with h1 | h2
      · simp at h1
      · exact Or.inr (validatedBy_cons d _ rest e h2)
    | auth rawToken db =>
      simp only [authRun] at h
      rcases ih _ e h with h1 | h2
      · rcases tokenAuthFunc_entries d db cache rawToken e h1 with h3 | ⟨t, ht, h4, h5⟩
        · exact Or.inl h3
        · right
          exact ⟨t, db, by rw [ht]; exact List.mem_cons_self _ _, h4, h5⟩
      · exact Or.inr (validatedBy_cons d _ rest e h2)

theorem authRun_append (d : String → String) (pre post : List AuthCall) :
    ∀ cache : TokenCache, (authRun d (pre ++ post) cache).2
      = (authRun d post (authRun d pre cache).2).2 := by
  induction pre with
  | nil => intro cache; rfl
  | cons c rest ih =>
    intro cache
    cases c with
    | clear => simp only [List.cons_append, authRun]; exact ih _
    | auth rawToken db => simp only [List.cons_append, authRun]; exact ih _

/-- C25: the auth token cache only ever holds validated tokens. Starting from
an empty cache, and after every `ClearTokenCache`, for every sequence of
`tokenAuthFunc` calls every cache entry maps the hex SHA-256 digest of the
token of one of the calls to the operator the database returned for that
digest at that call. A call that fails (no bearer token, a database error or
no operator) returns `Unauthenticated` and leaves the cache as it was, and a
call succeeds only with the operator the cache holds for the digest of its
token or, when the cache holds none, with the operator the database returns
for it. -/
theorem tokenCache_validated (d : String → String) :
    (∀ calls, ∀ e ∈ (authRun d calls []).2, validatedBy d calls e)
    ∧ (∀ pre post cache, ∀ e ∈ (authRun d (pre ++ AuthCall.clear :: post) cache).2,
        validatedBy d post e)
    ∧ (∀ db cache rawToken code msg,
        (tokenAuthFunc d db cache rawToken).1 = AuthResult.status code msg →
        code = Code.Unauthenticated ∧ (tokenAuthFunc d db cache rawToken).2 = cache
        ∧ (rawToken = none ∨ ∃ t, rawToken = some t ∧ cache.Load (d t) = none
            ∧ ∀ op, db (d t) ≠ (some op, none)))
    ∧ (∀ db cache rawToken ctx,
        (tokenAuthFunc d db cache rawToken).1 = AuthResult.ok ctx →
        ∃ t, rawToken = some t
          ∧ (cache.Load (d t) = some ctx.Operator
            ∨ (cache.Load (d t) = none ∧ db (d t) = (some ctx.Operator, none)))) := by
  refine ⟨?_, ?_, ?_, ?_⟩
  · intro calls e h
    rcases authRun_entries d calls [] e h with h1 | h2
    · simp at h1
    · exact h2
  · intro pre post cache e h
    rw [authRun_append] at h
    simp only [authRun, ClearTokenCache] at h
    rcases authRun_entries d post [] e h with h1 | h2
    · simp at h1
    · exact h2
  · intro db cache rawToken code msg h
    rcases tokenAuthFunc_cases d db cache rawToken with ⟨hr, hwhy⟩ | ⟨t, op, _, _, hr⟩
        | ⟨t, op, _, _, _, hr⟩
    · rw [hr] at h ⊢
      simp only [AuthResult.status.injEq] at h
      exact ⟨h.1.symm, rfl, hwhy⟩
    · rw [hr] at h; simp at h
    · rw [hr] at h; simp at h
  · intro db cache rawToken ctx h
    rcases tokenAuthFunc_cases d db cache rawToken with ⟨hr, _⟩ | ⟨t, op, ht, hl, hr⟩
        | ⟨t, op, ht, hl, hdb, hr⟩
    · rw [hr] at h; simp at h
    · rw [hr] at h
      simp only [AuthResult.ok.injEq] at h
      exact ⟨t, ht, Or.inl (by rw [hl, ← h])⟩
    · rw [hr] at h
      simp only [AuthResult.ok.injEq] at h
      exact ⟨t, ht, Or.inr ⟨hl, by rw [hdb, ← h]⟩⟩

/-- A wrong token, a request without token, the token of "alice", the same
token once the database has forgotten it, and the same after a clear. -/
theorem tokenCache_validated_witness :
    authRun markDigest [AuthCall.auth (some "bad") aliceDb, AuthCall.auth none aliceDb,
        AuthCall.auth (some "s3cret") aliceDb, AuthCall.auth (some "s3cret") emptyDb] []
      = ([AuthResult.status Code.Unauthenticated "Authentication failure",
          AuthResult.status Code.Unauthenticated "Authentication failure",
          AuthResult.ok { Transport := "mtls", Operator := alice },
          AuthResult.ok { Transport := "mtls", Operator := alice }],
         [(markDigest "s3cret", alice)]) ∧
    (authRun markDigest [AuthCall.auth (some "s3cret") aliceDb, AuthCall.clear,
        AuthCall.auth (some "s3cret") emptyDb] []).1
      = [AuthResult.ok { Transport := "mtls", Operator := alice },
         AuthResult.status Code.Unauthenticated "Authentication failure"] ∧
    ∀ e ∈ (authRun markDigest [AuthCall.auth (some "bad") aliceDb, AuthCall.auth none aliceDb,
        AuthCall.auth (some "s3cret") aliceDb, AuthCall.auth (some "s3cret") emptyDb] []).2,
      validatedBy markDigest [AuthCall.auth (some "bad") aliceDb, AuthCall.auth none aliceDb,
        AuthCall.auth (some "s3cret") aliceDb, AuthCall.auth (some "s3cret") emptyDb] e :=
  ⟨by decide, by decide,
   (tokenCache_validated markDigest).1 [AuthCall.auth (some "bad") aliceDb,
     AuthCall.auth none aliceDb, AuthCall.auth (some "s3cret") aliceDb,
     AuthCall.auth (some "s3cret") emptyDb]⟩

end Sliver
